import Mathlib

/-!
# geo-alerts: geofence evaluation and incident services

A shallow embedding of the Go packages

* `internal/domain/errs`, `internal/domain/models`
* `internal/utils/geo` (`Distance`)
* `internal/services/location` (`Service.Check`, `getActiveIncidents`, `processPostCheck`)
* `internal/services/incident` (`Service.Create`, `Update`, `Deactivate`, ...)
* `internal/repos/incident` (`Repo.Create`, `Update`, `Deactivate`, `GetActive`, `GetByID`)
* `internal/repos/cache` (`Repo.GetActiveIncidents`, `SetActiveIncidents`, `Invalidate...`)
* `internal/storage/transactor` (`Manager.Run`, `GetQueryEngine`, `injectTx`, `extractTx`)
* `internal/workers/webhook` (`TaskHandler.ProcessTask`)
* `internal/queue` (`Client.EnqueueDangerAlert`, `WebhookPayload`)
* `internal/handlers/incident` (`Handler.list`, `ListReq`)

Conventions of the embedding.

* `float64` is a type parameter `F` carrying the operations the code uses (`Float64Ops F`);
  nothing is assumed about rounding unless a theorem lists the law it needs.
* The collaborators behind the Go interfaces (cache, incident store, audit log, queue) are
  functions on an arbitrary backend state `σ`; every call made on them is recorded in the
  `calls` trace of the `World`, the way the mocks of the test suites record calls.
* A Go result pair `(value, error)` is a product whose second component is `Option Error`
  (`none` is the nil error); a pointer result is an `Option` (`none` is nil).
* `context.Context` arguments are dropped: cancellation and deadlines show up only as
  collaborator calls that fail, and collaborator outcomes are arbitrary here. Package
  `transactor` is the exception: there the context is the list of the values it carries.
* The database and the cache server are states with a fault schedule: every statement or
  command takes the next entry, and a scheduled fault is the error of the driver. The
  statements are read on a table of rows; `ST_DWithin`, `encoding/json` and `net/http` are
  parameters.
-/

namespace GeoAlerts

/-! ## Go values -/

/-- Go `error` values. A package-level error variable is identified by its qualified name
(Go compares such values by identity); `New` is a fresh `errors.New(msg)`; `Wrap` is
`fmt.Errorf("msg: %w", inner)`. -/
inductive Error where
  | pkgVar (name : String)
  | New (msg : String)
  | Wrap (msg : String) (inner : Error)
  deriving DecidableEq, Repr

/-- The chain walk of `errors.Is(err, target)`. -/
def Error.Is : Error → Error → Bool
  | Error.Wrap msg inner, target =>
    decide (Error.Wrap msg inner = target) || Error.Is inner target
  | e, target => decide (e = target)

/-- A Go slice value: the nil slice, or a (possibly empty) sequence of elements. -/
inductive Slice (α : Type) where
  | nil
  | mk (elems : List α)
  deriving DecidableEq, Repr

/-- The elements a `for _, x := range s` loop visits, in order. -/
def Slice.toList {α : Type} : Slice α → List α
  | Slice.nil => []
  | Slice.mk xs => xs

/-- The builtin `len(s)`. -/
def Slice.len {α : Type} (s : Slice α) : Nat := s.toList.length

/-- The builtin `append(s, x)`: the result is never nil. -/
def Slice.append {α : Type} (s : Slice α) (x : α) : Slice α := Slice.mk (s.toList ++ [x])

/-- A `time.Time` instant (a count of nanoseconds). -/
abbrev Time := Int

/-- A `time.Duration`. -/
abbrev Duration := Int

/-- The `float64` operations used by the code, over a carrier `F`.
`le` is the comparison `<=`, `ofInt` the conversion `float64(n)` (also used for the integer
constants `180.0`, `2`, `1` and `earthRadius`), `pi` is `math.Pi`, and `sin`, `cos`, `sqrt`,
`atan2` are the functions of package `math`. -/
class Float64Ops (F : Type) where
  add : F → F → F
  sub : F → F → F
  mul : F → F → F
  div : F → F → F
  le : F → F → Bool
  ofInt : Int → F
  pi : F
  sin : F → F
  cos : F → F
  sqrt : F → F
  atan2 : F → F → F

/-- The hardware floats of the Lean runtime as a carrier: the definitions below run on it. -/
instance instFloat64OpsFloat : Float64Ops Float where
  add x y := x + y
  sub x y := x - y
  mul x y := x * y
  div x y := x / y
  le x y := decide (x ≤ y)
  ofInt n := Float.ofInt n
  pi := 3.14159265358979323846264338327950288419716939937510582097494459
  sin := Float.sin
  cos := Float.cos
  sqrt := Float.sqrt
  atan2 := Float.atan2

/-- The real numbers as a carrier: `float64` arithmetic without rounding, overflow or NaN.
What is proved on this carrier alone says nothing about rounding; it serves claims that are
about the reals and concrete runs.
`atan2 y x` is the argument of the complex number `x + y i`, which agrees with `math.Atan2`
on every pair of reals, `atan2 0 0 = 0` and `atan2 0 x = π` for `x < 0` included. -/
noncomputable instance instFloat64OpsReal : Float64Ops ℝ where
  add x y := x + y
  sub x y := x - y
  mul x y := x * y
  div x y := x / y
  le x y := decide (x ≤ y)
  ofInt n := (n : ℝ)
  pi := Real.pi
  sin := Real.sin
  cos := Real.cos
  sqrt := Real.sqrt
  atan2 y x := Complex.arg ⟨x, y⟩

/-- Facts of IEEE-754 binary64 arithmetic (round to nearest) and of the special cases that
package `math` documents, stated for an arbitrary carrier. `finite x` says that `x` is neither
an infinity nor a NaN, `isZero x` that `x` is `+0` or `-0`. -/
structure Float64Laws (F : Type) [Float64Ops F] where
  finite : F → Prop
  isZero : F → Prop
  /-- Zeros are finite. -/
  isZero_finite : ∀ z, isZero z → finite z
  /-- Converting an `int64` never overflows. -/
  finite_ofInt : ∀ n : Int, -2 ^ 63 ≤ n → n < 2 ^ 63 → finite (Float64Ops.ofInt n)
  /-- A nonzero integer converts to a nonzero float. -/
  ofInt_ne_zero : ∀ n : Int, n ≠ 0 → ¬ isZero (Float64Ops.ofInt n)
  /-- For finite `x`, `x - x` is `+0`. -/
  sub_self : ∀ x, finite x → isZero (Float64Ops.sub x x)
  /-- A zero times a finite number is a zero. -/
  zero_mul : ∀ z c, isZero z → finite c → isZero (Float64Ops.mul z c)
  /-- A finite number times a zero is a zero. -/
  mul_zero : ∀ c z, finite c → isZero z → isZero (Float64Ops.mul c z)
  /-- A zero divided by a finite nonzero number is a zero. -/
  zero_div : ∀ z c, isZero z → finite c → ¬ isZero c → isZero (Float64Ops.div z c)
  /-- The sum of two zeros is a zero. -/
  zero_add : ∀ x y, isZero x → isZero y → isZero (Float64Ops.add x y)
  /-- The constant `math.Pi / 180.0` is finite. -/
  finite_degToRad : finite (Float64Ops.div Float64Ops.pi (Float64Ops.ofInt 180))
  /-- Scaling by `math.Pi / 180.0`, of magnitude below one, never overflows. -/
  finite_mul_degToRad : ∀ x, finite x →
    finite (Float64Ops.mul x (Float64Ops.div Float64Ops.pi (Float64Ops.ofInt 180)))
  /-- The special case `Sin(±0) = ±0`. -/
  sin_zero : ∀ z, isZero z → isZero (Float64Ops.sin z)
  /-- The cosine of a finite number is finite (`Cos` is NaN only at `±Inf` and NaN). -/
  cos_finite : ∀ x, finite x → finite (Float64Ops.cos x)
  /-- The special case `Sqrt(±0) = ±0`. -/
  sqrt_zero : ∀ z, isZero z → isZero (Float64Ops.sqrt z)
  /-- Subtracting a zero from one leaves one. -/
  one_sub_zero : ∀ z, isZero z → Float64Ops.sub (Float64Ops.ofInt 1) z = Float64Ops.ofInt 1
  /-- The square root of one is one (`Sqrt` is correctly rounded). -/
  sqrt_one : Float64Ops.sqrt (Float64Ops.ofInt (1 : Int)) = (Float64Ops.ofInt 1 : F)
  /-- The special case `Atan2(±0, x) = ±0` for `x >= 0`, at `x = 1`. -/
  atan2_zero_one : ∀ z, isZero z → isZero (Float64Ops.atan2 z (Float64Ops.ofInt 1))
  /-- A zero is `<=` every converted non-negative integer. -/
  zero_le_ofInt : ∀ z (n : Int), isZero z → 0 ≤ n → Float64Ops.le z (Float64Ops.ofInt n) = true
  /-- A converted integer is not NaN, so it is `<=` itself. -/
  le_refl_ofInt : ∀ n : Int, Float64Ops.le (Float64Ops.ofInt n : F) (Float64Ops.ofInt n) = true

/-- The real numbers satisfy the laws, with every real finite and `0` the only zero. -/
noncomputable def realLaws : Float64Laws ℝ where
  finite _ := True
  isZero x := x = 0
  isZero_finite _ _ := trivial
  finite_ofInt _ _ _ := trivial
  ofInt_ne_zero n hn := by
    show ¬ ((n : ℝ) = 0)
    exact_mod_cast hn
  sub_self x _ := by
    show x - x = 0
    ring
  zero_mul z c hz _ := by
    show z * c = 0
    rw [hz]; ring
  mul_zero c z _ hz := by
    show c * z = 0
    rw [hz]; ring
  zero_div z c hz _ _ := by
    show z / c = 0
    rw [hz]; simp
  zero_add x y hx hy := by
    show x + y = 0
    rw [hx, hy]; ring
  finite_degToRad := trivial
  finite_mul_degToRad _ _ := trivial
  sin_zero z hz := by
    show Real.sin z = 0
    rw [hz]; exact Real.sin_zero
  cos_finite _ _ := trivial
  sqrt_zero z hz := by
    show Real.sqrt z = 0
    rw [hz]; exact Real.sqrt_zero
  one_sub_zero z hz := by
    show ((1 : Int) : ℝ) - z = ((1 : Int) : ℝ)
    rw [hz]; ring
  sqrt_one := by
    show Real.sqrt ((1 : Int) : ℝ) = ((1 : Int) : ℝ)
    simp
  atan2_zero_one z hz := by
    show Complex.arg ⟨((1 : Int) : ℝ), z⟩ = 0
    rw [hz]
    have h : (⟨((1 : Int) : ℝ), 0⟩ : ℂ) = 1 := by
      apply Complex.ext <;> simp
    rw [h]; exact Complex.arg_one
  zero_le_ofInt z n hz hn := by
    show decide (z ≤ (n : ℝ)) = true
    rw [hz]
    have h : (0 : ℝ) ≤ (n : ℝ) := by exact_mod_cast hn
    simpa using h
  le_refl_ofInt n := by
    show decide ((n : ℝ) ≤ (n : ℝ)) = true
    simp

/-! ## Package `errs` -/

/-- Modelled from the spec: the declaration of `errs.ErrCacheMiss` is not among the sources;
the spec describes it as a distinguished `CacheMiss` signal, distinct from all other errors. -/
def errs.ErrCacheMiss : Error := Error.pkgVar "errs.ErrCacheMiss"

/-- The variable `ErrIncidentExists = errors.New("incident already exists")`. -/
def errs.ErrIncidentExists : Error := Error.pkgVar "errs.ErrIncidentExists"

/-- The variable `ErrIncidentNotFound = errors.New("incident not found")`. -/
def errs.ErrIncidentNotFound : Error := Error.pkgVar "errs.ErrIncidentNotFound"

/-! ## Package `models` -/

/-- The struct `models.CreateIncidentParams`. -/
structure models.CreateIncidentParams (F : Type) where
  Latitude : F
  Longitude : F
  Radius : Int
  deriving DecidableEq, Repr

/-- The struct `models.UpdateIncidentParams`. -/
structure models.UpdateIncidentParams (F : Type) where
  ID : Int
  Latitude : F
  Longitude : F
  Radius : Int
  deriving DecidableEq, Repr

/-- The struct `models.Incident`. -/
structure models.Incident (F : Type) where
  ID : Int
  Latitude : F
  Longitude : F
  Radius : Int
  IsActive : Bool
  CreatedAt : Time
  UpdatedAt : Time
  deriving DecidableEq, Repr

/-- The struct `models.IncidentShort`. -/
structure models.IncidentShort (F : Type) where
  ID : Int
  Latitude : F
  Longitude : F
  Radius : Int
  deriving DecidableEq, Repr

/-- The struct `models.Stats`. -/
structure models.Stats (F : Type) where
  IncidentID : Int
  UserCount : Int
  Latitude : F
  Longitude : F
  deriving DecidableEq, Repr

/-- The struct `models.CheckLocationParams`. -/
structure models.CheckLocationParams (F : Type) where
  UserID : String
  Latitude : F
  Longitude : F
  deriving DecidableEq, Repr

/-- The struct `models.CheckLocationResult`. -/
structure models.CheckLocationResult (F : Type) where
  UserID : String
  Latitude : F
  Longitude : F
  HasDanger : Bool
  Dangers : Slice (models.IncidentShort F)
  CreatedAt : Time
  deriving DecidableEq, Repr

/-! ## Package `geo` -/

/-- The constant `earthRadius`. -/
def geo.earthRadius : Int := 6371000

/-- The function `geo.Distance`: distance in meters between two points on Earth. -/
def geo.Distance {F : Type} [Float64Ops F] (lat1 lon1 lat2 lon2 : F) : F :=
  let dLat := Float64Ops.mul (Float64Ops.sub lat2 lat1)
    (Float64Ops.div Float64Ops.pi (Float64Ops.ofInt 180))
  let dLon := Float64Ops.mul (Float64Ops.sub lon2 lon1)
    (Float64Ops.div Float64Ops.pi (Float64Ops.ofInt 180))
  let lat1Rad := Float64Ops.mul lat1 (Float64Ops.div Float64Ops.pi (Float64Ops.ofInt 180))
  let lat2Rad := Float64Ops.mul lat2 (Float64Ops.div Float64Ops.pi (Float64Ops.ofInt 180))
  let a := Float64Ops.add
    (Float64Ops.mul (Float64Ops.sin (Float64Ops.div dLat (Float64Ops.ofInt 2)))
      (Float64Ops.sin (Float64Ops.div dLat (Float64Ops.ofInt 2))))
    (Float64Ops.mul
      (Float64Ops.mul
        (Float64Ops.mul (Float64Ops.sin (Float64Ops.div dLon (Float64Ops.ofInt 2)))
          (Float64Ops.sin (Float64Ops.div dLon (Float64Ops.ofInt 2))))
        (Float64Ops.cos lat1Rad))
      (Float64Ops.cos lat2Rad))
  let c := Float64Ops.mul (Float64Ops.ofInt 2)
    (Float64Ops.atan2 (Float64Ops.sqrt a) (Float64Ops.sqrt (Float64Ops.sub (Float64Ops.ofInt 1) a)))
  Float64Ops.mul (Float64Ops.ofInt geo.earthRadius) c

/-- The local variable `a` of `Distance`. -/
def geo.haversine {F : Type} [Float64Ops F] (lat1 lon1 lat2 lon2 : F) : F :=
  let dLat := Float64Ops.mul (Float64Ops.sub lat2 lat1)
    (Float64Ops.div Float64Ops.pi (Float64Ops.ofInt 180))
  let dLon := Float64Ops.mul (Float64Ops.sub lon2 lon1)
    (Float64Ops.div Float64Ops.pi (Float64Ops.ofInt 180))
  let lat1Rad := Float64Ops.mul lat1 (Float64Ops.div Float64Ops.pi (Float64Ops.ofInt 180))
  let lat2Rad := Float64Ops.mul lat2 (Float64Ops.div Float64Ops.pi (Float64Ops.ofInt 180))
  Float64Ops.add
    (Float64Ops.mul (Float64Ops.sin (Float64Ops.div dLat (Float64Ops.ofInt 2)))
      (Float64Ops.sin (Float64Ops.div dLat (Float64Ops.ofInt 2))))
    (Float64Ops.mul
      (Float64Ops.mul
        (Float64Ops.mul (Float64Ops.sin (Float64Ops.div dLon (Float64Ops.ofInt 2)))
          (Float64Ops.sin (Float64Ops.div dLon (Float64Ops.ofInt 2))))
        (Float64Ops.cos lat1Rad))
      (Float64Ops.cos lat2Rad))

/-! ## The world the services run in -/

/-- The levels of `log/slog`. -/
inductive LogLevel where
  | Debug
  | Info
  | Warn
  | Error
  deriving DecidableEq, Repr

/-- One record written through `*slog.Logger`: level, message and the `logattr.Err` attribute. -/
structure LogEntry where
  level : LogLevel
  msg : String
  err : Option Error
  deriving DecidableEq, Repr

/-- A method call on one of the collaborator interfaces, with its arguments. -/
inductive Call (F : Type) where
  | CacheGetActiveIncidents
  | CacheSetActiveIncidents (incidents : Slice (models.IncidentShort F))
  | CacheInvalidateActiveIncidents
  | IncGetActive
  | IncCreate (params : models.CreateIncidentParams F)
  | IncGetByID (id : Int)
  | IncUpdate (params : models.UpdateIncidentParams F)
  | IncDeactivate (id : Int)
  | IncList (limit offset : Int)
  | IncGetStats (window : Duration)
  | SaveCheckLog (check : models.CheckLocationResult F)
  | EnqueueDangerAlert (userID : String) (latitude longitude : F)
  deriving DecidableEq, Repr

/-- The state a service method runs against: the state `backend` of the collaborators, the
reading `now` of `time.Now()`, the calls made so far, the log records written so far, and the
goroutines started with `go s.processPostCheck(result, log)`, each given by its argument.
A started goroutine is only recorded: the caller does not wait for it. -/
structure World (F σ : Type) where
  backend : σ
  now : Time
  calls : List (Call F)
  logs : List LogEntry
  spawned : List (models.CheckLocationResult F)

/-- A world with the given backend state and clock in which nothing has happened yet. -/
def World.init {F σ : Type} (backend : σ) (now : Time) : World F σ :=
  { backend := backend, now := now, calls := [], logs := [], spawned := [] }

/-- Call a collaborator method: run it on the backend state and record the call. -/
def World.invoke {F σ β : Type} (w : World F σ) (c : Call F) (method : σ → β × σ) :
    β × World F σ :=
  ((method w.backend).1, { w with backend := (method w.backend).2, calls := w.calls ++ [c] })

/-- Write one log record. -/
def World.log {F σ : Type} (w : World F σ) (level : LogLevel) (msg : String)
    (err : Option Error) : World F σ :=
  { w with logs := w.logs ++ [{ level := level, msg := msg, err := err }] }

/-! ## Package `services/location` -/

/-- The interface `location.LocationRepo`. -/
structure location.LocationRepo (F σ : Type) where
  SaveCheckLog : models.CheckLocationResult F → σ → Option Error × σ

/-- The interface `location.IncidentRepo`. -/
structure location.IncidentRepo (F σ : Type) where
  GetActive : σ → (Slice (models.IncidentShort F) × Option Error) × σ

/-- The interface `location.CacheRepo`. -/
structure location.CacheRepo (F σ : Type) where
  GetActiveIncidents : σ → (Slice (models.IncidentShort F) × Option Error) × σ
  SetActiveIncidents : Slice (models.IncidentShort F) → σ → Option Error × σ

/-- The interface `location.QueueProducer`. -/
structure location.QueueProducer (F σ : Type) where
  EnqueueDangerAlert : String → F → F → σ → Option Error × σ

/-- The struct `location.Service` (its logger is the `logs` component of the world). -/
structure location.Service (F σ : Type) where
  asyncJobTimeout : Duration
  locationRepo : location.LocationRepo F σ
  incRepo : location.IncidentRepo F σ
  cacheRepo : location.CacheRepo F σ
  queue : location.QueueProducer F σ

/-- The method `(*Service).getActiveIncidents`. -/
def location.getActiveIncidents {F σ : Type} (s : location.Service F σ) (w : World F σ) :
    (Slice (models.IncidentShort F) × Option Error) × World F σ :=
  match w.invoke Call.CacheGetActiveIncidents s.cacheRepo.GetActiveIncidents with
  | ((incidents, none), w) => ((incidents, none), w)
  | ((_, some err), w) =>
    let w :=
      if err ≠ errs.ErrCacheMiss then w.log LogLevel.Warn "failed to read from cache" (some err)
      else w.log LogLevel.Debug "cache miss, reading from DB" none
    match w.invoke Call.IncGetActive s.incRepo.GetActive with
    | ((_, some err), w) => ((Slice.nil, some err), w)
    | ((incidents, none), w) =>
      match w.invoke (Call.CacheSetActiveIncidents incidents)
          (s.cacheRepo.SetActiveIncidents incidents) with
      | (some err, w) => ((incidents, none), w.log LogLevel.Warn "failed to update cache" (some err))
      | (none, w) => ((incidents, none), w)

/-- The loop of `Check` over the active incidents: `foundDangers` starts as `make(..., 0)`
and receives, in order, every incident whose distance from the point is `<=` its radius. -/
def location.foundDangers {F : Type} [Float64Ops F] (params : models.CheckLocationParams F)
    (incidents : Slice (models.IncidentShort F)) : Slice (models.IncidentShort F) :=
  incidents.toList.foldl
    (fun foundDangers inc =>
      let dist := geo.Distance params.Latitude params.Longitude inc.Latitude inc.Longitude
      if Float64Ops.le dist (Float64Ops.ofInt inc.Radius) then foundDangers.append inc
      else foundDangers)
    (Slice.mk [])

/-- The test `dist <= float64(inc.Radius)` of the loop of `Check`, as a predicate. -/
def location.inDanger {F : Type} [Float64Ops F] (params : models.CheckLocationParams F)
    (inc : models.IncidentShort F) : Bool :=
  Float64Ops.le (geo.Distance params.Latitude params.Longitude inc.Latitude inc.Longitude)
    (Float64Ops.ofInt inc.Radius)

/-- The method `(*Service).Check`. -/
def location.Check {F σ : Type} [Float64Ops F] (s : location.Service F σ)
    (params : models.CheckLocationParams F) (w : World F σ) :
    (Option (models.CheckLocationResult F) × Option Error) × World F σ :=
  match location.getActiveIncidents s w with
  | ((_, some err), w) =>
    ((none, some err), w.log LogLevel.Error "failed to get active incidents" (some err))
  | ((incidents, none), w) =>
    let foundDangers := location.foundDangers params incidents
    let result : models.CheckLocationResult F :=
      { UserID := params.UserID
        Latitude := params.Latitude
        Longitude := params.Longitude
        HasDanger := decide (foundDangers.len > 0)
        Dangers := foundDangers
        CreatedAt := w.now }
    ((some result, none), { w with spawned := w.spawned ++ [result] })

/-- The method `(*Service).processPostCheck`, the body of the goroutine `Check` starts. -/
def location.processPostCheck {F σ : Type} (s : location.Service F σ)
    (check : models.CheckLocationResult F) (w : World F σ) : World F σ :=
  let w :=
    match w.invoke (Call.SaveCheckLog check) (s.locationRepo.SaveCheckLog check) with
    | (some err, w) => w.log LogLevel.Error "failed to save log for user" (some err)
    | (none, w) => w
  if check.HasDanger then
    match w.invoke (Call.EnqueueDangerAlert check.UserID check.Latitude check.Longitude)
        (s.queue.EnqueueDangerAlert check.UserID check.Latitude check.Longitude) with
    | (some err, w) => w.log LogLevel.Error "failed to enqueue webhook for user" (some err)
    | (none, w) => w
  else w

/-- A service built from test doubles in the manner of `location_test.go`: every collaborator
method returns a fixed outcome and leaves the (trivial) backend state alone. -/
def location.mockService {F : Type}
    (cacheGet : Slice (models.IncidentShort F) × Option Error) (cacheSet : Option Error)
    (getActive : Slice (models.IncidentShort F) × Option Error)
    (saveCheckLog enqueue : Option Error) : location.Service F Unit :=
  { asyncJobTimeout := 1000000000
    locationRepo := { SaveCheckLog := fun _ b => (saveCheckLog, b) }
    incRepo := { GetActive := fun b => (getActive, b) }
    cacheRepo :=
      { GetActiveIncidents := fun b => (cacheGet, b)
        SetActiveIncidents := fun _ b => (cacheSet, b) }
    queue := { EnqueueDangerAlert := fun _ _ _ b => (enqueue, b) } }

/-- The incident of `TestCheck_CacheHit_Danger`: id 1 at (10.0, 10.0) with radius 1000. -/
def location.testIncident (F : Type) [Float64Ops F] : models.IncidentShort F :=
  { ID := 1, Latitude := Float64Ops.ofInt 10, Longitude := Float64Ops.ofInt 10, Radius := 1000 }

/-- The incident `TestFullFlow` creates: centre (55.7558, 37.6173), radius 1000. A decimal
literal is written as a quotient of integers, which correctly rounded division sends to the
`float64` nearest the literal. -/
def location.fullFlowIncident (F : Type) [Float64Ops F] : models.IncidentShort F :=
  { ID := 1
    Latitude := Float64Ops.div (Float64Ops.ofInt 557558) (Float64Ops.ofInt 10000)
    Longitude := Float64Ops.div (Float64Ops.ofInt 376173) (Float64Ops.ofInt 10000)
    Radius := 1000 }

/-! ## Package `services/incident` -/

/-- The interface `incident.IncidentRepo`. -/
structure incident.IncidentRepo (F σ : Type) where
  Create : models.CreateIncidentParams F → σ → (Option (models.Incident F) × Option Error) × σ
  GetByID : Int → σ → (Option (models.Incident F) × Option Error) × σ
  Update : models.UpdateIncidentParams F → σ → (Option (models.Incident F) × Option Error) × σ
  Deactivate : Int → σ → Option Error × σ
  List : Int → Int → σ → (Slice (models.Incident F) × Option Error) × σ
  GetStats : Duration → σ → (Slice (models.Stats F) × Option Error) × σ

/-- The interface `incident.CacheRepo`. -/
structure incident.CacheRepo (σ : Type) where
  InvalidateActiveIncidents : σ → Option Error × σ

/-- The struct `incident.Service`; `StatsTimeWindow` is the field of `cfg` the service reads. -/
structure incident.Service (F σ : Type) where
  StatsTimeWindow : Duration
  incRepo : incident.IncidentRepo F σ
  cacheRepo : incident.CacheRepo σ

/-- The call `s.cacheRepo.InvalidateActiveIncidents(ctx)` with its log-only error handling,
as written at the end of `Create`, `Update` and `Deactivate`. -/
def incident.invalidate {F σ : Type} (s : incident.Service F σ) (w : World F σ) : World F σ :=
  match w.invoke Call.CacheInvalidateActiveIncidents s.cacheRepo.InvalidateActiveIncidents with
  | (some err, w) => w.log LogLevel.Warn "failed to invalidate cache" (some err)
  | (none, w) => w

/-- The method `(*Service).GetByID`. -/
def incident.GetByID {F σ : Type} (s : incident.Service F σ) (id : Int) (w : World F σ) :
    (Option (models.Incident F) × Option Error) × World F σ :=
  match w.invoke (Call.IncGetByID id) (s.incRepo.GetByID id) with
  | ((_, some err), w) =>
    let w :=
      if !Error.Is err errs.ErrIncidentNotFound then
        w.log LogLevel.Error "failed to get incident" (some err)
      else w
    ((none, some err), w)
  | ((incident, none), w) => ((incident, none), w)

/-- The method `(*Service).Create`. -/
def incident.Create {F σ : Type} (s : incident.Service F σ)
    (params : models.CreateIncidentParams F) (w : World F σ) :
    (Option (models.Incident F) × Option Error) × World F σ :=
  match w.invoke (Call.IncCreate params) (s.incRepo.Create params) with
  | ((_, some err), w) =>
    let w :=
      if !Error.Is err errs.ErrIncidentExists then
        w.log LogLevel.Error "failed to create incident" (some err)
      else w
    ((none, some err), w)
  | ((created, none), w) => ((created, none), incident.invalidate s w)

/-- The method `(*Service).Update`. -/
def incident.Update {F σ : Type} (s : incident.Service F σ)
    (params : models.UpdateIncidentParams F) (w : World F σ) :
    (Option (models.Incident F) × Option Error) × World F σ :=
  match w.invoke (Call.IncUpdate params) (s.incRepo.Update params) with
  | ((_, some err), w) =>
    let w :=
      if !Error.Is err errs.ErrIncidentNotFound && !Error.Is err errs.ErrIncidentExists then
        w.log LogLevel.Error "failed to update incident" (some err)
      else w
    ((none, some err), w)
  | ((updated, none), w) => ((updated, none), incident.invalidate s w)

/-- The method `(*Service).Deactivate`. -/
def incident.Deactivate {F σ : Type} (s : incident.Service F σ) (id : Int) (w : World F σ) :
    Option Error × World F σ :=
  match w.invoke (Call.IncDeactivate id) (s.incRepo.Deactivate id) with
  | (some err, w) =>
    let w :=
      if !Error.Is err errs.ErrIncidentNotFound then
        w.log LogLevel.Error "failed to deactivate incident" (some err)
      else w
    (some err, w)
  | (none, w) => (none, incident.invalidate s w)

/-- The method `(*Service).List`. -/
def incident.List {F σ : Type} (s : incident.Service F σ) (limit offset : Int) (w : World F σ) :
    (Slice (models.Incident F) × Option Error) × World F σ :=
  match w.invoke (Call.IncList limit offset) (s.incRepo.List limit offset) with
  | ((_, some err), w) =>
    ((Slice.nil, some err), w.log LogLevel.Error "failed to list incidents" (some err))
  | ((list, none), w) => ((list, none), w)

/-- The method `(*Service).GetStats`. -/
def incident.GetStats {F σ : Type} (s : incident.Service F σ) (w : World F σ) :
    (Slice (models.Stats F) × Option Error) × World F σ :=
  match w.invoke (Call.IncGetStats s.StatsTimeWindow) (s.incRepo.GetStats s.StatsTimeWindow) with
  | ((_, some err), w) =>
    ((Slice.nil, some err), w.log LogLevel.Error "failed to get unique users stats" (some err))
  | ((stats, none), w) => ((stats, none), w)

/-- A service built from test doubles in the manner of `incident_test.go`: the store methods
and the cache invalidation return fixed outcomes and leave the (trivial) backend state alone. -/
def incident.mockService {F : Type}
    (create getByID update : Option (models.Incident F) × Option Error)
    (deactivate invalidate : Option Error) : incident.Service F Unit :=
  { StatsTimeWindow := 900000000000
    incRepo :=
      { Create := fun _ b => (create, b)
        GetByID := fun _ b => (getByID, b)
        Update := fun _ b => (update, b)
        Deactivate := fun _ b => (deactivate, b)
        List := fun _ _ b => ((Slice.nil, none), b)
        GetStats := fun _ b => ((Slice.nil, none), b) }
    cacheRepo := { InvalidateActiveIncidents := fun b => (invalidate, b) } }

/-! ## Errors of the libraries -/

/-- The text `err.Error()` of an error, used by the verb `%v`; for a package-level variable
the text is not modelled and its qualified name stands for it. -/
def Error.message : Error → String
  | Error.pkgVar name => name
  | Error.New msg => msg
  | Error.Wrap msg inner => msg ++ ": " ++ Error.message inner

/-- The variable `pgx.ErrNoRows`, which `Row.Scan` returns when the query has no row. -/
def pgx.ErrNoRows : Error := Error.pkgVar "pgx.ErrNoRows"

/-- The variable `redis.Nil`, the reply for a key that does not exist. -/
def redis.Nil : Error := Error.pkgVar "redis.Nil"

/-- The variable `asynq.SkipRetry`: an error wrapping it is not retried. -/
def asynq.SkipRetry : Error := Error.pkgVar "asynq.SkipRetry"

/-! ## The database behind `repos/incident`

The SQL statements of the repository are read on a table `incidents` held as a list of rows.
Every statement first consults a fault schedule: a statement the schedule fails returns the
scheduled driver error and changes nothing. The repository methods obtain their executor from
`Manager.GetQueryEngine`; the services never call them inside `Manager.Run`, so the executor
is the pool and a statement acts on the database at once. -/

/-- A PostGIS point: `ST_MakePoint(x, y)` with `ST_X` and `ST_Y` its coordinates. -/
structure postgis.Point (F : Type) where
  x : F
  y : F
  deriving DecidableEq, Repr

/-- The function `ST_MakePoint` (the `ST_SetSRID(…, 4326)` around it does not move the point). -/
def postgis.ST_MakePoint {F : Type} (x y : F) : postgis.Point F := { x := x, y := y }

/-- The predicate `ST_DWithin(a::geography, b::geography, meters)` of PostGIS: whether the
geodesic distance of two points is at most `meters`. It is a function of the database server
and is left open. -/
class PostGIS (F : Type) where
  ST_DWithin : postgis.Point F → postgis.Point F → F → Bool

/-- A row of the table `incidents`, with the columns the statements name. -/
structure IncidentRow (F : Type) where
  id : Int
  location : postgis.Point F
  radius_meters : Int
  is_active : Bool
  created_at : Time
  updated_at : Time
  deriving DecidableEq, Repr

/-- The state of the database. Modelled from the spec: the schema of `incidents` is not among
the sources; the spec gives the `id` as server-assigned and monotonically increasing
(`id_seq` is its next value) and the timestamps as set by the server (`now` is `NOW()`). -/
structure DB (F : Type) where
  incidents : List (IncidentRow F)
  id_seq : Int
  now : Time
  faults : List (Option String)

/-- Start a statement: take the next entry of the fault schedule (no entry, no fault). A
scheduled fault is an error of the driver, a fresh error value with the scheduled text. -/
def DB.exec {F : Type} (db : DB F) : Option Error × DB F :=
  match db.faults with
  | [] => (none, db)
  | fault :: rest => (fault.map Error.New, { db with faults := rest })

/-- The statement of `Repo.Create`, run through `QueryRow(…).Scan(…)`:
`INSERT INTO incidents (location, radius_meters, is_active) SELECT ST_MakePoint($1, $2), $3, TRUE
WHERE NOT EXISTS (SELECT 1 FROM incidents WHERE ST_DWithin(location, ST_MakePoint($1, $2), 1.0))
RETURNING …`. Without a returned row `Scan` gives `pgx.ErrNoRows`. -/
def sql.insertIncident {F : Type} [Float64Ops F] [PostGIS F] (a1 a2 : F) (a3 : Int)
    (db : DB F) : Except Error (IncidentRow F) × DB F :=
  match db.exec with
  | (some err, db) => (Except.error err, db)
  | (none, db) =>
    if db.incidents.any (fun r =>
        PostGIS.ST_DWithin r.location (postgis.ST_MakePoint a1 a2) (Float64Ops.ofInt 1)) then
      (Except.error pgx.ErrNoRows, db)
    else
      let row : IncidentRow F :=
        { id := db.id_seq
          location := postgis.ST_MakePoint a1 a2
          radius_meters := a3
          is_active := true
          created_at := db.now
          updated_at := db.now }
      (Except.ok row, { db with incidents := db.incidents ++ [row], id_seq := db.id_seq + 1 })

/-- The statement of `Repo.Update`, run through `QueryRow(…).Scan(…)`:
`UPDATE incidents SET location = ST_MakePoint($1, $2), radius_meters = $3, updated_at = NOW()
WHERE id = $4 AND NOT EXISTS (SELECT 1 FROM incidents WHERE id != $4 AND
ST_DWithin(location, ST_MakePoint($1, $2), 1.0)) RETURNING …`. The conditions are read on the
table as it is before the update; `Scan` takes the first returned row. -/
def sql.updateIncident {F : Type} [Float64Ops F] [PostGIS F] (a1 a2 : F) (a3 : Int) (a4 : Int)
    (db : DB F) : Except Error (IncidentRow F) × DB F :=
  match db.exec with
  | (some err, db) => (Except.error err, db)
  | (none, db) =>
    if db.incidents.any (fun r =>
        decide (r.id ≠ a4) &&
          PostGIS.ST_DWithin r.location (postgis.ST_MakePoint a1 a2) (Float64Ops.ofInt 1)) then
      (Except.error pgx.ErrNoRows, db)
    else
      match db.incidents.find? (fun r => decide (r.id = a4)) with
      | none => (Except.error pgx.ErrNoRows, db)
      | some r =>
        (Except.ok
            { r with
              location := postgis.ST_MakePoint a1 a2, radius_meters := a3, updated_at := db.now },
          { db with
            incidents := db.incidents.map (fun r =>
              if r.id = a4 then
                { r with
                  location := postgis.ST_MakePoint a1 a2
                  radius_meters := a3
                  updated_at := db.now }
              else r) })

/-- The probe `SELECT EXISTS(SELECT 1 FROM incidents WHERE id = $1)` of `Update` and
`Deactivate`, run through `QueryRow(…).Scan(&exists)`. -/
def sql.existsIncident {F : Type} (a1 : Int) (db : DB F) : Except Error Bool × DB F :=
  match db.exec with
  | (some err, db) => (Except.error err, db)
  | (none, db) => (Except.ok (db.incidents.any (fun r => decide (r.id = a1))), db)

/-- The statement of `Repo.Deactivate`, run through `Exec`:
`UPDATE incidents SET is_active = FALSE, updated_at = NOW() WHERE id = $1 AND is_active = TRUE`.
The value is `tag.RowsAffected()`. -/
def sql.deactivateIncident {F : Type} (a1 : Int) (db : DB F) : Except Error Nat × DB F :=
  match db.exec with
  | (some err, db) => (Except.error err, db)
  | (none, db) =>
    (Except.ok (db.incidents.countP (fun r => decide (r.id = a1) && r.is_active)),
      { db with
        incidents := db.incidents.map (fun r =>
          if r.id = a1 ∧ r.is_active = true then
            { r with is_active := false, updated_at := db.now }
          else r) })

/-- The query of `Repo.GetActive`, run through `Query`:
`SELECT id, ST_Y(location), ST_X(location), radius_meters FROM incidents
WHERE is_active = TRUE ORDER BY id ASC`. -/
def sql.selectActive {F : Type} (db : DB F) : Except Error (List (IncidentRow F)) × DB F :=
  match db.exec with
  | (some err, db) => (Except.error err, db)
  | (none, db) =>
    (Except.ok
      (List.insertionSort (fun a b => a.id ≤ b.id) (db.incidents.filter (fun r => r.is_active))),
      db)

/-- The query of `Repo.GetByID`, run through `QueryRow(…).Scan(…)`:
`SELECT … FROM incidents WHERE id = $1`. -/
def sql.selectIncident {F : Type} (a1 : Int) (db : DB F) : Except Error (IncidentRow F) × DB F :=
  match db.exec with
  | (some err, db) => (Except.error err, db)
  | (none, db) =>
    match db.incidents.find? (fun r => decide (r.id = a1)) with
    | none => (Except.error pgx.ErrNoRows, db)
    | some r => (Except.ok r, db)

/-! ## Package `repos/incident` -/

/-- The destination of `Scan` for the columns `id, ST_Y(location), ST_X(location),
radius_meters, is_active, created_at, updated_at`. -/
def incident.Repo.scanIncident {F : Type} (r : IncidentRow F) : models.Incident F :=
  { ID := r.id
    Latitude := r.location.y
    Longitude := r.location.x
    Radius := r.radius_meters
    IsActive := r.is_active
    CreatedAt := r.created_at
    UpdatedAt := r.updated_at }

/-- The destination of `Scan` for the columns `id, ST_Y(location), ST_X(location),
radius_meters`. -/
def incident.Repo.scanShort {F : Type} (r : IncidentRow F) : models.IncidentShort F :=
  { ID := r.id, Latitude := r.location.y, Longitude := r.location.x, Radius := r.radius_meters }

/-- The method `(*Repo).GetByID`. -/
def incident.Repo.GetByID {F : Type} (id : Int) (db : DB F) :
    (Option (models.Incident F) × Option Error) × DB F :=
  match sql.selectIncident id db with
  | (Except.error err, db) =>
    if Error.Is err pgx.ErrNoRows then ((none, some errs.ErrIncidentNotFound), db)
    else ((none, some (Error.Wrap "failed to get incident by id" err)), db)
  | (Except.ok row, db) => ((some (incident.Repo.scanIncident row), none), db)

/-- The method `(*Repo).Create`; the arguments of the statement are
`params.Longitude, params.Latitude, params.Radius`. -/
def incident.Repo.Create {F : Type} [Float64Ops F] [PostGIS F]
    (params : models.CreateIncidentParams F) (db : DB F) :
    (Option (models.Incident F) × Option Error) × DB F :=
  match sql.insertIncident params.Longitude params.Latitude params.Radius db with
  | (Except.error err, db) =>
    if Error.Is err pgx.ErrNoRows then ((none, some errs.ErrIncidentExists), db)
    else ((none, some (Error.Wrap "failed to create incident" err)), db)
  | (Except.ok row, db) => ((some (incident.Repo.scanIncident row), none), db)

/-- The method `(*Repo).Update`; the arguments of the statement are
`params.Longitude, params.Latitude, params.Radius, params.ID`. -/
def incident.Repo.Update {F : Type} [Float64Ops F] [PostGIS F]
    (params : models.UpdateIncidentParams F) (db : DB F) :
    (Option (models.Incident F) × Option Error) × DB F :=
  match sql.updateIncident params.Longitude params.Latitude params.Radius params.ID db with
  | (Except.error err, db) =>
    if Error.Is err pgx.ErrNoRows then
      match sql.existsIncident params.ID db with
      | (Except.error checkErr, db) =>
        ((none, some (Error.Wrap "failed to check incident existence" checkErr)), db)
      | (Except.ok existsRow, db) =>
        if !existsRow then ((none, some errs.ErrIncidentNotFound), db)
        else ((none, some errs.ErrIncidentExists), db)
    else ((none, some (Error.Wrap "failed to update incident" err)), db)
  | (Except.ok row, db) => ((some (incident.Repo.scanIncident row), none), db)

/-- The method `(*Repo).Deactivate`. -/
def incident.Repo.Deactivate {F : Type} (id : Int) (db : DB F) : Option Error × DB F :=
  match sql.deactivateIncident id db with
  | (Except.error err, db) => (some (Error.Wrap "failed to deactivate incident" err), db)
  | (Except.ok rowsAffected, db) =>
    if rowsAffected = 0 then
      match sql.existsIncident id db with
      | (Except.error err, db) =>
        (some (Error.Wrap "failed to check incident existence" err), db)
      | (Except.ok existsRow, db) =>
        if !existsRow then (some errs.ErrIncidentNotFound, db) else (none, db)
    else (none, db)

/-- The method `(*Repo).GetActive`: `shorts` starts as `make(…, 0)` and receives the scanned
rows in order. The columns have the types of the destinations, so `Scan` does not fail; the
query can fail when it is sent and, through `rows.Err()`, after the rows were read. -/
def incident.Repo.GetActive {F : Type} (db : DB F) :
    (Slice (models.IncidentShort F) × Option Error) × DB F :=
  match sql.selectActive db with
  | (Except.error err, db) =>
    ((Slice.nil, some (Error.Wrap "failed to get active incidents" err)), db)
  | (Except.ok rows, db) =>
    let shorts := rows.foldl (fun shorts row => shorts.append (incident.Repo.scanShort row))
      (Slice.mk [])
    match db.exec with
    | (some err, db) => ((Slice.nil, some (Error.Wrap "rows iteration error" err)), db)
    | (none, db) => ((shorts, none), db)

/-! ## The cache server behind `repos/cache` -/

/-- The Redis server as seen through `*redis.Client`: the value and expiration stored under
each key, and a fault schedule read like that of the database. -/
structure redis.Client (B : Type) where
  data : String → Option (B × Duration)
  faults : List (Option String)

/-- Start a command: take the next entry of the fault schedule. -/
def redis.Client.exec {B : Type} (c : redis.Client B) : Option Error × redis.Client B :=
  match c.faults with
  | [] => (none, c)
  | fault :: rest => (fault.map Error.New, { c with faults := rest })

/-- The call `client.Get(ctx, key).Bytes()`: the error is `redis.Nil` for a missing key. -/
def redis.Client.Get {B : Type} (key : String) (c : redis.Client B) :
    Except Error B × redis.Client B :=
  match c.exec with
  | (some err, c) => (Except.error err, c)
  | (none, c) =>
    match c.data key with
    | none => (Except.error redis.Nil, c)
    | some (val, _) => (Except.ok val, c)

/-- The call `client.Set(ctx, key, value, expiration).Err()`. -/
def redis.Client.Set {B : Type} (key : String) (value : B) (expiration : Duration)
    (c : redis.Client B) : Option Error × redis.Client B :=
  match c.exec with
  | (some err, c) => (some err, c)
  | (none, c) =>
    (none, { c with data := fun k => if k = key then some (value, expiration) else c.data k })

/-- The call `client.Del(ctx, key).Err()`; deleting a missing key is not an error. -/
def redis.Client.Del {B : Type} (key : String) (c : redis.Client B) :
    Option Error × redis.Client B :=
  match c.exec with
  | (some err, c) => (some err, c)
  | (none, c) => (none, { c with data := fun k => if k = key then none else c.data k })

/-- The server drops a key whose expiration has passed. -/
def redis.Client.expire {B : Type} (key : String) (c : redis.Client B) : redis.Client B :=
  { c with data := fun k => if k = key then none else c.data k }

/-- The functions `json.Marshal` and `json.Unmarshal` of `encoding/json` at one Go type `α`,
with `B` the byte strings; they belong to the standard library and are left open. -/
structure json.Codec (α B : Type) where
  Marshal : α → B × Option Error
  Unmarshal : B → α × Option Error

/-- A codec that keeps a document in parsed form: a byte string is a marshalled value or
text that does not parse. -/
def json.parsed (α : Type) [Inhabited α] : json.Codec α (α ⊕ String) where
  Marshal v := (Sum.inl v, none)
  Unmarshal
    | Sum.inl v => (v, none)
    | Sum.inr text => (default, some (Error.New ("invalid character in " ++ text)))

/-! ## Package `repos/cache` -/

/-- The struct `cache.Repo`: `IncidentsTTL` is the field of `cfg` it reads, `json` the codec
for `[]models.IncidentShort`; its client is the state the methods run on. -/
structure cache.Repo (F B : Type) where
  IncidentsTTL : Duration
  json : json.Codec (Slice (models.IncidentShort F)) B

/-- The constant `KeyActiveIncidents`. -/
def cache.KeyActiveIncidents : String := "incidents:active"

/-- The method `(*Repo).InvalidateActiveIncidents`. -/
def cache.Repo.InvalidateActiveIncidents {F B : Type} (_r : cache.Repo F B)
    (c : redis.Client B) : Option Error × redis.Client B :=
  c.Del cache.KeyActiveIncidents

/-- The method `(*Repo).GetActiveIncidents`. -/
def cache.Repo.GetActiveIncidents {F B : Type} (r : cache.Repo F B) (c : redis.Client B) :
    (Slice (models.IncidentShort F) × Option Error) × redis.Client B :=
  match c.Get cache.KeyActiveIncidents with
  | (Except.error err, c) =>
    if err = redis.Nil then ((Slice.nil, some errs.ErrCacheMiss), c)
    else ((Slice.nil, some err), c)
  | (Except.ok val, c) =>
    match r.json.Unmarshal val with
    | (_, some err) => ((Slice.nil, some (Error.Wrap "failed to unmarshal cache" err)), c)
    | (res, none) => ((res, none), c)

/-- The method `(*Repo).SetActiveIncidents`. -/
def cache.Repo.SetActiveIncidents {F B : Type} (r : cache.Repo F B)
    (incidents : Slice (models.IncidentShort F)) (c : redis.Client B) :
    Option Error × redis.Client B :=
  match r.json.Marshal incidents with
  | (_, some err) => (some (Error.Wrap "failed to marshal incidents" err), c)
  | (data, none) => c.Set cache.KeyActiveIncidents data r.IncidentsTTL

/-! ## The services on the database and the cache, as `main.go` wires them -/

/-- The collaborators of the two services: the database and the cache server. -/
structure Backend (F B : Type) where
  db : DB F
  cache : redis.Client B

/-- Run a repository method on the database of the backend. -/
def Backend.onDB {F B α : Type} (method : DB F → α × DB F) (b : Backend F B) :
    α × Backend F B :=
  ((method b.db).1, { b with db := (method b.db).2 })

/-- Run a cache method on the cache server of the backend. -/
def Backend.onCache {F B α : Type} (method : redis.Client B → α × redis.Client B)
    (b : Backend F B) : α × Backend F B :=
  ((method b.cache).1, { b with cache := (method b.cache).2 })

/-- The value `incidentsvc.New(log, cfg.App, incRepo, cacheRepo)`. The store methods `List` and
`GetStats`, whose queries are not read here, are those of `reads`. -/
def app.incidentService {F B : Type} [Float64Ops F] [PostGIS F] (cacheRepo : cache.Repo F B)
    (reads : incident.IncidentRepo F (Backend F B)) (StatsTimeWindow : Duration) :
    incident.Service F (Backend F B) :=
  { StatsTimeWindow := StatsTimeWindow
    incRepo :=
      { Create := fun params => Backend.onDB (incident.Repo.Create params)
        GetByID := fun id => Backend.onDB (incident.Repo.GetByID id)
        Update := fun params => Backend.onDB (incident.Repo.Update params)
        Deactivate := fun id => Backend.onDB (incident.Repo.Deactivate id)
        List := reads.List
        GetStats := reads.GetStats }
    cacheRepo :=
      { InvalidateActiveIncidents := Backend.onCache cacheRepo.InvalidateActiveIncidents } }

/-- The value `locationsvc.New(log, cfg.AsyncJobTimeout, locationRepo, incRepo, cacheRepo,
queueClient)`. The audit-log repository and the queue client, which `Check` itself never calls,
are left open. -/
def app.locationService {F B : Type} (cacheRepo : cache.Repo F B)
    (locationRepo : location.LocationRepo F (Backend F B))
    (queue : location.QueueProducer F (Backend F B)) (asyncJobTimeout : Duration) :
    location.Service F (Backend F B) :=
  { asyncJobTimeout := asyncJobTimeout
    locationRepo := locationRepo
    incRepo := { GetActive := Backend.onDB incident.Repo.GetActive }
    cacheRepo :=
      { GetActiveIncidents := Backend.onCache cacheRepo.GetActiveIncidents
        SetActiveIncidents := fun incidents =>
          Backend.onCache (cacheRepo.SetActiveIncidents incidents) }
    queue := queue }

/-- A request served by the two services, or an event of the environment: the expiry of the
cache entry, and the passing of time. -/
inductive app.Event (F : Type) where
  | Check (params : models.CheckLocationParams F)
  | Create (params : models.CreateIncidentParams F)
  | Update (params : models.UpdateIncidentParams F)
  | Deactivate (id : Int)
  | CacheExpire
  | Tick (now : Time)

/-- One step of a sequential execution: serve the request to its end, or apply the event. -/
def app.step {F B : Type} [Float64Ops F] (inc : incident.Service F (Backend F B))
    (loc : location.Service F (Backend F B)) (w : World F (Backend F B)) :
    app.Event F → World F (Backend F B)
  | app.Event.Check params => (location.Check loc params w).2
  | app.Event.Create params => (incident.Create inc params w).2
  | app.Event.Update params => (incident.Update inc params w).2
  | app.Event.Deactivate id => (incident.Deactivate inc id w).2
  | app.Event.CacheExpire =>
    { w with
      backend := { w.backend with cache := w.backend.cache.expire cache.KeyActiveIncidents } }
  | app.Event.Tick now =>
    { w with now := now, backend := { w.backend with db := { w.backend.db with now := now } } }

/-- A sequential execution: the events one after the other. -/
def app.run {F B : Type} [Float64Ops F] (inc : incident.Service F (Backend F B))
    (loc : location.Service F (Backend F B)) (w : World F (Backend F B))
    (events : List (app.Event F)) : World F (Backend F B) :=
  events.foldl (app.step inc loc) w

/-! ## Package `storage/transactor` -/

/-- A transaction of the driver, a non-nil `pgx.Tx`. -/
structure pgx.Tx where
  id : Nat
  deriving DecidableEq, Repr

/-- A key of `context.WithValue`: the value `txKey` of the unexported type of package
`transactor`, or a key of another type. -/
inductive context.Key where
  | txKey
  | other (name : String)
  deriving DecidableEq, Repr

/-- A value stored in a context: a `pgx.Tx`, or a value of another type. -/
inductive context.Val where
  | tx (tx : pgx.Tx)
  | other (val : String)
  deriving DecidableEq, Repr

/-- A `context.Context` as far as its values go: the pairs added by `context.WithValue`, the
last added first. -/
abbrev context.Context := List (context.Key × context.Val)

/-- The function `context.WithValue`. -/
def context.WithValue (ctx : context.Context) (key : context.Key) (val : context.Val) :
    context.Context :=
  (key, val) :: ctx

/-- The method `ctx.Value(key)`: the value added last under the key, or nil. -/
def context.Context.Value : context.Context → context.Key → Option context.Val
  | [], _ => none
  | (k, v) :: ctx, key => if k = key then some v else context.Context.Value ctx key

/-- The function `injectTx`. -/
def transactor.injectTx (ctx : context.Context) (tx : pgx.Tx) : context.Context :=
  context.WithValue ctx context.Key.txKey (context.Val.tx tx)

/-- The function `extractTx`: the type assertion `ctx.Value(txKey).(pgx.Tx)`, or nil. -/
def transactor.extractTx (ctx : context.Context) : Option pgx.Tx :=
  match ctx.Value context.Key.txKey with
  | some (context.Val.tx tx) => some tx
  | _ => none

/-- A value of the interface `transactor.Client`: a transaction or the pool. -/
inductive transactor.Client where
  | tx (tx : pgx.Tx)
  | pool
  deriving DecidableEq, Repr

/-- A call of `Manager.Run` on the pool or on a transaction. -/
inductive transactor.Call where
  | Begin
  | Commit (tx : pgx.Tx)
  | Rollback (tx : pgx.Tx)
  deriving DecidableEq, Repr

/-- The struct `transactor.Manager`: the behaviour of `pool.Begin`, `tx.Commit` and
`tx.Rollback` on the state of the database connection. A `Begin` that returns a nil error
returns a transaction. -/
structure transactor.Manager (σ : Type) where
  Begin : σ → (pgx.Tx × Option Error) × σ
  Commit : pgx.Tx → σ → Option Error × σ
  Rollback : pgx.Tx → σ → Option Error × σ

/-- The state `Manager.Run` runs against, with the calls made so far on pool and
transactions. -/
structure transactor.World (σ : Type) where
  backend : σ
  calls : List transactor.Call

/-- Call a method of the pool or of a transaction and record the call. -/
def transactor.World.invoke {σ β : Type} (w : transactor.World σ) (c : transactor.Call)
    (method : σ → β × σ) : β × transactor.World σ :=
  ((method w.backend).1, { backend := (method w.backend).2, calls := w.calls ++ [c] })

/-- The deferred call `_ = tx.Rollback(ctx)`, run when `Run` returns; its error is dropped. -/
def transactor.deferredRollback {σ : Type} (m : transactor.Manager σ) (tx : pgx.Tx)
    (w : transactor.World σ) : transactor.World σ :=
  (w.invoke (transactor.Call.Rollback tx) (m.Rollback tx)).2

/-- The method `(*Manager).Run`. -/
def transactor.Run {σ : Type} (m : transactor.Manager σ) (ctx : context.Context)
    (fn : context.Context → transactor.World σ → Option Error × transactor.World σ)
    (w : transactor.World σ) : Option Error × transactor.World σ :=
  match ctx.Value context.Key.txKey with
  | some (context.Val.tx _) => fn ctx w
  | _ =>
    match w.invoke transactor.Call.Begin m.Begin with
    | ((_, some err), w) => (some (Error.Wrap "failed to begin transaction" err), w)
    | ((tx, none), w) =>
      match fn (transactor.injectTx ctx tx) w with
      | (some err, w) => (some err, transactor.deferredRollback m tx w)
      | (none, w) =>
        match w.invoke (transactor.Call.Commit tx) (m.Commit tx) with
        | (some err, w) =>
          (some (Error.Wrap "failed to commit transaction" err),
            transactor.deferredRollback m tx w)
        | (none, w) => (none, transactor.deferredRollback m tx w)

/-- The method `(*Manager).GetQueryEngine`. -/
def transactor.GetQueryEngine (ctx : context.Context) : transactor.Client :=
  match transactor.extractTx ctx with
  | some tx => transactor.Client.tx tx
  | none => transactor.Client.pool

/-- A pool in the manner of a test double: `Begin`, `Commit` and `Rollback` return fixed
outcomes, and `Begin` hands out the transaction `tx`. -/
def transactor.mockManager (tx : pgx.Tx) (begin commit rollback : Option Error) :
    transactor.Manager Unit :=
  { Begin := fun b => ((tx, begin), b)
    Commit := fun _ b => (commit, b)
    Rollback := fun _ b => (rollback, b) }

/-! ## Package `workers/webhook` -/

/-- The struct `queue.WebhookPayload`. -/
structure queue.WebhookPayload (F : Type) where
  UserID : String
  Latitude : F
  Longitude : F
  deriving DecidableEq, Repr

/-- An `asynq.Task`: its type name and its payload. -/
structure asynq.Task (B : Type) where
  typename : String
  payload : B

/-- An `http.Request` as far as `ProcessTask` builds it. -/
structure http.Request (B : Type) where
  method : String
  url : String
  header : List (String × String)
  body : B

/-- An `http.Response` as far as `ProcessTask` reads it: the status code, and the outcome of
`resp.Body.Close()`. -/
structure http.Response where
  StatusCode : Int
  closeErr : Option Error

/-- The struct `webhook.TaskHandler`: `json` is the codec of `encoding/json` for
`queue.WebhookPayload`, `NewRequest` is `http.NewRequestWithContext` and `Do` is
`httpClient.Do`, from the standard library. -/
structure webhook.TaskHandler (F B σ : Type) where
  webhookURL : String
  json : json.Codec (queue.WebhookPayload F) B
  NewRequest : String → String → B → http.Request B × Option Error
  Do : http.Request B → σ → (http.Response × Option Error) × σ

/-- The state `ProcessTask` runs against: the state of the network, the requests sent so far
and the log records written so far. -/
structure webhook.World (B σ : Type) where
  backend : σ
  requests : List (http.Request B)
  logs : List LogEntry

/-- Write one log record. -/
def webhook.World.log {B σ : Type} (w : webhook.World B σ) (level : LogLevel) (msg : String)
    (err : Option Error) : webhook.World B σ :=
  { w with logs := w.logs ++ [{ level := level, msg := msg, err := err }] }

/-- The deferred `resp.Body.Close()`, whose error is only logged. -/
def webhook.closeBody {B σ : Type} (resp : http.Response) (w : webhook.World B σ) :
    webhook.World B σ :=
  match resp.closeErr with
  | some err => w.log LogLevel.Warn "failed to close response body" (some err)
  | none => w

/-- The method `(*TaskHandler).ProcessTask`. -/
def webhook.ProcessTask {F B σ : Type} (h : webhook.TaskHandler F B σ) (t : asynq.Task B)
    (w : webhook.World B σ) : Option Error × webhook.World B σ :=
  match h.json.Unmarshal t.payload with
  | (_, some err) =>
    (some (Error.Wrap ("json.Unmarshal failed: " ++ err.message) asynq.SkipRetry),
      w.log LogLevel.Error "failed to unmarshal task payload" (some err))
  | (payload, none) =>
    let w := w.log LogLevel.Debug "processing webhook task" none
    match h.json.Marshal payload with
    | (_, some err) =>
      (some (Error.Wrap ("json.Marshal failed: " ++ err.message) asynq.SkipRetry),
        w.log LogLevel.Error "failed to marshal request body" (some err))
    | (reqBody, none) =>
      match h.NewRequest "POST" h.webhookURL reqBody with
      | (_, some err) => (some err, w.log LogLevel.Error "failed to create http request" (some err))
      | (req, none) =>
        let req := { req with header := req.header ++ [("Content-Type", "application/json")] }
        match h.Do req w.backend with
        | ((_, some err), b) =>
          (some (Error.Wrap "webhook request failed" err),
            ({ w with backend := b, requests := w.requests ++ [req] }).log LogLevel.Warn
              "failed to send webhook" (some err))
        | ((resp, none), b) =>
          let w : webhook.World B σ := { w with backend := b, requests := w.requests ++ [req] }
          if resp.StatusCode < 200 || resp.StatusCode >= 300 then
            (some (Error.New
                ("webhook request failed with status: " ++ toString resp.StatusCode)),
              webhook.closeBody resp
                (w.log LogLevel.Warn "webhook returned non-success status" none))
          else
            (none, webhook.closeBody resp (w.log LogLevel.Info "webhook sent successfully" none))

/-! ## Predicates on the state of the database -/

/-- The next `n` statements are not scheduled to fail. -/
def DB.quiet {F : Type} (n : Nat) (db : DB F) : Prop :=
  ∀ fault ∈ db.faults.take n, fault = none

/-- The ids of the table are pairwise different and below the next value of the sequence, as
a primary key fed by a sequence keeps them. -/
def DB.UniqueIDs {F : Type} (db : DB F) : Prop :=
  (db.incidents.map (fun r => r.id)).Nodup ∧ ∀ r ∈ db.incidents, r.id < db.id_seq

/-- The separation invariant: no two stored incidents with different ids, active or not, have
their centres within the distance `1.0` of each other. -/
def DB.Separated {F : Type} [Float64Ops F] [PostGIS F] (db : DB F) : Prop :=
  ∀ a ∈ db.incidents, ∀ b ∈ db.incidents, a.id ≠ b.id →
    PostGIS.ST_DWithin a.location b.location (Float64Ops.ofInt 1) = false

/-- The predicate `ST_DWithin` read on the sphere of `geo.Distance`; it stands in for the
predicate of the database server where a concrete one is needed. -/
def postgis.sphere (F : Type) [Float64Ops F] : PostGIS F where
  ST_DWithin a b meters := Float64Ops.le (geo.Distance a.y a.x b.y b.x) meters

/-- Over the reals the predicate of the server is read on the sphere. -/
noncomputable instance instPostGISReal : PostGIS ℝ := postgis.sphere ℝ

/-- The nil slice is the default slice. -/
instance instInhabitedSlice {α : Type} : Inhabited (Slice α) := ⟨Slice.nil⟩

/-- The next `n` commands of the cache server are not scheduled to fail. -/
def redis.Client.quiet {B : Type} (n : Nat) (c : redis.Client B) : Prop :=
  ∀ fault ∈ c.faults.take n, fault = none

/-- No incident of the list has the id. -/
def Slice.lacks {F : Type} (id : Int) (incidents : Slice (models.IncidentShort F)) : Prop :=
  ∀ d ∈ incidents.toList, d.ID ≠ id

/-- The incident `id` is retired in the database: the ids of the table are below the next
value of the sequence, and so is `id`, and no row of `id` is active. -/
def DB.retired {F : Type} (id : Int) (db : DB F) : Prop :=
  (∀ row ∈ db.incidents, row.id < db.id_seq) ∧
  id < db.id_seq ∧
  ∀ row ∈ db.incidents, row.id = id → row.is_active = false

/-- The cache entry of the active incidents, if there is one and it parses, lists no incident
of `id`. -/
def cache.Repo.lacks {F B : Type} (r : cache.Repo F B) (id : Int) (c : redis.Client B) : Prop :=
  ∀ val ttl, c.data cache.KeyActiveIncidents = some (val, ttl) →
    ∀ incidents, r.json.Unmarshal val = (incidents, none) → incidents.lacks id

/-- The state of the backend once the incident `id` is retired and the cache has let go of
it. -/
def app.Retired {F B : Type} (cacheRepo : cache.Repo F B) (id : Int) (b : Backend F B) : Prop :=
  b.db.retired id ∧ cacheRepo.lacks id b.cache

/-- The entry of the active incidents is absent, and a read of the cache reports a miss, or
the error of the client when the read fails. -/
def cache.Repo.misses {F B : Type} (r : cache.Repo F B) (c : redis.Client B) : Prop :=
  c.data cache.KeyActiveIncidents = none ∧
  ((cache.Repo.GetActiveIncidents r c).1 = (Slice.nil, some errs.ErrCacheMiss) ∨
    ∃ text, (cache.Repo.GetActiveIncidents r c).1 = (Slice.nil, some (Error.New text)))

/-- Store reads that do nothing, for the methods `List` and `GetStats` left open above. -/
def app.idleReads {F σ : Type} : incident.IncidentRepo F σ :=
  { Create := fun _ b => ((none, none), b)
    GetByID := fun _ b => ((none, none), b)
    Update := fun _ b => ((none, none), b)
    Deactivate := fun _ b => (none, b)
    List := fun _ _ b => ((Slice.nil, none), b)
    GetStats := fun _ b => ((Slice.nil, none), b) }

/-- An audit-log repository that does nothing. -/
def app.idleLocationRepo {F σ : Type} : location.LocationRepo F σ :=
  { SaveCheckLog := fun _ b => (none, b) }

/-- A queue client that does nothing. -/
def app.idleQueue {F σ : Type} : location.QueueProducer F σ :=
  { EnqueueDangerAlert := fun _ _ _ b => (none, b) }

/-- A cache repository with the codec that keeps documents in parsed form and a TTL of one
hour. -/
def app.testCache (F : Type) :
    cache.Repo F (Slice (models.IncidentShort F) ⊕ String) :=
  { IncidentsTTL := 3600000000000, json := json.parsed (Slice (models.IncidentShort F)) }

/-- The row of the incident of `TestCheck_CacheHit_Danger`: id 1 at (10, 10), radius 1000,
active. -/
def app.testRow (F : Type) [Float64Ops F] : IncidentRow F :=
  { id := 1
    location := postgis.ST_MakePoint (Float64Ops.ofInt 10) (Float64Ops.ofInt 10)
    radius_meters := 1000
    is_active := true
    created_at := 0
    updated_at := 0 }

/-- A backend whose table holds the row `testRow` and whose cache entry lists it, with the
given fault schedule of the cache server. -/
def app.testBackend (F : Type) [Float64Ops F] (cacheFaults : List (Option String)) :
    Backend F (Slice (models.IncidentShort F) ⊕ String) :=
  { db := { incidents := [app.testRow F], id_seq := 2, now := 0, faults := [] }
    cache :=
      { data := fun k =>
          if k = cache.KeyActiveIncidents then
            some (Sum.inl (Slice.mk [location.testIncident F]), 3600000000000)
          else none
        faults := cacheFaults } }

/-- The zero value of `queue.WebhookPayload`, what `var payload queue.WebhookPayload` holds. -/
instance instInhabitedWebhookPayload {F : Type} [Float64Ops F] :
    Inhabited (queue.WebhookPayload F) :=
  ⟨{ UserID := "", Latitude := Float64Ops.ofInt 0, Longitude := Float64Ops.ofInt 0 }⟩

/-- A task handler in the manner of a test double: the codec keeps documents in parsed form,
every request can be built, and the webhook answers every request with the given status. -/
def webhook.testHandler (F : Type) [Float64Ops F] (status : Int) :
    webhook.TaskHandler F (queue.WebhookPayload F ⊕ String) Unit :=
  { webhookURL := "http://localhost:9090"
    json := json.parsed (queue.WebhookPayload F)
    NewRequest := fun method url body =>
      ({ method := method, url := url, header := [], body := body }, none)
    Do := fun _ b => (({ StatusCode := status, closeErr := none }, none), b) }

/-- A table with the row `testRow`, id 1 at (10, 10), and a second row, id 2 at (0, 0). -/
def app.twoRows (F : Type) [Float64Ops F] : DB F :=
  { incidents :=
      [app.testRow F,
        { id := 2
          location := postgis.ST_MakePoint (Float64Ops.ofInt 0) (Float64Ops.ofInt 0)
          radius_meters := 500
          is_active := true
          created_at := 0
          updated_at := 0 }]
    id_seq := 3
    now := 0
    faults := [] }

/-! ## Operations on the cache, for executions of the cache alone -/

/-- A call on the cache repository, or the expiry of the entry on the server. -/
inductive cache.Op (F : Type) where
  | Get
  | Set (incidents : Slice (models.IncidentShort F))
  | Invalidate
  | Expire

/-- A `SetActiveIncidents`. -/
def cache.Op.isSet {F : Type} : cache.Op F → Bool
  | cache.Op.Set _ => true
  | _ => false

/-- Anything apart from `GetActiveIncidents`: what can change the entry. -/
def cache.Op.isWrite {F : Type} : cache.Op F → Bool
  | cache.Op.Get => false
  | _ => true

/-- One operation: the error it returns and the server it leaves. An expiry reports no
error. -/
def cache.Repo.step {F B : Type} (r : cache.Repo F B) (c : redis.Client B) :
    cache.Op F → Option Error × redis.Client B
  | cache.Op.Get => ((cache.Repo.GetActiveIncidents r c).1.2, (cache.Repo.GetActiveIncidents r c).2)
  | cache.Op.Set incidents => cache.Repo.SetActiveIncidents r incidents c
  | cache.Op.Invalidate => cache.Repo.InvalidateActiveIncidents r c
  | cache.Op.Expire => (none, c.expire cache.KeyActiveIncidents)

/-- The server after a sequence of operations. -/
def cache.Repo.run {F B : Type} (r : cache.Repo F B) (c : redis.Client B)
    (ops : List (cache.Op F)) : redis.Client B :=
  ops.foldl (fun c op => (r.step c op).2) c

/-- In the execution of `ops` from `c`, every selected operation returns an error. -/
def cache.Repo.allFail {F B : Type} (r : cache.Repo F B) (select : cache.Op F → Bool) :
    redis.Client B → List (cache.Op F) → Prop
  | _, [] => True
  | c, op :: ops =>
    (select op = true → (r.step c op).1 ≠ none) ∧ cache.Repo.allFail r select (r.step c op).2 ops

/-! ## `encoding/json` on `queue.WebhookPayload` -/

/-- A JSON value in a field of an object, as far as a destination of type `string` or
`float64` tells values apart: `num x` is a number literal that `float64` holds as `x`, and
`other` is any further value (a nested array or object, a number out of range). -/
inductive json.Value (F : Type) where
  | null
  | bool (b : Bool)
  | num (x : F)
  | str (s : String)
  | other
  deriving DecidableEq, Repr

/-- A byte string by what a JSON parser makes of it: an object with its members in order, a
value that is not an object, or text that is not JSON. -/
inductive json.Document (F : Type) where
  | object (members : List (String × json.Value F))
  | value (v : json.Value F)
  | invalid (text : String)
  deriving DecidableEq, Repr

/-- The comparison of a member name with the name of a field: equal up to the case of ASCII
letters (`encoding/json` prefers an exact match and accepts one that differs in case). -/
def json.nameMatches (member field : String) : Bool :=
  member.toList.map Char.toLower == field.toList.map Char.toLower

/-- The error of `json.Unmarshal` for a value of the wrong type; decoding goes on and the
first such error is returned. -/
def json.typeError (field : String) : Error :=
  Error.New ("json: cannot unmarshal value into Go struct field WebhookPayload." ++ field)

/-- Decode one member of an object into a `queue.WebhookPayload`, by the tags
`json:"user_id"`, `json:"latitude"` and `json:"longitude"`: `null` leaves the field as it is,
a member of another name is skipped. -/
def queue.WebhookPayload.setMember {F : Type}
    (acc : queue.WebhookPayload F × Option Error) (member : String × json.Value F) :
    queue.WebhookPayload F × Option Error :=
  if json.nameMatches member.1 "user_id" then
    match member.2 with
    | json.Value.str s => ({ acc.1 with UserID := s }, acc.2)
    | json.Value.null => acc
    | _ => (acc.1, acc.2 <|> some (json.typeError "user_id"))
  else if json.nameMatches member.1 "latitude" then
    match member.2 with
    | json.Value.num x => ({ acc.1 with Latitude := x }, acc.2)
    | json.Value.null => acc
    | _ => (acc.1, acc.2 <|> some (json.typeError "latitude"))
  else if json.nameMatches member.1 "longitude" then
    match member.2 with
    | json.Value.num x => ({ acc.1 with Longitude := x }, acc.2)
    | json.Value.null => acc
    | _ => (acc.1, acc.2 <|> some (json.typeError "longitude"))
  else acc

/-- The codec of `encoding/json` for `queue.WebhookPayload`, read off the struct tags.
`Marshal` writes the three fields under their tags, in the order of the struct, and rejects
a `float64` that is not finite; a finite `float64` is written as the shortest decimal that
reads back as itself. `Unmarshal` fills the zero value of the struct. Go strings are taken to
be valid UTF-8, as the strings of Lean are. -/
def json.webhookCodec {F : Type} [Float64Ops F] (finite : F → Bool) :
    json.Codec (queue.WebhookPayload F) (json.Document F) where
  Marshal p :=
    if finite p.Latitude && finite p.Longitude then
      (json.Document.object
        [("user_id", json.Value.str p.UserID), ("latitude", json.Value.num p.Latitude),
          ("longitude", json.Value.num p.Longitude)], none)
    else (json.Document.invalid "", some (Error.New "json: unsupported value"))
  Unmarshal
    | json.Document.object members => members.foldl queue.WebhookPayload.setMember (default, none)
    | json.Document.value json.Value.null => (default, none)
    | json.Document.value _ =>
      (default,
        some (Error.New "json: cannot unmarshal value into Go value of type WebhookPayload"))
    | json.Document.invalid text => (default, some (Error.New ("invalid character in " ++ text)))

/-! ## Package `queue`: the producer -/

/-- The constant `TypeDangerWebhook`. -/
def queue.TypeDangerWebhook : String := "webhook:danger"

/-- The options of `asynq` that the producer attaches to a task. -/
inductive asynq.Opt where
  | MaxRetry (n : Int)
  | Timeout (d : Duration)
  deriving DecidableEq, Repr

/-- The function `asynq.NewTask`. -/
def asynq.NewTask {B : Type} (typename : String) (payload : B) : asynq.Task B :=
  { typename := typename, payload := payload }

/-- The struct `queue.Client`: `EnqueueContext` is the method of `*asynq.Client`, from the
library, and `json` the codec of `encoding/json` for `queue.WebhookPayload`. -/
structure queue.Client (F B σ : Type) where
  maxRetries : Int
  timeout : Duration
  json : json.Codec (queue.WebhookPayload F) B
  EnqueueContext : asynq.Task B → List asynq.Opt → σ → Option Error × σ

/-- The method `(*Client).EnqueueDangerAlert`. -/
def queue.Client.EnqueueDangerAlert {F B σ : Type} (q : queue.Client F B σ) (userID : String)
    (latitude longitude : F) (b : σ) : Option Error × σ :=
  match q.json.Marshal { UserID := userID, Latitude := latitude, Longitude := longitude } with
  | (_, some err) => (some (Error.Wrap "failed to marshal payload" err), b)
  | (payload, none) =>
    let task := asynq.NewTask queue.TypeDangerWebhook payload
    match q.EnqueueContext task [asynq.Opt.MaxRetry q.maxRetries, asynq.Opt.Timeout q.timeout]
        b with
    | (some err, b) => (some (Error.Wrap "failed to enqueue task" err), b)
    | (none, b) => (none, b)

/-- A broker in the manner of a test double: the state is the list of the tasks enqueued so
far, each with its options. -/
def queue.testClient (F : Type) [Float64Ops F] (finite : F → Bool) (maxRetries : Int)
    (timeout : Duration) :
    queue.Client F (json.Document F) (List (asynq.Task (json.Document F) × List asynq.Opt)) :=
  { maxRetries := maxRetries
    timeout := timeout
    json := json.webhookCodec finite
    EnqueueContext := fun task opts b => (none, b ++ [(task, opts)]) }

/-- A task handler on JSON documents whose webhook answers every request with the given
status. -/
def webhook.jsonHandler (F : Type) [Float64Ops F] (finite : F → Bool) (status : Int) :
    webhook.TaskHandler F (json.Document F) Unit :=
  { webhookURL := "http://localhost:9090"
    json := json.webhookCodec finite
    NewRequest := fun method url body =>
      ({ method := method, url := url, header := [], body := body }, none)
    Do := fun _ b => (({ StatusCode := status, closeErr := none }, none), b) }

/-! ## Package `handlers/incident`: the listing -/

/-- The function `strconv.ParseInt(s, 10, 64)`: an optional sign and decimal digits, within
the range of `int64`. -/
def strconv.ParseInt (s : String) : Option Int :=
  let digits (ds : List Char) : Option Int :=
    if !ds.isEmpty && ds.all Char.isDigit then
      some (Int.ofNat (ds.foldl (fun n c => 10 * n + (c.toNat - 48)) 0))
    else none
  let parsed : Option Int :=
    match s.toList with
    | '+' :: ds => digits ds
    | '-' :: ds => (digits ds).map (fun n => -n)
    | ds => digits ds
  parsed.bind (fun n => if -2 ^ 63 ≤ n ∧ n < 2 ^ 63 then some n else none)

/-- The query string of a request as `url.Values`: the parameters with their first value. -/
abbrev gin.Query := List (String × String)

/-- The struct `ListReq`, with the tags `form:"limit" binding:"omitempty,min=1"` and
`form:"offset" binding:"omitempty,min=0"`. -/
structure incident.ListReq where
  Limit : Int
  Offset : Int
  deriving DecidableEq, Repr

/-- The form binding of `gin` for a field of type `int`: a parameter that is absent leaves the
field as it is, the tag naming no `default=`; an empty value is read as `0`. -/
def gin.bindInt (query : gin.Query) (name : String) (field : Int) : Except Error Int :=
  match query.lookup name with
  | none => Except.ok field
  | some value =>
    match strconv.ParseInt (if value = "" then "0" else value) with
    | some n => Except.ok n
    | none => Except.error (Error.New ("strconv.ParseInt: parsing " ++ value))

/-- The rule `omitempty,min=m` of the validator on a field of type `int`: the zero value
passes, another value has to be at least `m`. -/
def gin.omitemptyMin (m : Int) (field : Int) : Bool :=
  field == 0 || decide (m ≤ field)

/-- The call `c.ShouldBindQuery(&req)` on a `ListReq` that holds the zero value: the form
binding by the tags `form`, then the validation by the tags `binding`. -/
def gin.ShouldBindQuery (query : gin.Query) : incident.ListReq × Option Error :=
  match gin.bindInt query "limit" 0 with
  | Except.error err => ({ Limit := 0, Offset := 0 }, some err)
  | Except.ok limit =>
    match gin.bindInt query "offset" 0 with
    | Except.error err => ({ Limit := limit, Offset := 0 }, some err)
    | Except.ok offset =>
      if gin.omitemptyMin 1 limit && gin.omitemptyMin 0 offset then
        ({ Limit := limit, Offset := offset }, none)
      else
        ({ Limit := limit, Offset := offset },
          some (Error.New "Field validation for ListReq failed on the min tag"))

/-- What a handler writes through package `response`. -/
inductive response.Written (F : Type) where
  | OK (incidents : Slice (models.Incident F))
  | BadRequestError (msg : String)
  | InternalError

/-- The method `(*Handler).list`; its service is `incident.Service`, as `main.go` wires it. -/
def incident.Handler.list {F σ : Type} (service : incident.Service F σ) (query : gin.Query)
    (w : World F σ) : response.Written F × World F σ :=
  match gin.ShouldBindQuery query with
  | (_, some err) => (response.Written.BadRequestError err.message, w)
  | (req, none) =>
    match incident.List service req.Limit req.Offset w with
    | ((_, some _), w) => (response.Written.InternalError, w)
    | ((incidents, none), w) => (response.Written.OK incidents, w)

/-- The query of `Repo.List`, run through `Query`:
`SELECT … FROM incidents ORDER BY created_at DESC, id DESC LIMIT $1 OFFSET $2`. The server
rejects a negative `LIMIT` or `OFFSET`. -/
def sql.listIncidents {F : Type} (a1 a2 : Int) (db : DB F) :
    Except Error (List (IncidentRow F)) × DB F :=
  match db.exec with
  | (some err, db) => (Except.error err, db)
  | (none, db) =>
    if a1 < 0 ∨ a2 < 0 then
      (Except.error (Error.New "LIMIT and OFFSET must not be negative"), db)
    else
      (Except.ok
        (((List.insertionSort
          (fun a b => b.created_at < a.created_at ∨ (a.created_at = b.created_at ∧ b.id ≤ a.id))
          db.incidents).drop a2.toNat).take a1.toNat), db)

/-- The method `(*Repo).List`: `incidents` starts as the nil slice and receives the scanned
rows in order. -/
def incident.Repo.List {F : Type} (limit offset : Int) (db : DB F) :
    (Slice (models.Incident F) × Option Error) × DB F :=
  match sql.listIncidents limit offset db with
  | (Except.error err, db) => ((Slice.nil, some (Error.Wrap "failed to list incidents" err)), db)
  | (Except.ok rows, db) =>
    let incidents := rows.foldl
      (fun incidents row => incidents.append (incident.Repo.scanIncident row)) Slice.nil
    match db.exec with
    | (some err, db) => ((Slice.nil, some (Error.Wrap "rows iteration error" err)), db)
    | (none, db) => ((incidents, none), db)

/-- The incident service on a database alone: the store methods are those of `repos/incident`
(`GetStats`, whose query is not read here, returns nothing), and the cache repository does
nothing. -/
def incident.storeService {F : Type} [Float64Ops F] [PostGIS F] (StatsTimeWindow : Duration) :
    incident.Service F (DB F) :=
  { StatsTimeWindow := StatsTimeWindow
    incRepo :=
      { Create := incident.Repo.Create
        GetByID := incident.Repo.GetByID
        Update := incident.Repo.Update
        Deactivate := incident.Repo.Deactivate
        List := incident.Repo.List
        GetStats := fun _ db => ((Slice.nil, none), db) }
    cacheRepo := { InvalidateActiveIncidents := fun db => (none, db) } }

/-! ## Lemmas on the geofence loop and on the resolution of the active set -/

/-- A loop that appends the elements passing a test computes the filtered list. -/
theorem Slice.foldl_append_if {α : Type} (p : α → Bool) (xs acc : List α) :
    List.foldl (fun found x => if p x = true then Slice.append found x else found)
      (Slice.mk acc) xs = Slice.mk (acc ++ xs.filter p) := by
  induction xs generalizing acc with
  | nil => simp
  | cons x xs ih =>
    rw [List.foldl_cons]
    cases hx : p x
    · rw [if_neg (by simp), ih, List.filter_cons_of_neg (by simp [hx])]
    · rw [if_pos rfl]
      show List.foldl _ (Slice.mk (acc ++ [x])) xs = _
      rw [ih, List.filter_cons_of_pos hx]
      simp

/-- The loop of `Check` computes the incidents that pass the distance test, in order. -/
theorem location.foundDangers_eq_filter {F : Type} [Float64Ops F]
    (params : models.CheckLocationParams F) (incidents : Slice (models.IncidentShort F)) :
    location.foundDangers params incidents
      = Slice.mk (incidents.toList.filter (location.inDanger params)) := by
  have h := Slice.foldl_append_if (location.inDanger params) incidents.toList []
  rw [List.nil_append] at h
  exact h

/-- What `Check` returns and does once the active list has been resolved. -/
theorem location.Check_of_resolved {F σ : Type} [Float64Ops F] (s : location.Service F σ)
    (params : models.CheckLocationParams F) (w w1 : World F σ)
    (L : Slice (models.IncidentShort F))
    (hres : location.getActiveIncidents s w = ((L, none), w1)) :
    location.Check s params w =
      ((some
          { UserID := params.UserID
            Latitude := params.Latitude
            Longitude := params.Longitude
            HasDanger := decide ((L.toList.filter (location.inDanger params)).length > 0)
            Dangers := Slice.mk (L.toList.filter (location.inDanger params))
            CreatedAt := w1.now }, none),
        { w1 with spawned := w1.spawned ++
            [{ UserID := params.UserID
               Latitude := params.Latitude
               Longitude := params.Longitude
               HasDanger := decide ((L.toList.filter (location.inDanger params)).length > 0)
               Dangers := Slice.mk (L.toList.filter (location.inDanger params))
               CreatedAt := w1.now }] }) := by
  unfold location.Check
  rw [hres]
  simp only [location.foundDangers_eq_filter, Slice.len, Slice.toList]

/-- What `Check` returns and does when the active list cannot be resolved. -/
theorem location.Check_of_failed {F σ : Type} [Float64Ops F] (s : location.Service F σ)
    (params : models.CheckLocationParams F) (w w1 : World F σ)
    (l : Slice (models.IncidentShort F)) (e : Error)
    (hres : location.getActiveIncidents s w = ((l, some e), w1)) :
    location.Check s params w =
      ((none, some e), w1.log LogLevel.Error "failed to get active incidents" (some e)) := by
  unfold location.Check
  rw [hres]

/-- The cache-hit path of `getActiveIncidents`. -/
theorem location.getActiveIncidents_hit {F σ : Type} (s : location.Service F σ)
    (w : World F σ) (L : Slice (models.IncidentShort F)) (b1 : σ)
    (hcache : s.cacheRepo.GetActiveIncidents w.backend = ((L, none), b1)) :
    location.getActiveIncidents s w =
      ((L, none), { w with backend := b1, calls := w.calls ++ [Call.CacheGetActiveIncidents] }) := by
  unfold location.getActiveIncidents
  simp only [World.invoke, hcache]

/-- The path of `getActiveIncidents` through a failed cache read and a successful store read. -/
theorem location.getActiveIncidents_fallback {F σ : Type} (s : location.Service F σ)
    (w : World F σ) (l0 L : Slice (models.IncidentShort F)) (e : Error) (b1 b2 : σ)
    (hcache : s.cacheRepo.GetActiveIncidents w.backend = ((l0, some e), b1))
    (hstore : s.incRepo.GetActive b1 = ((L, none), b2)) :
    ∃ w1, location.getActiveIncidents s w = ((L, none), w1) ∧
      w1.backend = (s.cacheRepo.SetActiveIncidents L b2).2 ∧
      w1.calls = w.calls ++ [Call.CacheGetActiveIncidents, Call.IncGetActive,
        Call.CacheSetActiveIncidents L] ∧
      w1.spawned = w.spawned ∧ w1.now = w.now := by
  unfold location.getActiveIncidents
  simp only [World.invoke, hcache]
  by_cases he : e = errs.ErrCacheMiss <;>
    cases hset : (s.cacheRepo.SetActiveIncidents L b2).1 <;>
    simp [he, hset, World.log, hstore]

/-- The path of `getActiveIncidents` through a failed cache read and a failed store read. -/
theorem location.getActiveIncidents_store_error {F σ : Type} (s : location.Service F σ)
    (w : World F σ) (l0 l1 : Slice (models.IncidentShort F)) (e0 e : Error) (b1 b2 : σ)
    (hcache : s.cacheRepo.GetActiveIncidents w.backend = ((l0, some e0), b1))
    (hstore : s.incRepo.GetActive b1 = ((l1, some e), b2)) :
    ∃ w1, location.getActiveIncidents s w = ((Slice.nil, some e), w1) ∧
      w1.backend = b2 ∧
      w1.calls = w.calls ++ [Call.CacheGetActiveIncidents, Call.IncGetActive] ∧
      w1.spawned = w.spawned ∧ w1.now = w.now := by
  unfold location.getActiveIncidents
  simp only [World.invoke, hcache]
  by_cases he : e0 = errs.ErrCacheMiss <;> simp [he, World.log, hstore]

/-! ## Lemmas on `geo.Distance` -/

/-- The result of `Distance` in terms of its local variable `a`. -/
theorem geo.Distance_eq_haversine {F : Type} [Float64Ops F] (lat1 lon1 lat2 lon2 : F) :
    geo.Distance lat1 lon1 lat2 lon2 =
      Float64Ops.mul (Float64Ops.ofInt geo.earthRadius)
        (Float64Ops.mul (Float64Ops.ofInt 2)
          (Float64Ops.atan2 (Float64Ops.sqrt (geo.haversine lat1 lon1 lat2 lon2))
            (Float64Ops.sqrt
              (Float64Ops.sub (Float64Ops.ofInt 1) (geo.haversine lat1 lon1 lat2 lon2))))) :=
  rfl

/-- The distance from a finite point to itself is a zero, by the laws of `Float64Laws`. -/
theorem geo.Distance_self_isZero {F : Type} [Float64Ops F] (laws : Float64Laws F)
    (lat lon : F) (hlat : laws.finite lat) (hlon : laws.finite lon) :
    laws.isZero (geo.Distance lat lon lat lon) := by
  have two_fin : laws.finite (Float64Ops.ofInt 2) :=
    laws.finite_ofInt 2 (by norm_num) (by norm_num)
  have two_ne : ¬ laws.isZero (Float64Ops.ofInt 2) := laws.ofInt_ne_zero 2 (by norm_num)
  have radius_fin : laws.finite (Float64Ops.ofInt geo.earthRadius) :=
    laws.finite_ofInt _ (by norm_num [geo.earthRadius]) (by norm_num [geo.earthRadius])
  have sLat := laws.sin_zero _ (laws.zero_div _ _
    (laws.zero_mul _ _ (laws.sub_self _ hlat) laws.finite_degToRad) two_fin two_ne)
  have sLon := laws.sin_zero _ (laws.zero_div _ _
    (laws.zero_mul _ _ (laws.sub_self _ hlon) laws.finite_degToRad) two_fin two_ne)
  have cosLat := laws.cos_finite _ (laws.finite_mul_degToRad _ hlat)
  have a0 := laws.zero_add _ _ (laws.zero_mul _ _ sLat (laws.isZero_finite _ sLat))
    (laws.zero_mul _ _ (laws.zero_mul _ _
      (laws.zero_mul _ _ sLon (laws.isZero_finite _ sLon)) cosLat) cosLat)
  have hc := laws.atan2_zero_one _ (laws.sqrt_zero _ a0)
  rw [← laws.sqrt_one, ← laws.one_sub_zero _ a0] at hc
  exact laws.mul_zero _ _ radius_fin (laws.mul_zero _ _ two_fin hc)

/-- The centre of an incident with a non-negative radius passes its distance test. -/
theorem location.inDanger_own_centre {F : Type} [Float64Ops F] (laws : Float64Laws F)
    (userID : String) (I : models.IncidentShort F)
    (hlat : laws.finite I.Latitude) (hlon : laws.finite I.Longitude) (hr : 0 ≤ I.Radius) :
    location.inDanger { UserID := userID, Latitude := I.Latitude, Longitude := I.Longitude } I
      = true :=
  laws.zero_le_ofInt _ _ (geo.Distance_self_isZero laws _ _ hlat hlon) hr

/-- The local variable `a` of `Distance` over the reals. -/
theorem geo.haversine_real (lat1 lon1 lat2 lon2 : ℝ) :
    geo.haversine lat1 lon1 lat2 lon2 =
      Real.sin ((lat2 - lat1) * (Real.pi / 180) / 2) ^ 2 +
        Real.sin ((lon2 - lon1) * (Real.pi / 180) / 2) ^ 2 *
          Real.cos (lat1 * (Real.pi / 180)) * Real.cos (lat2 * (Real.pi / 180)) := by
  show Real.sin ((lat2 - lat1) * (Real.pi / ((180 : Int) : ℝ)) / ((2 : Int) : ℝ)) *
        Real.sin ((lat2 - lat1) * (Real.pi / ((180 : Int) : ℝ)) / ((2 : Int) : ℝ)) +
      Real.sin ((lon2 - lon1) * (Real.pi / ((180 : Int) : ℝ)) / ((2 : Int) : ℝ)) *
        Real.sin ((lon2 - lon1) * (Real.pi / ((180 : Int) : ℝ)) / ((2 : Int) : ℝ)) *
          Real.cos (lat1 * (Real.pi / ((180 : Int) : ℝ))) *
          Real.cos (lat2 * (Real.pi / ((180 : Int) : ℝ))) = _
  push_cast
  ring

/-- For `a` in `[0, 1]`, `atan2(sqrt a, sqrt (1 - a))` is `arcsin (sqrt a)`. -/
theorem geo.arg_sqrt_eq_arcsin (a : ℝ) (h0 : 0 ≤ a) (h1 : a ≤ 1) :
    Complex.arg ⟨Real.sqrt (1 - a), Real.sqrt a⟩ = Real.arcsin (Real.sqrt a) := by
  have habs : Complex.abs ⟨Real.sqrt (1 - a), Real.sqrt a⟩ = 1 := by
    rw [Complex.abs_apply, Complex.normSq_mk, Real.mul_self_sqrt (by linarith),
      Real.mul_self_sqrt h0]
    norm_num
  rw [Complex.arg_of_re_nonneg (Real.sqrt_nonneg _), habs]
  simp

/-- Over the reals, `Distance` is `2 * 6371000 * arcsin (sqrt a)` when `a` lies in `[0, 1]`. -/
theorem geo.Distance_real (lat1 lon1 lat2 lon2 : ℝ)
    (h0 : 0 ≤ geo.haversine lat1 lon1 lat2 lon2) (h1 : geo.haversine lat1 lon1 lat2 lon2 ≤ 1) :
    geo.Distance lat1 lon1 lat2 lon2 =
      6371000 * (2 * Real.arcsin (Real.sqrt (geo.haversine lat1 lon1 lat2 lon2))) := by
  rw [geo.Distance_eq_haversine, ← geo.arg_sqrt_eq_arcsin _ h0 h1]
  show ((geo.earthRadius : Int) : ℝ) * (((2 : Int) : ℝ) *
    Complex.arg ⟨Real.sqrt (((1 : Int) : ℝ) - _), Real.sqrt _⟩) = _
  simp [geo.earthRadius]

/-- Over the reals, a point at latitude `lat` in `[0, 90]` is at least `6371000 * lat / 90`
away from the point (0, 0). -/
theorem geo.Distance_from_origin_lower (lat lon : ℝ) (h0 : 0 ≤ lat) (h90 : lat ≤ 90) :
    6371000 * (2 * (lat / 180)) ≤ geo.Distance 0 0 lat lon := by
  have hpi : 0 < Real.pi := Real.pi_pos
  have hx0 : 0 ≤ lat * (Real.pi / 180) / 2 := by positivity
  have hx1 : lat * (Real.pi / 180) / 2 ≤ Real.pi / 2 := by nlinarith
  have hs : lat / 180 ≤ Real.sin (lat * (Real.pi / 180) / 2) := by
    have h := Real.mul_le_sin hx0 hx1
    have e : 2 / Real.pi * (lat * (Real.pi / 180) / 2) = lat / 180 := by
      field_simp
      ring
    rwa [e] at h
  have hs0 : 0 ≤ Real.sin (lat * (Real.pi / 180) / 2) := le_trans (by positivity) hs
  have hcos : 0 ≤ Real.cos (lat * (Real.pi / 180)) :=
    Real.cos_nonneg_of_neg_pi_div_two_le_of_le (by nlinarith) (by nlinarith)
  have hcos2 : Real.cos (lat * (Real.pi / 180)) =
      1 - 2 * Real.sin (lat * (Real.pi / 180) / 2) ^ 2 := by
    have e : lat * (Real.pi / 180) = 2 * (lat * (Real.pi / 180) / 2) := by ring
    rw [e, Real.cos_two_mul, Real.cos_sq']
    ring_nf
  have hlon : Real.sin (lon * (Real.pi / 180) / 2) ^ 2 ≤ 1 := Real.sin_sq_le_one _
  have ha : geo.haversine 0 0 lat lon =
      Real.sin (lat * (Real.pi / 180) / 2) ^ 2 +
        Real.sin (lon * (Real.pi / 180) / 2) ^ 2 * Real.cos (lat * (Real.pi / 180)) := by
    rw [geo.haversine_real]
    simp
  have ha0 : Real.sin (lat * (Real.pi / 180) / 2) ^ 2 ≤ geo.haversine 0 0 lat lon := by
    rw [ha]
    have := mul_nonneg (sq_nonneg (Real.sin (lon * (Real.pi / 180) / 2))) hcos
    linarith
  have ha1 : geo.haversine 0 0 lat lon ≤ 1 := by
    rw [ha]
    have := mul_le_mul_of_nonneg_right hlon hcos
    nlinarith [sq_nonneg (Real.sin (lat * (Real.pi / 180) / 2))]
  have ha00 : 0 ≤ geo.haversine 0 0 lat lon := le_trans (sq_nonneg _) ha0
  have hsq : Real.sin (lat * (Real.pi / 180) / 2) ≤ Real.sqrt (geo.haversine 0 0 lat lon) :=
    Real.le_sqrt_of_sq_le ha0
  have hsq1 : Real.sqrt (geo.haversine 0 0 lat lon) ≤ 1 := by
    have h := Real.sqrt_le_sqrt ha1
    rwa [Real.sqrt_one] at h
  have harc : Real.sqrt (geo.haversine 0 0 lat lon) ≤
      Real.arcsin (Real.sqrt (geo.haversine 0 0 lat lon)) := by
    rw [Real.le_arcsin_iff_sin_le ⟨by linarith [Real.sqrt_nonneg (geo.haversine 0 0 lat lon)],
      by linarith [Real.pi_gt_three]⟩ ⟨by linarith [Real.sqrt_nonneg (geo.haversine 0 0 lat lon)], hsq1⟩]
    exact Real.sin_le (Real.sqrt_nonneg _)
  rw [geo.Distance_real _ _ _ _ ha00 ha1]
  have : lat / 180 ≤ Real.arcsin (Real.sqrt (geo.haversine 0 0 lat lon)) := by linarith
  linarith

/-- Over the reals, the point (0, 0) fails the distance test of the `TestFullFlow` incident. -/
theorem location.inDanger_fullFlow_origin (userID : String) :
    location.inDanger
      { UserID := userID, Latitude := Float64Ops.ofInt 0, Longitude := Float64Ops.ofInt 0 }
      (location.fullFlowIncident ℝ) = false := by
  have h := geo.Distance_from_origin_lower (557558 / 10000) (376173 / 10000)
    (by norm_num) (by norm_num)
  show decide (geo.Distance (((0 : Int) : ℝ)) (((0 : Int) : ℝ))
    (((557558 : Int) : ℝ) / ((10000 : Int) : ℝ)) (((376173 : Int) : ℝ) / ((10000 : Int) : ℝ))
      ≤ ((1000 : Int) : ℝ)) = false
  push_cast
  rw [decide_eq_false_iff_not, not_le]
  refine lt_of_lt_of_le ?_ h
  norm_num

/-- Resolving the active list does not touch the clock. -/
theorem location.getActiveIncidents_now {F σ : Type} (s : location.Service F σ)
    (w : World F σ) : (location.getActiveIncidents s w).2.now = w.now := by
  rcases hc : s.cacheRepo.GetActiveIncidents w.backend with ⟨⟨l0, e0⟩, b1⟩
  cases e0 with
  | none => rw [location.getActiveIncidents_hit s w l0 b1 hc]
  | some e =>
    rcases hs : s.incRepo.GetActive b1 with ⟨⟨l1, e1⟩, b2⟩
    cases e1 with
    | none =>
      obtain ⟨w1, h, -, -, -, hnow⟩ :=
        location.getActiveIncidents_fallback s w l0 l1 e b1 b2 hc hs
      rw [h]
      exact hnow
    | some e1 =>
      obtain ⟨w1, h, -, -, -, hnow⟩ :=
        location.getActiveIncidents_store_error s w l0 l1 e e1 b1 b2 hc hs
      rw [h]
      exact hnow

/-- The pair `getActiveIncidents` returns, read off the two primary reads alone. -/
theorem location.getActiveIncidents_fst {F σ : Type} (s : location.Service F σ)
    (w : World F σ) :
    (location.getActiveIncidents s w).1 =
      (match s.cacheRepo.GetActiveIncidents w.backend with
        | ((incidents, none), _) => (incidents, none)
        | ((_, some _), b1) =>
          match s.incRepo.GetActive b1 with
          | ((_, some err), _) => (Slice.nil, some err)
          | ((incidents, none), _) => (incidents, none)) := by
  rcases hc : s.cacheRepo.GetActiveIncidents w.backend with ⟨⟨l0, e0⟩, b1⟩
  cases e0 with
  | none => rw [location.getActiveIncidents_hit s w l0 b1 hc]
  | some e =>
    rcases hs : s.incRepo.GetActive b1 with ⟨⟨l1, e1⟩, b2⟩
    cases e1 with
    | none =>
      obtain ⟨w1, h, -⟩ := location.getActiveIncidents_fallback s w l0 l1 e b1 b2 hc hs
      rw [h]
      simp [hs]
    | some e1 =>
      obtain ⟨w1, h, -⟩ := location.getActiveIncidents_store_error s w l0 l1 e e1 b1 b2 hc hs
      rw [h]
      simp [hs]

/-- The pair `Check` returns, read off the pair `getActiveIncidents` returns. -/
theorem location.Check_fst {F σ : Type} [Float64Ops F] (s : location.Service F σ)
    (params : models.CheckLocationParams F) (w : World F σ) :
    (location.Check s params w).1 =
      (match (location.getActiveIncidents s w).1 with
        | (_, some err) => (none, some err)
        | (incidents, none) =>
          (some
            { UserID := params.UserID
              Latitude := params.Latitude
              Longitude := params.Longitude
              HasDanger := decide ((incidents.toList.filter (location.inDanger params)).length > 0)
              Dangers := Slice.mk (incidents.toList.filter (location.inDanger params))
              CreatedAt := w.now }, none)) := by
  have hnow := location.getActiveIncidents_now s w
  rcases hg : location.getActiveIncidents s w with ⟨⟨L, err⟩, w1⟩
  rw [hg] at hnow
  cases err with
  | some e => rw [location.Check_of_failed s params w w1 L e hg]
  | none =>
    rw [location.Check_of_resolved s params w w1 L hg]
    simp only at hnow
    simp only [hnow]

/-! ## The geofence evaluation of `LocationService.Check` -/

/-- C1: whenever `Check` resolves the active-incident list `L`, it succeeds and the returned
`Dangers` is exactly the sub-list of `L`, in the order of `L`, of the incidents `I` with
`geo.Distance(lat, lon, I.Latitude, I.Longitude) <= float64(I.Radius)`. An incident of `L`
whose distance equals its radius exactly is included, and an incident for which the comparison
`<=` is false, as it is when the distance is greater, is not included. -/
theorem location.Check_dangers_filter {F σ : Type} [Float64Ops F] (laws : Float64Laws F)
    (s : location.Service F σ) (params : models.CheckLocationParams F) (w w1 : World F σ)
    (L : Slice (models.IncidentShort F))
    (hres : location.getActiveIncidents s w = ((L, none), w1)) :
    ∃ r w2, location.Check s params w = ((some r, none), w2) ∧
      r.Dangers = Slice.mk (L.toList.filter (fun I =>
        Float64Ops.le
          (geo.Distance params.Latitude params.Longitude I.Latitude I.Longitude)
          (Float64Ops.ofInt I.Radius))) ∧
      List.Sublist r.Dangers.toList L.toList ∧
      (∀ I ∈ L.toList,
        geo.Distance params.Latitude params.Longitude I.Latitude I.Longitude
          = Float64Ops.ofInt I.Radius → I ∈ r.Dangers.toList) ∧
      (∀ I, Float64Ops.le
          (geo.Distance params.Latitude params.Longitude I.Latitude I.Longitude)
          (Float64Ops.ofInt I.Radius) = false → I ∉ r.Dangers.toList) := by
  refine ⟨_, _, location.Check_of_resolved s params w w1 L hres, rfl, ?_, ?_, ?_⟩
  · exact List.filter_sublist _
  · intro I hI hd
    show I ∈ L.toList.filter (location.inDanger params)
    rw [List.mem_filter]
    refine ⟨hI, ?_⟩
    show Float64Ops.le _ _ = true
    rw [hd]
    exact laws.le_refl_ofInt _
  · intro I hfalse hmem
    have hmem2 : I ∈ L.toList.filter (location.inDanger params) := hmem
    rw [List.mem_filter] at hmem2
    have htrue : Float64Ops.le
        (geo.Distance params.Latitude params.Longitude I.Latitude I.Longitude)
        (Float64Ops.ofInt I.Radius) = true := hmem2.2
    rw [hfalse] at htrue
    exact Bool.noConfusion htrue

/-- The setting of `TestCheck_CacheHit_Danger` over the reals: the cache holds the incident
at (10, 10) with radius 1000, the point (10, 10) is checked, and `Dangers` is that incident. -/
theorem location.Check_dangers_filter_witness :
    location.getActiveIncidents
        (location.mockService (Slice.mk [location.testIncident ℝ], none) none (Slice.nil, none)
          none none)
        (World.init () 0)
      = ((Slice.mk [location.testIncident ℝ], none),
          { World.init () 0 with calls := [Call.CacheGetActiveIncidents] }) ∧
    ∃ r w2,
      location.Check
          (location.mockService (Slice.mk [location.testIncident ℝ], none) none
            (Slice.nil, none) none none)
          { UserID := "u1", Latitude := Float64Ops.ofInt 10, Longitude := Float64Ops.ofInt 10 }
          (World.init () 0)
        = ((some r, none), w2) ∧
      r.Dangers = Slice.mk [location.testIncident ℝ] := by
  obtain ⟨r, w2, hcheck, hd, -, -, -⟩ :=
    location.Check_dangers_filter realLaws
      (location.mockService (Slice.mk [location.testIncident ℝ], none) none (Slice.nil, none)
        none none)
      { UserID := "u1", Latitude := Float64Ops.ofInt 10, Longitude := Float64Ops.ofInt 10 }
      (World.init () 0) _ (Slice.mk [location.testIncident ℝ]) rfl
  refine ⟨rfl, r, w2, hcheck, ?_⟩
  rw [hd]
  have hin := location.inDanger_own_centre realLaws "u1" (location.testIncident ℝ)
    trivial trivial (by decide)
  have hin2 : Float64Ops.le
      (geo.Distance (Float64Ops.ofInt 10 : ℝ) (Float64Ops.ofInt 10)
        (location.testIncident ℝ).Latitude (location.testIncident ℝ).Longitude)
      (Float64Ops.ofInt (location.testIncident ℝ).Radius) = true := hin
  simp [Slice.toList, List.filter, hin2]

/-- C2: every `Check` that returns a nil error returns a non-nil result `r` in which
`HasDanger` is true if and only if `Dangers` has an element; `Dangers` is never the nil slice,
and when no incident of the resolved list passes the distance test it is the empty slice and
`HasDanger` is false; `UserID`, `Latitude` and `Longitude` are those of the request. -/
theorem location.Check_result_fields {F σ : Type} [Float64Ops F] (s : location.Service F σ)
    (params : models.CheckLocationParams F) (w : World F σ)
    (hok : (location.Check s params w).1.2 = none) :
    ∃ r, (location.Check s params w).1.1 = some r ∧
      (r.HasDanger = true ↔ r.Dangers.toList ≠ []) ∧
      r.Dangers ≠ Slice.nil ∧
      (∀ L w1, location.getActiveIncidents s w = ((L, none), w1) →
        (∀ I ∈ L.toList, Float64Ops.le
          (geo.Distance params.Latitude params.Longitude I.Latitude I.Longitude)
          (Float64Ops.ofInt I.Radius) = false) →
        r.Dangers = Slice.mk [] ∧ r.HasDanger = false) ∧
      r.UserID = params.UserID ∧ r.Latitude = params.Latitude ∧
      r.Longitude = params.Longitude := by
  rcases hg : location.getActiveIncidents s w with ⟨⟨L, err⟩, w1⟩
  cases err with
  | some e =>
    rw [location.Check_of_failed s params w w1 L e hg] at hok
    exact Option.noConfusion hok
  | none =>
    rw [location.Check_of_resolved s params w w1 L hg]
    refine ⟨_, rfl, ?_, ?_, ?_, rfl, rfl, rfl⟩
    · simp [Slice.toList, List.length_pos]
    · simp
    · intro L2 w2 h2 hnone
      have hL : L2 = L := by
        have := congrArg (fun x => x.1.1) h2
        exact this.symm
      subst hL
      have hempty : L2.toList.filter (location.inDanger params) = [] := by
        rw [List.filter_eq_nil_iff]
        intro I hI
        have := hnone I hI
        simp [location.inDanger, this]
      simp [hempty]

/-- The setting of `TestCheck_CacheHit_Danger`: the check succeeds with a result for "u1". -/
theorem location.Check_result_fields_witness :
    (location.Check
        (location.mockService (Slice.mk [location.testIncident ℝ], none) none (Slice.nil, none)
          none none)
        { UserID := "u1", Latitude := Float64Ops.ofInt 10, Longitude := Float64Ops.ofInt 10 }
        (World.init () 0)).1.2 = none ∧
    ∃ r,
      (location.Check
        (location.mockService (Slice.mk [location.testIncident ℝ], none) none (Slice.nil, none)
          none none)
        { UserID := "u1", Latitude := Float64Ops.ofInt 10, Longitude := Float64Ops.ofInt 10 }
        (World.init () 0)).1.1 = some r ∧
      (r.HasDanger = true ↔ r.Dangers.toList ≠ []) ∧ r.Dangers ≠ Slice.nil ∧
      r.UserID = "u1" := by
  obtain ⟨r, hr, hiff, hnil, -, hu, -, -⟩ :=
    location.Check_result_fields
      (location.mockService (Slice.mk [location.testIncident ℝ], none) none (Slice.nil, none)
        none none)
      { UserID := "u1", Latitude := Float64Ops.ofInt 10, Longitude := Float64Ops.ofInt 10 }
      (World.init () 0) rfl
  exact ⟨rfl, r, hr, hiff, hnil, hu⟩

/-- C3: for every incident `I` of the resolved active set with finite coordinates and
`Radius >= 0`, `Check` at `I`'s own centre succeeds with `HasDanger = true` and `I` among the
`Dangers`, hence a danger with `I`'s id. The arithmetic facts used are those of `Float64Laws`. -/
theorem location.Check_own_centre {F σ : Type} [Float64Ops F] (laws : Float64Laws F)
    (s : location.Service F σ) (userID : String) (w w1 : World F σ)
    (L : Slice (models.IncidentShort F)) (I : models.IncidentShort F)
    (hres : location.getActiveIncidents s w = ((L, none), w1))
    (hI : I ∈ L.toList)
    (hlat : laws.finite I.Latitude) (hlon : laws.finite I.Longitude) (hr : 0 ≤ I.Radius) :
    ∃ r w2,
      location.Check s { UserID := userID, Latitude := I.Latitude, Longitude := I.Longitude } w
        = ((some r, none), w2) ∧
      r.HasDanger = true ∧ I ∈ r.Dangers.toList ∧
      ∃ d ∈ r.Dangers.toList, d.ID = I.ID := by
  have hmem : I ∈ L.toList.filter (location.inDanger
      { UserID := userID, Latitude := I.Latitude, Longitude := I.Longitude }) := by
    rw [List.mem_filter]
    exact ⟨hI, location.inDanger_own_centre laws userID I hlat hlon hr⟩
  refine ⟨_, _, location.Check_of_resolved s _ w w1 L hres, ?_, hmem, I, hmem, rfl⟩
  simp only [decide_eq_true_eq]
  exact List.length_pos_of_mem hmem

/-- The round trip of `TestFullFlow` over the reals: with the active set holding the incident
at (55.7558, 37.6173) of radius 1000, checking that point gives `HasDanger = true` with
exactly that one match, and checking (0, 0) gives `HasDanger = false` and no match. -/
theorem location.Check_own_centre_witness :
    location.getActiveIncidents
        (location.mockService (Slice.mk [location.fullFlowIncident ℝ], none) none
          (Slice.nil, none) none none)
        (World.init () 0)
      = ((Slice.mk [location.fullFlowIncident ℝ], none),
          { World.init () 0 with calls := [Call.CacheGetActiveIncidents] }) ∧
    location.fullFlowIncident ℝ ∈ (Slice.mk [location.fullFlowIncident ℝ]).toList ∧
    realLaws.finite (location.fullFlowIncident ℝ).Latitude ∧
    realLaws.finite (location.fullFlowIncident ℝ).Longitude ∧
    0 ≤ (location.fullFlowIncident ℝ).Radius ∧
    (∃ r w2,
      location.Check
          (location.mockService (Slice.mk [location.fullFlowIncident ℝ], none) none
            (Slice.nil, none) none none)
          { UserID := "u1"
            Latitude := (location.fullFlowIncident ℝ).Latitude
            Longitude := (location.fullFlowIncident ℝ).Longitude }
          (World.init () 0)
        = ((some r, none), w2) ∧
      r.HasDanger = true ∧ r.Dangers = Slice.mk [location.fullFlowIncident ℝ]) ∧
    (∃ r w2,
      location.Check
          (location.mockService (Slice.mk [location.fullFlowIncident ℝ], none) none
            (Slice.nil, none) none none)
          { UserID := "u2", Latitude := Float64Ops.ofInt 0, Longitude := Float64Ops.ofInt 0 }
          (World.init () 0)
        = ((some r, none), w2) ∧
      r.HasDanger = false ∧ r.Dangers = Slice.mk []) := by
  have hI : location.fullFlowIncident ℝ ∈ (Slice.mk [location.fullFlowIncident ℝ]).toList := by
    simp [Slice.toList]
  obtain ⟨r, w2, hcheck, hdanger, -, -⟩ :=
    location.Check_own_centre realLaws
      (location.mockService (Slice.mk [location.fullFlowIncident ℝ], none) none
        (Slice.nil, none) none none)
      "u1" (World.init () 0) _ (Slice.mk [location.fullFlowIncident ℝ])
      (location.fullFlowIncident ℝ) rfl hI trivial trivial (by decide)
  refine ⟨rfl, hI, trivial, trivial, by decide, ⟨r, w2, hcheck, hdanger, ?_⟩, ?_⟩
  · have h := location.Check_of_resolved
      (location.mockService (Slice.mk [location.fullFlowIncident ℝ], none) none
        (Slice.nil, none) none none)
      { UserID := "u1"
        Latitude := (location.fullFlowIncident ℝ).Latitude
        Longitude := (location.fullFlowIncident ℝ).Longitude }
      (World.init () 0) _ (Slice.mk [location.fullFlowIncident ℝ]) rfl
    rw [h] at hcheck
    have hr : r = _ := (Option.some.inj (congrArg (fun x => x.1.1) hcheck)).symm
    rw [hr]
    simp [Slice.toList, List.filter,
      location.inDanger_own_centre realLaws "u1" (location.fullFlowIncident ℝ) trivial trivial
        (by decide)]
  · refine ⟨_, _, location.Check_of_resolved _ _ (World.init () 0) _
      (Slice.mk [location.fullFlowIncident ℝ]) rfl, ?_, ?_⟩ <;>
      simp [Slice.toList, List.filter, location.inDanger_fullFlow_origin "u2"]

/-! ## The resolution of the active set by `LocationService.Check` -/

/-- C4: when the cache read fails with an error `e`, be it `ErrCacheMiss` or any other, and
`IncidentRepo.GetActive` then succeeds with the list `L`, `Check` returns a result with a nil
error whose `Dangers` are the incidents of `L` passing the distance test, and the calls it
makes are the cache read, the store read and one `SetActiveIncidents` with `L`, in this order;
nothing is assumed about the outcome of that `SetActiveIncidents` call. -/
theorem location.Check_cache_failure_store_success {F σ : Type} [Float64Ops F]
    (s : location.Service F σ) (params : models.CheckLocationParams F) (w : World F σ)
    (l0 L : Slice (models.IncidentShort F)) (e : Error) (b1 b2 : σ)
    (hcache : s.cacheRepo.GetActiveIncidents w.backend = ((l0, some e), b1))
    (hstore : s.incRepo.GetActive b1 = ((L, none), b2)) :
    ∃ r w2, location.Check s params w = ((some r, none), w2) ∧
      r.Dangers = Slice.mk (L.toList.filter (fun I =>
        Float64Ops.le
          (geo.Distance params.Latitude params.Longitude I.Latitude I.Longitude)
          (Float64Ops.ofInt I.Radius))) ∧
      w2.calls = w.calls ++ [Call.CacheGetActiveIncidents, Call.IncGetActive,
        Call.CacheSetActiveIncidents L] ∧
      w2.backend = (s.cacheRepo.SetActiveIncidents L b2).2 := by
  obtain ⟨w1, h, hb, hcalls, -, -⟩ :=
    location.getActiveIncidents_fallback s w l0 L e b1 b2 hcache hstore
  exact ⟨_, _, location.Check_of_resolved s params w w1 L h, rfl, hcalls, hb⟩

/-- Two runs in the manner of `TestCheck_CacheMiss_DBSuccess`: a cache miss with a cache write
that succeeds, and a cache that fails with another error on both the read and the write. -/
theorem location.Check_cache_failure_store_success_witness :
    (∃ r w2,
      location.Check
          (location.mockService (Slice.nil, some errs.ErrCacheMiss) none
            (Slice.mk [location.testIncident ℝ], none) none none)
          { UserID := "u1", Latitude := Float64Ops.ofInt 10, Longitude := Float64Ops.ofInt 10 }
          (World.init () 0)
        = ((some r, none), w2) ∧
      w2.calls = [Call.CacheGetActiveIncidents, Call.IncGetActive,
        Call.CacheSetActiveIncidents (Slice.mk [location.testIncident ℝ])]) ∧
    (∃ r w2,
      location.Check
          (location.mockService (Slice.nil, some (Error.New "redis down"))
            (some (Error.New "redis down")) (Slice.mk [location.testIncident ℝ], none)
            none none)
          { UserID := "u1", Latitude := Float64Ops.ofInt 10, Longitude := Float64Ops.ofInt 10 }
          (World.init () 0)
        = ((some r, none), w2) ∧
      w2.calls = [Call.CacheGetActiveIncidents, Call.IncGetActive,
        Call.CacheSetActiveIncidents (Slice.mk [location.testIncident ℝ])]) := by
  constructor
  · obtain ⟨r, w2, h, -, hcalls, -⟩ :=
      location.Check_cache_failure_store_success
        (location.mockService (Slice.nil, some errs.ErrCacheMiss) none
          (Slice.mk [location.testIncident ℝ], none) none none)
        { UserID := "u1", Latitude := Float64Ops.ofInt 10, Longitude := Float64Ops.ofInt 10 }
        (World.init () 0) Slice.nil (Slice.mk [location.testIncident ℝ]) errs.ErrCacheMiss
        () () rfl rfl
    exact ⟨r, w2, h, by simpa [World.init] using hcalls⟩
  · obtain ⟨r, w2, h, -, hcalls, -⟩ :=
      location.Check_cache_failure_store_success
        (location.mockService (Slice.nil, some (Error.New "redis down"))
          (some (Error.New "redis down")) (Slice.mk [location.testIncident ℝ], none) none none)
        { UserID := "u1", Latitude := Float64Ops.ofInt 10, Longitude := Float64Ops.ofInt 10 }
        (World.init () 0) Slice.nil (Slice.mk [location.testIncident ℝ])
        (Error.New "redis down") () () rfl rfl
    exact ⟨r, w2, h, by simpa [World.init] using hcalls⟩

/-- C5: when the cache read succeeds with the list `L`, `Check` returns a result with a nil
error whose `Dangers` are the incidents of `L` passing the distance test, and the cache read
is the only call it makes: neither `IncidentRepo.GetActive` nor `SetActiveIncidents` is
called, and the backend is left in the state the cache read produced. -/
theorem location.Check_cache_hit {F σ : Type} [Float64Ops F]
    (s : location.Service F σ) (params : models.CheckLocationParams F) (w : World F σ)
    (L : Slice (models.IncidentShort F)) (b1 : σ)
    (hcache : s.cacheRepo.GetActiveIncidents w.backend = ((L, none), b1)) :
    ∃ r w2, location.Check s params w = ((some r, none), w2) ∧
      r.Dangers = Slice.mk (L.toList.filter (fun I =>
        Float64Ops.le
          (geo.Distance params.Latitude params.Longitude I.Latitude I.Longitude)
          (Float64Ops.ofInt I.Radius))) ∧
      w2.calls = w.calls ++ [Call.CacheGetActiveIncidents] ∧
      w2.backend = b1 :=
  ⟨_, _, location.Check_of_resolved s params w _ L
    (location.getActiveIncidents_hit s w L b1 hcache), rfl, rfl, rfl⟩

/-- The run of `TestCheck_CacheHit_Danger`: one call, the cache read. -/
theorem location.Check_cache_hit_witness :
    ∃ r w2,
      location.Check
          (location.mockService (Slice.mk [location.testIncident ℝ], none) none
            (Slice.nil, none) none none)
          { UserID := "u1", Latitude := Float64Ops.ofInt 10, Longitude := Float64Ops.ofInt 10 }
          (World.init () 0)
        = ((some r, none), w2) ∧
      w2.calls = [Call.CacheGetActiveIncidents] := by
  obtain ⟨r, w2, h, -, hcalls, -⟩ :=
    location.Check_cache_hit
      (location.mockService (Slice.mk [location.testIncident ℝ], none) none (Slice.nil, none)
        none none)
      { UserID := "u1", Latitude := Float64Ops.ofInt 10, Longitude := Float64Ops.ofInt 10 }
      (World.init () 0) (Slice.mk [location.testIncident ℝ]) () rfl
  exact ⟨r, w2, h, by simpa [World.init] using hcalls⟩

/-- C6: when the cache read fails and `IncidentRepo.GetActive` returns the error `e`, `Check`
returns a nil result together with `e` itself; the calls it makes are the cache read and the
store read only, so the cache is not written and neither `SaveCheckLog` nor
`EnqueueDangerAlert` is called, and no `processPostCheck` goroutine is started. -/
theorem location.Check_store_error {F σ : Type} [Float64Ops F]
    (s : location.Service F σ) (params : models.CheckLocationParams F) (w : World F σ)
    (l0 l1 : Slice (models.IncidentShort F)) (e0 e : Error) (b1 b2 : σ)
    (hcache : s.cacheRepo.GetActiveIncidents w.backend = ((l0, some e0), b1))
    (hstore : s.incRepo.GetActive b1 = ((l1, some e), b2)) :
    ∃ w2, location.Check s params w = ((none, some e), w2) ∧
      w2.calls = w.calls ++ [Call.CacheGetActiveIncidents, Call.IncGetActive] ∧
      w2.spawned = w.spawned ∧ w2.backend = b2 := by
  obtain ⟨w1, h, hb, hcalls, hsp, -⟩ :=
    location.getActiveIncidents_store_error s w l0 l1 e0 e b1 b2 hcache hstore
  exact ⟨_, location.Check_of_failed s params w w1 _ e h, hcalls, hsp, hb⟩

/-- The run of `TestCheck_DBError`: a cache miss followed by the store error "db error". -/
theorem location.Check_store_error_witness :
    ∃ w2,
      location.Check
          (location.mockService (Slice.nil, some errs.ErrCacheMiss) none
            (Slice.nil, some (Error.New "db error")) none none)
          { UserID := "u1", Latitude := (Float64Ops.ofInt 0 : ℝ)
            Longitude := Float64Ops.ofInt 0 }
          (World.init () 0)
        = ((none, some (Error.New "db error")), w2) ∧
      w2.calls = [Call.CacheGetActiveIncidents, Call.IncGetActive] ∧ w2.spawned = [] := by
  obtain ⟨w2, h, hcalls, hsp, -⟩ :=
    location.Check_store_error
      (location.mockService (Slice.nil, some errs.ErrCacheMiss) none
        (Slice.nil, some (Error.New "db error")) none none)
      { UserID := "u1", Latitude := (Float64Ops.ofInt 0 : ℝ), Longitude := Float64Ops.ofInt 0 }
      (World.init () 0) Slice.nil Slice.nil errs.ErrCacheMiss (Error.New "db error") () ()
      rfl rfl
  exact ⟨w2, h, by simpa [World.init] using hcalls, by simpa [World.init] using hsp⟩

/-! ## The post-check work and the secondary path -/

/-- C7: for every check result `r`, `processPostCheck(r)` calls `SaveCheckLog` once, with `r`,
and then calls `EnqueueDangerAlert` once, with `(r.UserID, r.Latitude, r.Longitude)` and on
the backend state `SaveCheckLog` left, if `r.HasDanger` is true, and not at all if it is
false; this holds for every outcome of `SaveCheckLog`. It starts no goroutine. -/
theorem location.processPostCheck_calls {F σ : Type} (s : location.Service F σ)
    (r : models.CheckLocationResult F) (w : World F σ) :
    (location.processPostCheck s r w).calls =
      w.calls ++ (Call.SaveCheckLog r ::
        if r.HasDanger = true then [Call.EnqueueDangerAlert r.UserID r.Latitude r.Longitude]
        else []) ∧
    (location.processPostCheck s r w).backend =
      (if r.HasDanger = true then
        (s.queue.EnqueueDangerAlert r.UserID r.Latitude r.Longitude
          (s.locationRepo.SaveCheckLog r w.backend).2).2
      else (s.locationRepo.SaveCheckLog r w.backend).2) ∧
    (location.processPostCheck s r w).spawned = w.spawned := by
  unfold location.processPostCheck
  simp only [World.invoke]
  cases hsave : (s.locationRepo.SaveCheckLog r w.backend).1 <;>
    cases hd : r.HasDanger <;>
    simp [World.log, hsave]
  all_goals
    generalize s.queue.EnqueueDangerAlert r.UserID r.Latitude r.Longitude
      (s.locationRepo.SaveCheckLog r w.backend).2 = q
    rcases q with ⟨_ | e, b⟩ <;> simp

/-- The runs of `TestProcessPostCheck_Danger` and `TestProcessPostCheck_Safe`, here with a
failing `SaveCheckLog`: the audit write, then the enqueue for "u1" at (10, 10) in the first
run and nothing more in the second. -/
theorem location.processPostCheck_calls_witness :
    (location.processPostCheck
        (location.mockService (Slice.nil, none) none (Slice.nil, none)
          (some (Error.New "db down")) none)
        { UserID := "u1", Latitude := (Float64Ops.ofInt 10 : ℝ), Longitude := Float64Ops.ofInt 10
          HasDanger := true, Dangers := Slice.nil, CreatedAt := 0 }
        (World.init () 0)).calls
      = [Call.SaveCheckLog
          { UserID := "u1", Latitude := Float64Ops.ofInt 10, Longitude := Float64Ops.ofInt 10
            HasDanger := true, Dangers := Slice.nil, CreatedAt := 0 },
        Call.EnqueueDangerAlert "u1" (Float64Ops.ofInt 10) (Float64Ops.ofInt 10)] ∧
    (location.processPostCheck
        (location.mockService (Slice.nil, none) none (Slice.nil, none)
          (some (Error.New "db down")) none)
        { UserID := "u1", Latitude := (Float64Ops.ofInt 0 : ℝ), Longitude := Float64Ops.ofInt 0
          HasDanger := false, Dangers := Slice.nil, CreatedAt := 0 }
        (World.init () 0)).calls
      = [Call.SaveCheckLog
          { UserID := "u1", Latitude := Float64Ops.ofInt 0, Longitude := Float64Ops.ofInt 0
            HasDanger := false, Dangers := Slice.nil, CreatedAt := 0 }] := by
  constructor
  · have h := (location.processPostCheck_calls
      (location.mockService (Slice.nil, none) none (Slice.nil, none)
        (some (Error.New "db down")) none)
      { UserID := "u1", Latitude := (Float64Ops.ofInt 10 : ℝ), Longitude := Float64Ops.ofInt 10
        HasDanger := true, Dangers := Slice.nil, CreatedAt := 0 }
      (World.init () 0)).1
    simpa [World.init] using h
  · have h := (location.processPostCheck_calls
      (location.mockService (Slice.nil, none) none (Slice.nil, none)
        (some (Error.New "db down")) none)
      { UserID := "u1", Latitude := (Float64Ops.ofInt 0 : ℝ), Longitude := Float64Ops.ofInt 0
        HasDanger := false, Dangers := Slice.nil, CreatedAt := 0 }
      (World.init () 0)).1
    simpa [World.init] using h

/-- C8: the result and the error `Check` returns do not depend on the secondary path. Two
services that share the cache read and the store read, run on the same backend state, return
the same error and, up to `CreatedAt`, the same result, whatever their `SetActiveIncidents`,
`SaveCheckLog` and `EnqueueDangerAlert` do; and when the active list resolves, the error is
nil for both. -/
theorem location.Check_ignores_secondary {F σ : Type} [Float64Ops F]
    (s s' : location.Service F σ) (params : models.CheckLocationParams F) (w w' : World F σ)
    (hcache : s'.cacheRepo.GetActiveIncidents = s.cacheRepo.GetActiveIncidents)
    (hinc : s'.incRepo.GetActive = s.incRepo.GetActive)
    (hb : w'.backend = w.backend) :
    (location.Check s' params w').1.2 = (location.Check s params w).1.2 ∧
    (location.Check s' params w').1.1.map (fun r => { r with CreatedAt := 0 })
      = (location.Check s params w).1.1.map (fun r => { r with CreatedAt := 0 }) ∧
    (∀ L w1, location.getActiveIncidents s w = ((L, none), w1) →
      (location.Check s params w).1.2 = none ∧ (location.Check s' params w').1.2 = none) := by
  have hfst : (location.getActiveIncidents s' w').1 = (location.getActiveIncidents s w).1 := by
    rw [location.getActiveIncidents_fst, location.getActiveIncidents_fst, hcache, hinc, hb]
  have h1 := location.Check_fst s params w
  have h2 := location.Check_fst s' params w'
  rw [hfst] at h2
  rcases hg : (location.getActiveIncidents s w).1 with ⟨L, err⟩
  rw [hg] at h1 h2
  cases err with
  | some e =>
    simp only at h1 h2
    rw [h1, h2]
    refine ⟨rfl, rfl, ?_⟩
    intro L2 w1 hres
    rw [hres] at hg
    simp at hg
  | none =>
    simp only at h1 h2
    rw [h1, h2]
    exact ⟨rfl, rfl, fun _ _ _ => ⟨rfl, rfl⟩⟩

/-- A cache miss served from the store, once with every secondary call succeeding and once
with the cache write, the audit log and the enqueue all failing, at different clock
readings: the same nil error and, up to `CreatedAt`, the same result. -/
theorem location.Check_ignores_secondary_witness :
    (location.Check
        (location.mockService (Slice.nil, some errs.ErrCacheMiss)
          (some (Error.New "redis down")) (Slice.mk [location.testIncident ℝ], none)
          (some (Error.New "db down")) (some (Error.New "broker down")))
        { UserID := "u1", Latitude := Float64Ops.ofInt 10, Longitude := Float64Ops.ofInt 10 }
        (World.init () 7)).1.2 = none ∧
    (location.Check
        (location.mockService (Slice.nil, some errs.ErrCacheMiss)
          (some (Error.New "redis down")) (Slice.mk [location.testIncident ℝ], none)
          (some (Error.New "db down")) (some (Error.New "broker down")))
        { UserID := "u1", Latitude := Float64Ops.ofInt 10, Longitude := Float64Ops.ofInt 10 }
        (World.init () 7)).1.1.map (fun r => { r with CreatedAt := 0 })
      = (location.Check
        (location.mockService (Slice.nil, some errs.ErrCacheMiss) none
          (Slice.mk [location.testIncident ℝ], none) none none)
        { UserID := "u1", Latitude := Float64Ops.ofInt 10, Longitude := Float64Ops.ofInt 10 }
        (World.init () 0)).1.1.map (fun r => { r with CreatedAt := 0 }) := by
  obtain ⟨herr, hres, hnil⟩ :=
    location.Check_ignores_secondary
      (location.mockService (Slice.nil, some errs.ErrCacheMiss) none
        (Slice.mk [location.testIncident ℝ], none) none none)
      (location.mockService (Slice.nil, some errs.ErrCacheMiss)
        (some (Error.New "redis down")) (Slice.mk [location.testIncident ℝ], none)
        (some (Error.New "db down")) (some (Error.New "broker down")))
      { UserID := "u1", Latitude := Float64Ops.ofInt 10, Longitude := Float64Ops.ofInt 10 }
      (World.init () 0) (World.init () 7) rfl rfl rfl
  exact ⟨(hnil _ _ rfl).2, hres⟩

/-! ## `IncidentService`: the store result and the cache invalidation -/

/-- The invalidation step makes one call, whatever its outcome. -/
theorem incident.invalidate_calls {F σ : Type} (s : incident.Service F σ) (w : World F σ) :
    (incident.invalidate s w).calls = w.calls ++ [Call.CacheInvalidateActiveIncidents] ∧
    (incident.invalidate s w).backend = (s.cacheRepo.InvalidateActiveIncidents w.backend).2 := by
  unfold incident.invalidate
  simp only [World.invoke]
  rcases s.cacheRepo.InvalidateActiveIncidents w.backend with ⟨_ | e, b⟩ <;> simp [World.log]

/-- C9: `Create`, `Update` and `Deactivate` return exactly the store's result, for every
outcome of the store call and of `InvalidateActiveIncidents`: the store's incident with a
nil error when the store returned a nil error, and a nil incident with the store's own error
when it returned one; `Deactivate` returns the store's error value as it is. -/
theorem incident.mutations_return_store_result {F σ : Type} (s : incident.Service F σ)
    (w : World F σ) (cp : models.CreateIncidentParams F) (up : models.UpdateIncidentParams F)
    (id : Int) :
    (incident.Create s cp w).1 =
      (match (s.incRepo.Create cp w.backend).1 with
        | (_, some err) => (none, some err)
        | (created, none) => (created, none)) ∧
    (incident.Update s up w).1 =
      (match (s.incRepo.Update up w.backend).1 with
        | (_, some err) => (none, some err)
        | (updated, none) => (updated, none)) ∧
    (incident.Deactivate s id w).1 = (s.incRepo.Deactivate id w.backend).1 := by
  refine ⟨?_, ?_, ?_⟩
  · unfold incident.Create
    simp only [World.invoke]
    rcases s.incRepo.Create cp w.backend with ⟨⟨c, _ | e⟩, b⟩ <;> simp
  · unfold incident.Update
    simp only [World.invoke]
    rcases s.incRepo.Update up w.backend with ⟨⟨c, _ | e⟩, b⟩ <;> simp
  · unfold incident.Deactivate
    simp only [World.invoke]
    rcases s.incRepo.Deactivate id w.backend with ⟨_ | e, b⟩ <;> simp

/-- The runs of `TestCreate_CacheInvalidationError` and `TestCreate_RepoError`: the created
incident with a nil error although the invalidation fails with "redis down", and a nil
incident with the store's "db error". -/
theorem incident.mutations_return_store_result_witness :
    (incident.Create
        (incident.mockService
          (some { ID := 1, Latitude := (Float64Ops.ofInt 0 : ℝ), Longitude := Float64Ops.ofInt 0
                  Radius := 0, IsActive := false, CreatedAt := 0, UpdatedAt := 0 }, none)
          (none, none) (none, none) none (some (Error.New "redis down")))
        { Latitude := Float64Ops.ofInt 10, Longitude := Float64Ops.ofInt 0, Radius := 0 }
        (World.init () 0)).1
      = (some { ID := 1, Latitude := Float64Ops.ofInt 0, Longitude := Float64Ops.ofInt 0
                Radius := 0, IsActive := false, CreatedAt := 0, UpdatedAt := 0 }, none) ∧
    (incident.Create
        (incident.mockService (F := ℝ) (none, some (Error.New "db error"))
          (none, none) (none, none) none none)
        { Latitude := Float64Ops.ofInt 10, Longitude := Float64Ops.ofInt 10, Radius := 0 }
        (World.init () 0)).1
      = (none, some (Error.New "db error")) := by
  constructor
  · exact (incident.mutations_return_store_result
      (incident.mockService
        (some { ID := 1, Latitude := (Float64Ops.ofInt 0 : ℝ), Longitude := Float64Ops.ofInt 0
                Radius := 0, IsActive := false, CreatedAt := 0, UpdatedAt := 0 }, none)
        (none, none) (none, none) none (some (Error.New "redis down")))
      (World.init () 0)
      { Latitude := Float64Ops.ofInt 10, Longitude := Float64Ops.ofInt 0, Radius := 0 }
      { ID := 1, Latitude := Float64Ops.ofInt 0, Longitude := Float64Ops.ofInt 0, Radius := 0 }
      1).1
  · exact (incident.mutations_return_store_result
      (incident.mockService (F := ℝ) (none, some (Error.New "db error"))
        (none, none) (none, none) none none)
      (World.init () 0)
      { Latitude := Float64Ops.ofInt 10, Longitude := Float64Ops.ofInt 10, Radius := 0 }
      { ID := 1, Latitude := Float64Ops.ofInt 0, Longitude := Float64Ops.ofInt 0, Radius := 0 }
      1).1

/-- C10: in `Create`, `Update` and `Deactivate` the store is called first, and
`InvalidateActiveIncidents` is called once, after it, when the store call returned a nil
error, and not at all when the store call returned an error, whichever error it is. -/
theorem incident.mutations_invalidate_once {F σ : Type} (s : incident.Service F σ)
    (w : World F σ) (cp : models.CreateIncidentParams F) (up : models.UpdateIncidentParams F)
    (id : Int) :
    (incident.Create s cp w).2.calls =
      w.calls ++ (Call.IncCreate cp ::
        if (s.incRepo.Create cp w.backend).1.2 = none then [Call.CacheInvalidateActiveIncidents]
        else []) ∧
    (incident.Update s up w).2.calls =
      w.calls ++ (Call.IncUpdate up ::
        if (s.incRepo.Update up w.backend).1.2 = none then [Call.CacheInvalidateActiveIncidents]
        else []) ∧
    (incident.Deactivate s id w).2.calls =
      w.calls ++ (Call.IncDeactivate id ::
        if (s.incRepo.Deactivate id w.backend).1 = none then [Call.CacheInvalidateActiveIncidents]
        else []) := by
  refine ⟨?_, ?_, ?_⟩
  · unfold incident.Create
    simp only [World.invoke]
    rcases s.incRepo.Create cp w.backend with ⟨⟨c, _ | e⟩, b⟩
    · simp [(incident.invalidate_calls s _).1]
    · by_cases h : Error.Is e errs.ErrIncidentExists = true <;> simp [h, World.log]
  · unfold incident.Update
    simp only [World.invoke]
    rcases s.incRepo.Update up w.backend with ⟨⟨c, _ | e⟩, b⟩
    · simp [(incident.invalidate_calls s _).1]
    · by_cases h : Error.Is e errs.ErrIncidentNotFound = true <;>
        by_cases h2 : Error.Is e errs.ErrIncidentExists = true <;> simp [h, h2, World.log]
  · unfold incident.Deactivate
    simp only [World.invoke]
    rcases s.incRepo.Deactivate id w.backend with ⟨_ | e, b⟩
    · simp [(incident.invalidate_calls s _).1]
    · by_cases h : Error.Is e errs.ErrIncidentNotFound = true <;> simp [h, World.log]

/-- The runs of `TestCreate_Success`, `TestUpdate_NotFound` and `TestDeactivate_NotFound`:
the store call followed by one invalidation, and the store call alone. -/
theorem incident.mutations_invalidate_once_witness :
    (incident.Create
        (incident.mockService
          (some { ID := 1, Latitude := (Float64Ops.ofInt 10 : ℝ)
                  Longitude := Float64Ops.ofInt 10, Radius := 100, IsActive := true
                  CreatedAt := 0, UpdatedAt := 0 }, none)
          (none, none) (none, some errs.ErrIncidentNotFound) (some errs.ErrIncidentNotFound)
          none)
        { Latitude := Float64Ops.ofInt 10, Longitude := Float64Ops.ofInt 10, Radius := 100 }
        (World.init () 0)).2.calls
      = [Call.IncCreate
          { Latitude := Float64Ops.ofInt 10, Longitude := Float64Ops.ofInt 10, Radius := 100 },
        Call.CacheInvalidateActiveIncidents] ∧
    (incident.Update
        (incident.mockService
          (some { ID := 1, Latitude := (Float64Ops.ofInt 10 : ℝ)
                  Longitude := Float64Ops.ofInt 10, Radius := 100, IsActive := true
                  CreatedAt := 0, UpdatedAt := 0 }, none)
          (none, none) (none, some errs.ErrIncidentNotFound) (some errs.ErrIncidentNotFound)
          none)
        { ID := 1, Latitude := Float64Ops.ofInt 0, Longitude := Float64Ops.ofInt 0, Radius := 0 }
        (World.init () 0)).2.calls
      = [Call.IncUpdate
          { ID := 1, Latitude := Float64Ops.ofInt 0, Longitude := Float64Ops.ofInt 0
            Radius := 0 }] ∧
    (incident.Deactivate
        (incident.mockService
          (some { ID := 1, Latitude := (Float64Ops.ofInt 10 : ℝ)
                  Longitude := Float64Ops.ofInt 10, Radius := 100, IsActive := true
                  CreatedAt := 0, UpdatedAt := 0 }, none)
          (none, none) (none, some errs.ErrIncidentNotFound) (some errs.ErrIncidentNotFound)
          none)
        1 (World.init () 0)).2.calls
      = [Call.IncDeactivate 1] := by
  have h := incident.mutations_invalidate_once
    (incident.mockService
      (some { ID := 1, Latitude := (Float64Ops.ofInt 10 : ℝ)
              Longitude := Float64Ops.ofInt 10, Radius := 100, IsActive := true
              CreatedAt := 0, UpdatedAt := 0 }, none)
      (none, none) (none, some errs.ErrIncidentNotFound) (some errs.ErrIncidentNotFound)
      none)
    (World.init () 0)
    { Latitude := Float64Ops.ofInt 10, Longitude := Float64Ops.ofInt 10, Radius := 100 }
    { ID := 1, Latitude := Float64Ops.ofInt 0, Longitude := Float64Ops.ofInt 0, Radius := 0 }
    1
  simpa [World.init, incident.mockService] using h

/-! ## Lemmas on the statements of `repos/incident` -/

/-- A statement that is not scheduled to fail starts without an error. -/
theorem DB.exec_quiet {F : Type} (n : Nat) (db : DB F) (hq : db.quiet (n + 1)) :
    db.exec = (none, { db with faults := db.faults.tail }) ∧
      DB.quiet n { db with faults := db.faults.tail } := by
  obtain ⟨incidents, id_seq, now, faults⟩ := db
  unfold DB.exec DB.quiet at *
  cases faults with
  | nil => simp
  | cons f rest =>
    have h0 : f = none := hq f (by simp)
    subst h0
    refine ⟨by simp, ?_⟩
    intro g hg
    exact hq g (by simp only [List.take_succ_cons]; exact List.mem_cons_of_mem _ hg)

/-- A statement starts without an error, or with a scheduled driver error. -/
theorem DB.exec_cases {F : Type} (db : DB F) :
    (db.exec = (none, { db with faults := db.faults.tail })) ∨
      ∃ text rest, db.faults = some text :: rest ∧
        db.exec = (some (Error.New text), { db with faults := rest }) := by
  obtain ⟨incidents, id_seq, now, faults⟩ := db
  unfold DB.exec
  cases faults with
  | nil => left; simp
  | cons f rest =>
    cases f with
    | none => left; simp
    | some text => right; exact ⟨text, rest, rfl, rfl⟩

theorem sql.deactivateIncident_quiet {F : Type} (n : Nat) (id : Int) (db : DB F)
    (hq : db.quiet (n + 1)) :
    sql.deactivateIncident id db =
      (Except.ok (db.incidents.countP (fun r => decide (r.id = id) && r.is_active)),
        { db with
          incidents := db.incidents.map (fun r =>
            if r.id = id ∧ r.is_active = true then
              { r with is_active := false, updated_at := db.now }
            else r)
          faults := db.faults.tail }) := by
  unfold sql.deactivateIncident
  rw [(DB.exec_quiet n db hq).1]

theorem sql.existsIncident_quiet {F : Type} (n : Nat) (id : Int) (db : DB F)
    (hq : db.quiet (n + 1)) :
    sql.existsIncident id db =
      (Except.ok (db.incidents.any (fun r => decide (r.id = id))),
        { db with faults := db.faults.tail }) := by
  unfold sql.existsIncident
  rw [(DB.exec_quiet n db hq).1]

/-- What `Deactivate` returns and does when its statements are not scheduled to fail. -/
theorem incident.Repo.Deactivate_quiet {F : Type} (n : Nat) (id : Int) (db : DB F)
    (hq : db.quiet (n + 2)) :
    incident.Repo.Deactivate id db =
      (if db.incidents.countP (fun r => decide (r.id = id) && r.is_active) = 0 then
        ((if db.incidents.any (fun r => decide (r.id = id)) then none
          else some errs.ErrIncidentNotFound),
          { db with
            incidents := db.incidents.map (fun r =>
              if r.id = id ∧ r.is_active = true then
                { r with is_active := false, updated_at := db.now }
              else r)
            faults := db.faults.tail.tail })
      else
        (none,
          { db with
            incidents := db.incidents.map (fun r =>
              if r.id = id ∧ r.is_active = true then
                { r with is_active := false, updated_at := db.now }
              else r)
            faults := db.faults.tail })) := by
  unfold incident.Repo.Deactivate
  rw [sql.deactivateIncident_quiet (n + 1) id db hq]
  have hq1 := (DB.exec_quiet (n + 1) db hq).2
  by_cases hc : db.incidents.countP (fun r => decide (r.id = id) && r.is_active) = 0
  · simp only [hc, if_true]
    have hq2 : DB.quiet (n + 1)
        { db with
          incidents := db.incidents.map (fun r =>
            if r.id = id ∧ r.is_active = true then
              { r with is_active := false, updated_at := db.now }
            else r)
          faults := db.faults.tail } := hq1
    rw [sql.existsIncident_quiet n id _ hq2]
    have hany : (db.incidents.map (fun r =>
            if r.id = id ∧ r.is_active = true then
              { r with is_active := false, updated_at := db.now }
            else r)).any (fun r => decide (r.id = id))
          = db.incidents.any (fun r => decide (r.id = id)) := by
      rw [List.any_map]
      congr 1
      funext r
      by_cases h : r.id = id ∧ r.is_active = true <;> simp [h]
    simp only [hany]
    cases db.incidents.any (fun r => decide (r.id = id)) <;> simp
  · simp only [hc, if_false]

/-- Deactivation leaves a table without an active row of the id as it is. -/
theorem IncidentRow.deactivate_map_id {F : Type} (id : Int) (now : Time)
    (rows : List (IncidentRow F)) (h : ∀ r ∈ rows, r.id = id → r.is_active = false) :
    rows.map (fun r =>
        if r.id = id ∧ r.is_active = true then { r with is_active := false, updated_at := now }
        else r) = rows := by
  induction rows with
  | nil => rfl
  | cons r rs ih =>
    have hr : ¬ (r.id = id ∧ r.is_active = true) := by
      intro ⟨h1, h2⟩
      have := h r (by simp) h1
      rw [this] at h2
      exact Bool.noConfusion h2
    rw [List.map_cons, if_neg hr, ih (fun x hx => h x (List.mem_cons_of_mem _ hx))]

/-- After the statement of `Deactivate` no row of the id is active. -/
theorem IncidentRow.deactivate_map_inactive {F : Type} (id : Int) (now : Time)
    (rows : List (IncidentRow F)) :
    ∀ r ∈ rows.map (fun r =>
        if r.id = id ∧ r.is_active = true then { r with is_active := false, updated_at := now }
        else r), r.id = id → r.is_active = false := by
  intro r hr hid
  rw [List.mem_map] at hr
  obtain ⟨r0, _, rfl⟩ := hr
  by_cases h : r0.id = id ∧ r0.is_active = true
  · simp [h]
  · rw [if_neg h] at hid ⊢
    cases hact : r0.is_active with
    | false => rfl
    | true => exact absurd ⟨hid, hact⟩ h

/-- Fewer statements are quiet when more are. -/
theorem DB.quiet_mono {F : Type} (n : Nat) (db : DB F) (hq : db.quiet (n + 1)) : db.quiet n := by
  intro f hf
  exact hq f ((List.take_subset_take_left db.faults (Nat.le_succ n)) hf)

/-- Some row has the id exactly when the probe of the id finds one. -/
theorem IncidentRow.any_id_iff {F : Type} (id : Int) (rows : List (IncidentRow F)) :
    rows.any (fun r => decide (r.id = id)) = true ↔ ∃ r ∈ rows, r.id = id := by
  simp [List.any_eq_true]

/-- After one quiet statement the following ones are as quiet as they were. -/
theorem DB.quiet_tail {F : Type} (n : Nat) (db db1 : DB F) (hq : db.quiet (n + 1))
    (hf : db1.faults = db.faults.tail) : db1.quiet n := by
  have h := (DB.exec_quiet n db hq).2
  intro f hmem
  rw [hf] at hmem
  exact h f hmem

/-- The error `Deactivate` returns when its statements are not scheduled to fail. -/
theorem incident.Repo.Deactivate_result_quiet {F : Type} (n : Nat) (id : Int) (db : DB F)
    (hq : db.quiet (n + 2)) :
    (incident.Repo.Deactivate id db).1 =
      (if db.incidents.any (fun r => decide (r.id = id)) then none
        else some errs.ErrIncidentNotFound) := by
  rw [incident.Repo.Deactivate_quiet n id db hq]
  by_cases hc : db.incidents.countP (fun r => decide (r.id = id) && r.is_active) = 0
  · simp only [hc, if_true]
  · simp only [hc, if_false]
    have hpos : 0 < db.incidents.countP (fun r => decide (r.id = id) && r.is_active) :=
      Nat.pos_of_ne_zero hc
    rw [List.countP_pos_iff] at hpos
    obtain ⟨r, hr, hp⟩ := hpos
    have hid : r.id = id := by
      simp at hp
      exact hp.1
    have : db.incidents.any (fun r => decide (r.id = id)) = true := by
      rw [List.any_eq_true]
      exact ⟨r, hr, by simp [hid]⟩
    simp [this]

/-- The table and the rest of the fault schedule `Deactivate` leaves when its statements are
not scheduled to fail. -/
theorem incident.Repo.Deactivate_state_quiet {F : Type} (n : Nat) (id : Int) (db : DB F)
    (hq : db.quiet (n + 2)) :
    (incident.Repo.Deactivate id db).2.incidents =
      db.incidents.map (fun r =>
        if r.id = id ∧ r.is_active = true then
          { r with is_active := false, updated_at := db.now }
        else r) ∧
    (incident.Repo.Deactivate id db).2.quiet n := by
  rw [incident.Repo.Deactivate_quiet n id db hq]
  have h1 : DB.quiet (n + 1) { db with faults := db.faults.tail } :=
    (DB.exec_quiet (n + 1) db hq).2
  split
  · exact ⟨rfl, DB.quiet_tail n { db with faults := db.faults.tail } _ h1 rfl⟩
  · exact ⟨rfl, DB.quiet_mono n _ (DB.quiet_tail (n + 1) db _ hq rfl)⟩

/-- C13: when its statements run without a database error, `IncidentRepo.Deactivate(id)`
returns `ErrIncidentNotFound` if and only if no incident has that id. For an id that exists it
returns nil, whether a row was active, which is then inactive, or all were inactive already,
in which case the table is left as it is; afterwards no row of the id is active, and a
second `Deactivate(id)` returns nil again. -/
theorem incident.Repo.Deactivate_not_found_iff {F : Type} (id : Int) (db : DB F)
    (hq : db.quiet 4) :
    ((incident.Repo.Deactivate id db).1 = some errs.ErrIncidentNotFound ↔
      ∀ r ∈ db.incidents, r.id ≠ id) ∧
    ((∃ r ∈ db.incidents, r.id = id) →
      (incident.Repo.Deactivate id db).1 = none ∧
      (∀ r ∈ (incident.Repo.Deactivate id db).2.incidents, r.id = id → r.is_active = false) ∧
      (incident.Repo.Deactivate id (incident.Repo.Deactivate id db).2).1 = none) ∧
    ((∀ r ∈ db.incidents, r.id = id → r.is_active = false) →
      (incident.Repo.Deactivate id db).2.incidents = db.incidents) ∧
    (incident.Repo.Deactivate id db).2.incidents =
      db.incidents.map (fun r =>
        if r.id = id ∧ r.is_active = true then
          { r with is_active := false, updated_at := db.now }
        else r) := by
  have hq2 : db.quiet (2 + 2) := hq
  have hres := incident.Repo.Deactivate_result_quiet 2 id db hq2
  obtain ⟨hinc, hq1⟩ := incident.Repo.Deactivate_state_quiet 2 id db hq2
  have hany := IncidentRow.any_id_iff (F := F) id
  refine ⟨?_, ?_, ?_, hinc⟩
  · rw [hres]
    constructor
    · intro h r hr hid
      have : db.incidents.any (fun r => decide (r.id = id)) = true := (hany _).mpr ⟨r, hr, hid⟩
      simp [this] at h
    · intro h
      have : db.incidents.any (fun r => decide (r.id = id)) = false := by
        rw [Bool.eq_false_iff]
        intro ht
        obtain ⟨r, hr, hid⟩ := (hany _).mp ht
        exact h r hr hid
      simp [this]
  · intro hex
    have ht : db.incidents.any (fun r => decide (r.id = id)) = true := (hany _).mpr hex
    refine ⟨by rw [hres]; simp [ht], ?_, ?_⟩
    · rw [hinc]
      exact IncidentRow.deactivate_map_inactive id db.now db.incidents
    · have hq1' : (incident.Repo.Deactivate id db).2.quiet (0 + 2) := hq1
      rw [incident.Repo.Deactivate_result_quiet 0 id _ hq1']
      have ht2 : (incident.Repo.Deactivate id db).2.incidents.any
          (fun r => decide (r.id = id)) = true := by
        rw [hany, hinc]
        obtain ⟨r, hr, hid⟩ := hex
        refine ⟨_, List.mem_map_of_mem _ hr, ?_⟩
        by_cases h : r.id = id ∧ r.is_active = true
        · rw [if_pos h]
          exact h.1
        · rw [if_neg h]
          exact hid
      simp [ht2]
  · intro h
    rw [hinc]
    exact IncidentRow.deactivate_map_id id db.now db.incidents h

/-- The statement of `Update` returns `pgx.ErrNoRows` only when it ran and matched no row;
the table is then as it was. -/
theorem sql.updateIncident_no_row {F : Type} [Float64Ops F] [PostGIS F] (a1 a2 : F)
    (a3 a4 : Int) (db db1 : DB F)
    (hno : sql.updateIncident a1 a2 a3 a4 db = (Except.error pgx.ErrNoRows, db1)) :
    db1 = { db with faults := db.faults.tail } := by
  unfold sql.updateIncident at hno
  rcases DB.exec_cases db with h | ⟨text, rest, _, h⟩
  · rw [h] at hno
    simp only at hno
    split at hno
    · exact (Prod.mk.inj hno).2.symm
    · split at hno
      · exact (Prod.mk.inj hno).2.symm
      · exact absurd (Prod.mk.inj hno).1 (by simp)
  · rw [h] at hno
    simp only at hno
    have := (Prod.mk.inj hno).1
    simp [pgx.ErrNoRows] at this

/-- The probe returns what the table holds, or a driver error. -/
theorem sql.existsIncident_cases {F : Type} (id : Int) (db : DB F) :
    (sql.existsIncident id db =
      (Except.ok (db.incidents.any (fun r => decide (r.id = id))),
        { db with faults := db.faults.tail })) ∨
    ∃ text rest, db.faults = some text :: rest ∧
      sql.existsIncident id db = (Except.error (Error.New text), { db with faults := rest }) := by
  unfold sql.existsIncident
  rcases DB.exec_cases db with h | ⟨text, rest, hf, h⟩
  · left
    rw [h]
  · right
    exact ⟨text, rest, hf, by rw [h]⟩

/-- C14: when the statement of `IncidentRepo.Update` matches no row, `Update` returns
`ErrIncidentNotFound` if the existence probe reports the id absent and `ErrIncidentExists` if
it reports the id present; a failure of the probe is returned wrapped and is neither of the
two, also for `errors.Is`. `ErrIncidentExists` is returned only for an id the table holds
and `ErrIncidentNotFound` only for an id it does not hold. -/
theorem incident.Repo.Update_no_row_outcomes {F : Type} [Float64Ops F] [PostGIS F]
    (params : models.UpdateIncidentParams F) (db db1 : DB F)
    (hno : sql.updateIncident params.Longitude params.Latitude params.Radius params.ID db
      = (Except.error pgx.ErrNoRows, db1)) :
    (∀ db2, sql.existsIncident params.ID db1 = (Except.ok false, db2) →
      incident.Repo.Update params db = ((none, some errs.ErrIncidentNotFound), db2)) ∧
    (∀ db2, sql.existsIncident params.ID db1 = (Except.ok true, db2) →
      incident.Repo.Update params db = ((none, some errs.ErrIncidentExists), db2)) ∧
    (∀ checkErr db2, sql.existsIncident params.ID db1 = (Except.error checkErr, db2) →
      incident.Repo.Update params db
        = ((none, some (Error.Wrap "failed to check incident existence" checkErr)), db2) ∧
      Error.Is (Error.Wrap "failed to check incident existence" checkErr)
        errs.ErrIncidentNotFound = false ∧
      Error.Is (Error.Wrap "failed to check incident existence" checkErr)
        errs.ErrIncidentExists = false) ∧
    ((incident.Repo.Update params db).1.2 = some errs.ErrIncidentExists →
      ∃ r ∈ db.incidents, r.id = params.ID) ∧
    ((incident.Repo.Update params db).1.2 = some errs.ErrIncidentNotFound →
      ∀ r ∈ db.incidents, r.id ≠ params.ID) := by
  have hdb1 := sql.updateIncident_no_row _ _ _ _ db db1 hno
  have hU : ∀ out, sql.existsIncident params.ID db1 = out →
      incident.Repo.Update params db =
        (match out with
          | (Except.error checkErr, db) =>
            ((none, some (Error.Wrap "failed to check incident existence" checkErr)), db)
          | (Except.ok existsRow, db) =>
            if !existsRow then ((none, some errs.ErrIncidentNotFound), db)
            else ((none, some errs.ErrIncidentExists), db)) := by
    intro out hout
    unfold incident.Repo.Update
    rw [hno]
    simp only
    rw [if_pos (by decide), hout]
  refine ⟨?_, ?_, ?_, ?_, ?_⟩
  · intro db2 h
    rw [hU _ h]
    rfl
  · intro db2 h
    rw [hU _ h]
    rfl
  · intro checkErr db2 h
    refine ⟨by rw [hU _ h], ?_⟩
    rcases sql.existsIncident_cases params.ID db1 with hc | ⟨text, rest, _, hc⟩
    · rw [hc] at h
      exact absurd (Prod.mk.inj h).1 (by simp)
    · rw [hc] at h
      have : checkErr = Error.New text := by
        have := (Prod.mk.inj h).1
        simpa using this.symm
      subst this
      simp [Error.Is, errs.ErrIncidentNotFound, errs.ErrIncidentExists]
  · intro h
    rcases sql.existsIncident_cases params.ID db1 with hc | ⟨text, rest, _, hc⟩
    · rw [hU _ hc] at h
      rw [hdb1] at h
      simp only at h
      rw [← IncidentRow.any_id_iff]
      cases hany : db.incidents.any (fun r => decide (r.id = params.ID)) with
      | true => rfl
      | false =>
        rw [hany] at h
        simp [errs.ErrIncidentNotFound, errs.ErrIncidentExists] at h
    · rw [hU _ hc] at h
      simp [errs.ErrIncidentExists] at h
  · intro h r hr hid
    rcases sql.existsIncident_cases params.ID db1 with hc | ⟨text, rest, _, hc⟩
    · rw [hU _ hc] at h
      rw [hdb1] at h
      simp only at h
      have hany : db.incidents.any (fun r => decide (r.id = params.ID)) = true :=
        (IncidentRow.any_id_iff _ _).mpr ⟨r, hr, hid⟩
      rw [hany] at h
      simp [errs.ErrIncidentNotFound, errs.ErrIncidentExists] at h
    · rw [hU _ hc] at h
      simp [errs.ErrIncidentNotFound] at h

/-- What `Create` returns and does, by the start of its statement and by whether a stored
incident is within the distance `1.0` of the new centre. -/
theorem incident.Repo.Create_cases {F : Type} [Float64Ops F] [PostGIS F]
    (params : models.CreateIncidentParams F) (db : DB F) :
    (∃ text rest, db.faults = some text :: rest ∧
      incident.Repo.Create params db =
        ((none, some (Error.Wrap "failed to create incident" (Error.New text))),
          { db with faults := rest })) ∨
    (db.exec = (none, { db with faults := db.faults.tail }) ∧
      (∃ r ∈ db.incidents, PostGIS.ST_DWithin r.location
        (postgis.ST_MakePoint params.Longitude params.Latitude) (Float64Ops.ofInt 1) = true) ∧
      incident.Repo.Create params db =
        ((none, some errs.ErrIncidentExists), { db with faults := db.faults.tail })) ∨
    (db.exec = (none, { db with faults := db.faults.tail }) ∧
      (∀ r ∈ db.incidents, PostGIS.ST_DWithin r.location
        (postgis.ST_MakePoint params.Longitude params.Latitude) (Float64Ops.ofInt 1) = false) ∧
      incident.Repo.Create params db =
        ((some
            { ID := db.id_seq
              Latitude := params.Latitude
              Longitude := params.Longitude
              Radius := params.Radius
              IsActive := true
              CreatedAt := db.now
              UpdatedAt := db.now }, none),
          { db with
            incidents := db.incidents ++
              [{ id := db.id_seq
                 location := postgis.ST_MakePoint params.Longitude params.Latitude
                 radius_meters := params.Radius
                 is_active := true
                 created_at := db.now
                 updated_at := db.now }]
            id_seq := db.id_seq + 1
            faults := db.faults.tail })) := by
  unfold incident.Repo.Create sql.insertIncident
  rcases DB.exec_cases db with h | ⟨text, rest, hf, h⟩
  · right
    rw [h]
    simp only
    by_cases hany : db.incidents.any (fun r => PostGIS.ST_DWithin r.location
        (postgis.ST_MakePoint params.Longitude params.Latitude) (Float64Ops.ofInt 1)) = true
    · left
      refine ⟨trivial, ?_, ?_⟩
      · rw [List.any_eq_true] at hany
        exact hany
      · rw [if_pos hany]
        simp only
        rw [if_pos (by decide)]
    · right
      refine ⟨trivial, ?_, ?_⟩
      · intro r hr
        rw [List.any_eq_true] at hany
        cases hw : PostGIS.ST_DWithin r.location
            (postgis.ST_MakePoint params.Longitude params.Latitude) (Float64Ops.ofInt 1) with
        | false => rfl
        | true => exact absurd ⟨r, hr, hw⟩ hany
      · rw [if_neg hany]
        rfl
  · left
    refine ⟨text, rest, hf, ?_⟩
    rw [h]
    simp only
    rw [if_neg (by simp [Error.Is, pgx.ErrNoRows])]

/-- C15: `IncidentRepo.Create` returns `ErrIncidentExists` only when some stored incident,
active or not, is within the distance `1.0` of the new centre, and then nothing is inserted.
When the statement runs without a database error, it returns `ErrIncidentExists` whenever
there is such an incident, and otherwise appends one row and returns it: the next id of the
sequence, the requested latitude, longitude and radius, and `IsActive = true`. A database
error is returned wrapped, and nothing is inserted. -/
theorem incident.Repo.Create_exists_iff {F : Type} [Float64Ops F] [PostGIS F]
    (params : models.CreateIncidentParams F) (db : DB F) :
    ((incident.Repo.Create params db).1.2 = some errs.ErrIncidentExists →
      (∃ r ∈ db.incidents, PostGIS.ST_DWithin r.location
        (postgis.ST_MakePoint params.Longitude params.Latitude) (Float64Ops.ofInt 1) = true) ∧
      (incident.Repo.Create params db).1.1 = none ∧
      (incident.Repo.Create params db).2.incidents = db.incidents) ∧
    (db.quiet 1 →
      ((∃ r ∈ db.incidents, PostGIS.ST_DWithin r.location
          (postgis.ST_MakePoint params.Longitude params.Latitude) (Float64Ops.ofInt 1) = true) →
        (incident.Repo.Create params db).1 = (none, some errs.ErrIncidentExists) ∧
        (incident.Repo.Create params db).2.incidents = db.incidents) ∧
      ((∀ r ∈ db.incidents, PostGIS.ST_DWithin r.location
          (postgis.ST_MakePoint params.Longitude params.Latitude) (Float64Ops.ofInt 1) = false) →
        (incident.Repo.Create params db).1 =
          (some
            { ID := db.id_seq
              Latitude := params.Latitude
              Longitude := params.Longitude
              Radius := params.Radius
              IsActive := true
              CreatedAt := db.now
              UpdatedAt := db.now }, none) ∧
        (incident.Repo.Create params db).2.incidents =
          db.incidents ++
            [{ id := db.id_seq
               location := postgis.ST_MakePoint params.Longitude params.Latitude
               radius_meters := params.Radius
               is_active := true
               created_at := db.now
               updated_at := db.now }])) ∧
    (∀ text rest, db.faults = some text :: rest →
      (incident.Repo.Create params db).1 =
        (none, some (Error.Wrap "failed to create incident" (Error.New text))) ∧
      (incident.Repo.Create params db).2.incidents = db.incidents) := by
  rcases incident.Repo.Create_cases params db with
    ⟨text, rest, hf, h⟩ | ⟨hexec, hnear, h⟩ | ⟨hexec, hfar, h⟩
  · refine ⟨?_, ?_, ?_⟩
    · intro hE
      rw [h] at hE
      simp [errs.ErrIncidentExists] at hE
    · intro hq
      have := hq (some text) (by rw [hf]; simp)
      exact Option.noConfusion this
    · intro text2 rest2 hf2
      rw [hf] at hf2
      obtain ⟨ht, -⟩ := List.cons.inj hf2
      have ht2 : text = text2 := Option.some.inj ht
      subst ht2
      rw [h]
      exact ⟨rfl, rfl⟩
  · refine ⟨?_, ?_, ?_⟩
    · intro _
      rw [h]
      exact ⟨hnear, rfl, rfl⟩
    · intro _
      refine ⟨fun _ => by rw [h]; exact ⟨rfl, rfl⟩, ?_⟩
      intro hfar
      obtain ⟨r, hr, hw⟩ := hnear
      rw [hfar r hr] at hw
      exact Bool.noConfusion hw
    · intro text rest hf
      unfold DB.exec at hexec
      rw [hf] at hexec
      simp at hexec
  · refine ⟨?_, ?_, ?_⟩
    · intro hE
      rw [h] at hE
      simp at hE
    · intro _
      refine ⟨?_, fun _ => by rw [h]; exact ⟨rfl, rfl⟩⟩
      intro hnear
      obtain ⟨r, hr, hw⟩ := hnear
      rw [hfar r hr] at hw
      exact Bool.noConfusion hw
    · intro text rest hf
      unfold DB.exec at hexec
      rw [hf] at hexec
      simp at hexec

/-- What `Update` does to the table: nothing, or the update of the rows of the id, no row of
another id being within the distance `1.0` of the new centre. -/
theorem incident.Repo.Update_state_cases {F : Type} [Float64Ops F] [PostGIS F]
    (params : models.UpdateIncidentParams F) (db : DB F) :
    (incident.Repo.Update params db).2.id_seq = db.id_seq ∧
    ((incident.Repo.Update params db).2.incidents = db.incidents ∨
      ((∀ r ∈ db.incidents, r.id ≠ params.ID → PostGIS.ST_DWithin r.location
          (postgis.ST_MakePoint params.Longitude params.Latitude) (Float64Ops.ofInt 1) = false) ∧
        (incident.Repo.Update params db).2.incidents =
          db.incidents.map (fun r =>
            if r.id = params.ID then
              { r with
                location := postgis.ST_MakePoint params.Longitude params.Latitude
                radius_meters := params.Radius
                updated_at := db.now }
            else r))) := by
  unfold incident.Repo.Update sql.updateIncident
  rcases DB.exec_cases db with h | ⟨text, rest, hf, h⟩
  · rw [h]
    simp only
    by_cases hany : db.incidents.any (fun r =>
        decide (r.id ≠ params.ID) && PostGIS.ST_DWithin r.location
          (postgis.ST_MakePoint params.Longitude params.Latitude) (Float64Ops.ofInt 1)) = true
    · rw [if_pos hany]
      simp only
      rw [if_pos (by decide)]
      rcases sql.existsIncident_cases params.ID { db with faults := db.faults.tail } with
        hc | ⟨t, r, _, hc⟩
      · rw [hc]
        simp only
        split <;> exact ⟨rfl, Or.inl rfl⟩
      · rw [hc]
        exact ⟨rfl, Or.inl rfl⟩
    · rw [if_neg hany]
      cases hfind : db.incidents.find? (fun r => decide (r.id = params.ID)) with
      | none =>
        simp only
        rw [if_pos (by decide)]
        rcases sql.existsIncident_cases params.ID { db with faults := db.faults.tail } with
          hc | ⟨t, r, _, hc⟩
        · rw [hc]
          simp only
          split <;> exact ⟨rfl, Or.inl rfl⟩
        · rw [hc]
          exact ⟨rfl, Or.inl rfl⟩
      | some row =>
        refine ⟨rfl, Or.inr ⟨?_, rfl⟩⟩
        intro r hr hid
        cases hw : PostGIS.ST_DWithin r.location
            (postgis.ST_MakePoint params.Longitude params.Latitude) (Float64Ops.ofInt 1) with
        | false => rfl
        | true =>
          exfalso
          apply hany
          rw [List.any_eq_true]
          exact ⟨r, hr, by simp [hid, hw]⟩
  · rw [h]
    simp only
    rw [if_neg (by simp [Error.Is, pgx.ErrNoRows])]
    exact ⟨rfl, Or.inl rfl⟩

/-- What `Deactivate` does to the table: nothing, or the deactivation of the rows of the
id. -/
theorem incident.Repo.Deactivate_state_cases {F : Type} (id : Int) (db : DB F) :
    (incident.Repo.Deactivate id db).2.id_seq = db.id_seq ∧
    ((incident.Repo.Deactivate id db).2.incidents = db.incidents ∨
      (incident.Repo.Deactivate id db).2.incidents =
        db.incidents.map (fun r =>
          if r.id = id ∧ r.is_active = true then
            { r with is_active := false, updated_at := db.now }
          else r)) := by
  unfold incident.Repo.Deactivate sql.deactivateIncident
  rcases DB.exec_cases db with h | ⟨text, rest, hf, h⟩
  · rw [h]
    simp only
    split
    · rcases sql.existsIncident_cases id
          { db with
            incidents := db.incidents.map (fun r =>
              if r.id = id ∧ r.is_active = true then
                { r with is_active := false, updated_at := db.now }
              else r)
            faults := db.faults.tail } with hc | ⟨t, r, _, hc⟩
      · rw [hc]
        simp only
        split <;> exact ⟨rfl, Or.inr rfl⟩
      · rw [hc]
        exact ⟨rfl, Or.inr rfl⟩
    · exact ⟨rfl, Or.inr rfl⟩
  · rw [h]
    exact ⟨rfl, Or.inl rfl⟩

/-- What `Create` does to the table: nothing, or the insertion of one row with the next id,
no stored row being within the distance `1.0` of its centre. -/
theorem incident.Repo.Create_state_cases {F : Type} [Float64Ops F] [PostGIS F]
    (params : models.CreateIncidentParams F) (db : DB F) :
    ((incident.Repo.Create params db).2.incidents = db.incidents ∧
      (incident.Repo.Create params db).2.id_seq = db.id_seq) ∨
    ((∀ r ∈ db.incidents, PostGIS.ST_DWithin r.location
        (postgis.ST_MakePoint params.Longitude params.Latitude) (Float64Ops.ofInt 1) = false) ∧
      (incident.Repo.Create params db).2.id_seq = db.id_seq + 1 ∧
      (incident.Repo.Create params db).2.incidents =
        db.incidents ++
          [{ id := db.id_seq
             location := postgis.ST_MakePoint params.Longitude params.Latitude
             radius_meters := params.Radius
             is_active := true
             created_at := db.now
             updated_at := db.now }]) := by
  rcases incident.Repo.Create_cases params db with
    ⟨text, rest, hf, h⟩ | ⟨hexec, hnear, h⟩ | ⟨hexec, hfar, h⟩
  · left; rw [h]; exact ⟨rfl, rfl⟩
  · left; rw [h]; exact ⟨rfl, rfl⟩
  · right; rw [h]; exact ⟨hfar, rfl, rfl⟩

/-- The update of a row keeps its id. -/
theorem IncidentRow.map_update_ids {F : Type} (id : Int) (p : postgis.Point F) (radius : Int)
    (now : Time) (rows : List (IncidentRow F)) :
    (rows.map (fun r =>
        if r.id = id then { r with location := p, radius_meters := radius, updated_at := now }
        else r)).map (fun r => r.id) = rows.map (fun r => r.id) := by
  rw [List.map_map]
  apply List.map_congr_left
  intro r _
  by_cases h : r.id = id <;> simp [h]

/-- The deactivation of a row keeps its id. -/
theorem IncidentRow.map_deactivate_ids {F : Type} (id : Int) (now : Time)
    (rows : List (IncidentRow F)) :
    (rows.map (fun r =>
        if r.id = id ∧ r.is_active = true then { r with is_active := false, updated_at := now }
        else r)).map (fun r => r.id) = rows.map (fun r => r.id) := by
  rw [List.map_map]
  apply List.map_congr_left
  intro r _
  by_cases h : r.id = id ∧ r.is_active = true <;> simp [h]

/-- Ids that are unique and below the sequence stay so when the list of ids is kept. -/
theorem DB.UniqueIDs_of_ids {F : Type} (db db1 : DB F) (h : db.UniqueIDs)
    (hids : db1.incidents.map (fun r => r.id) = db.incidents.map (fun r => r.id))
    (hseq : db1.id_seq = db.id_seq) : db1.UniqueIDs := by
  unfold DB.UniqueIDs at *
  rw [hids, hseq]
  refine ⟨h.1, ?_⟩
  intro r hr
  have hmem : r.id ∈ db1.incidents.map (fun r => r.id) := List.mem_map_of_mem _ hr
  rw [hids, List.mem_map] at hmem
  obtain ⟨r0, hr0, hid⟩ := hmem
  rw [← hid]
  exact h.2 r0 hr0

/-- With unique ids, the first row of an id is the row of that id. -/
theorem IncidentRow.find_of_nodup {F : Type} (rows : List (IncidentRow F))
    (hnd : (rows.map (fun r => r.id)).Nodup) (r : IncidentRow F) (hr : r ∈ rows) :
    rows.find? (fun x => decide (x.id = r.id)) = some r := by
  induction rows with
  | nil => cases hr
  | cons x xs ih =>
    rw [List.map_cons, List.nodup_cons] at hnd
    rcases List.mem_cons.mp hr with rfl | hmem
    · simp
    · have hne : x.id ≠ r.id := by
        intro h
        apply hnd.1
        rw [h]
        exact List.mem_map_of_mem _ hmem
      rw [List.find?_cons_of_neg _ (by simp [hne])]
      exact ih hnd.2 hmem

/-- Separation after the insertion of a row that no stored row is within `1.0` of. -/
theorem DB.Separated_append {F : Type} [Float64Ops F] [PostGIS F]
    (hsymm : ∀ (a b : postgis.Point F) (d : F),
      PostGIS.ST_DWithin a b d = PostGIS.ST_DWithin b a d)
    (db db1 : DB F) (row : IncidentRow F) (hsep : db.Separated)
    (hfar : ∀ r ∈ db.incidents,
      PostGIS.ST_DWithin r.location row.location (Float64Ops.ofInt 1) = false)
    (hinc : db1.incidents = db.incidents ++ [row]) : db1.Separated := by
  unfold DB.Separated at *
  rw [hinc]
  intro a ha b hb hab
  rw [List.mem_append, List.mem_singleton] at ha hb
  rcases ha with ha | rfl <;> rcases hb with hb | rfl
  · exact hsep a ha b hb hab
  · exact hfar a ha
  · rw [hsymm]
    exact hfar b hb
  · exact absurd rfl hab

/-- Separation after the update of the rows of an id to a centre that no row of another id is
within `1.0` of. -/
theorem DB.Separated_update {F : Type} [Float64Ops F] [PostGIS F]
    (hsymm : ∀ (a b : postgis.Point F) (d : F),
      PostGIS.ST_DWithin a b d = PostGIS.ST_DWithin b a d)
    (db db1 : DB F) (id : Int) (p : postgis.Point F) (radius : Int) (now : Time)
    (hsep : db.Separated)
    (hfar : ∀ r ∈ db.incidents, r.id ≠ id →
      PostGIS.ST_DWithin r.location p (Float64Ops.ofInt 1) = false)
    (hinc : db1.incidents = db.incidents.map (fun r =>
      if r.id = id then { r with location := p, radius_meters := radius, updated_at := now }
      else r)) : db1.Separated := by
  unfold DB.Separated at *
  rw [hinc]
  intro a ha b hb hab
  rw [List.mem_map] at ha hb
  obtain ⟨a0, ha0, rfl⟩ := ha
  obtain ⟨b0, hb0, rfl⟩ := hb
  by_cases hA : a0.id = id <;> by_cases hB : b0.id = id
  · exfalso
    apply hab
    simp [hA, hB]
  · simp only [hA, hB, if_true, if_false]
    rw [hsymm]
    exact hfar b0 hb0 hB
  · simp only [hA, hB, if_true, if_false]
    exact hfar a0 ha0 hA
  · simp only [hA, hB, if_false] at hab ⊢
    exact hsep a0 ha0 b0 hb0 hab

/-- Separation after the deactivation of the rows of an id. -/
theorem DB.Separated_deactivate {F : Type} [Float64Ops F] [PostGIS F]
    (db db1 : DB F) (id : Int) (now : Time) (hsep : db.Separated)
    (hinc : db1.incidents = db.incidents.map (fun r =>
      if r.id = id ∧ r.is_active = true then { r with is_active := false, updated_at := now }
      else r)) : db1.Separated := by
  unfold DB.Separated at *
  rw [hinc]
  intro a ha b hb hab
  rw [List.mem_map] at ha hb
  obtain ⟨a0, ha0, rfl⟩ := ha
  obtain ⟨b0, hb0, rfl⟩ := hb
  have hid : ∀ r : IncidentRow F,
      (if r.id = id ∧ r.is_active = true then
        { r with is_active := false, updated_at := now } else r).id = r.id ∧
      (if r.id = id ∧ r.is_active = true then
        { r with is_active := false, updated_at := now } else r).location = r.location := by
    intro r
    by_cases h : r.id = id ∧ r.is_active = true <;> simp [h]
  rw [(hid a0).1, (hid b0).1] at hab
  rw [(hid a0).2, (hid b0).2]
  exact hsep a0 ha0 b0 hb0 hab

/-- Separation depends on the table only. -/
theorem DB.Separated_of_incidents {F : Type} [Float64Ops F] [PostGIS F] (db db1 : DB F)
    (hsep : db.Separated) (hinc : db1.incidents = db.incidents) : db1.Separated := by
  unfold DB.Separated at *
  rw [hinc]
  exact hsep

/-- Unique ids after the insertion of a row with the next id of the sequence. -/
theorem DB.UniqueIDs_append {F : Type} (db db1 : DB F) (row : IncidentRow F)
    (h : db.UniqueIDs) (hid : row.id = db.id_seq) (hseq : db1.id_seq = db.id_seq + 1)
    (hinc : db1.incidents = db.incidents ++ [row]) : db1.UniqueIDs := by
  unfold DB.UniqueIDs at *
  rw [hinc, hseq]
  constructor
  · rw [List.map_append, List.nodup_append]
    refine ⟨h.1, by simp, ?_⟩
    intro x hx hx2
    rw [List.mem_map] at hx
    obtain ⟨r, hr, rfl⟩ := hx
    simp only [List.map_cons, List.map_nil, List.mem_singleton] at hx2
    have := h.2 r hr
    omega
  · intro r hr
    rw [List.mem_append, List.mem_singleton] at hr
    rcases hr with hr | rfl
    · have := h.2 r hr
      omega
    · omega

/-- C16: with `ST_DWithin` symmetric in its two points, the separation invariant, that no two
stored incidents of different ids have centres within the distance `1.0` of each other, holds
after every `Create`, `Update` and `Deactivate` of `IncidentRepo` if it held before, whether the
call succeeds or fails; so does the uniqueness of the ids. An `Update` that keeps an incident
at its own centre and changes the radius is not blocked: when the statement runs without a
database error it returns the incident with the new radius. -/
theorem incident.Repo.separation_preserved {F : Type} [Float64Ops F] [PostGIS F]
    (hsymm : ∀ (a b : postgis.Point F) (d : F),
      PostGIS.ST_DWithin a b d = PostGIS.ST_DWithin b a d)
    (db : DB F) (huniq : db.UniqueIDs) (hsep : db.Separated) :
    (∀ params : models.CreateIncidentParams F,
      (incident.Repo.Create params db).2.Separated ∧
        (incident.Repo.Create params db).2.UniqueIDs) ∧
    (∀ params : models.UpdateIncidentParams F,
      (incident.Repo.Update params db).2.Separated ∧
        (incident.Repo.Update params db).2.UniqueIDs) ∧
    (∀ id : Int,
      (incident.Repo.Deactivate id db).2.Separated ∧
        (incident.Repo.Deactivate id db).2.UniqueIDs) ∧
    (∀ r ∈ db.incidents, ∀ radius : Int, db.quiet 1 →
      (incident.Repo.Update
          { ID := r.id, Latitude := r.location.y, Longitude := r.location.x, Radius := radius }
          db).1 =
        (some
          { ID := r.id
            Latitude := r.location.y
            Longitude := r.location.x
            Radius := radius
            IsActive := r.is_active
            CreatedAt := r.created_at
            UpdatedAt := db.now }, none)) := by
  refine ⟨?_, ?_, ?_, ?_⟩
  · intro params
    rcases incident.Repo.Create_state_cases params db with ⟨hinc, hseq⟩ | ⟨hfar, hseq, hinc⟩
    · exact ⟨DB.Separated_of_incidents db _ hsep hinc,
        DB.UniqueIDs_of_ids db _ huniq (by rw [hinc]) hseq⟩
    · exact ⟨DB.Separated_append hsymm db _ _ hsep hfar hinc,
        DB.UniqueIDs_append db _ _ huniq rfl hseq hinc⟩
  · intro params
    obtain ⟨hseq, hinc | ⟨hfar, hinc⟩⟩ := incident.Repo.Update_state_cases params db
    · exact ⟨DB.Separated_of_incidents db _ hsep hinc,
        DB.UniqueIDs_of_ids db _ huniq (by rw [hinc]) hseq⟩
    · exact ⟨DB.Separated_update hsymm db _ params.ID _ params.Radius db.now hsep hfar hinc,
        DB.UniqueIDs_of_ids db _ huniq
          (by rw [hinc]; exact IncidentRow.map_update_ids _ _ _ _ _) hseq⟩
  · intro id
    obtain ⟨hseq, hinc | hinc⟩ := incident.Repo.Deactivate_state_cases id db
    · exact ⟨DB.Separated_of_incidents db _ hsep hinc,
        DB.UniqueIDs_of_ids db _ huniq (by rw [hinc]) hseq⟩
    · exact ⟨DB.Separated_deactivate db _ id db.now hsep hinc,
        DB.UniqueIDs_of_ids db _ huniq
          (by rw [hinc]; exact IncidentRow.map_deactivate_ids _ _ _) hseq⟩
  · intro r hr radius hq
    have hpoint : postgis.ST_MakePoint r.location.x r.location.y = r.location := rfl
    have hfree : db.incidents.any (fun x =>
        decide (x.id ≠ r.id) &&
          PostGIS.ST_DWithin x.location (postgis.ST_MakePoint r.location.x r.location.y)
            (Float64Ops.ofInt 1)) = false := by
      rw [Bool.eq_false_iff]
      intro h
      rw [List.any_eq_true] at h
      obtain ⟨x, hx, hp⟩ := h
      simp only [Bool.and_eq_true, decide_eq_true_eq] at hp
      rw [hpoint, hsep x hx r hr hp.1] at hp
      exact Bool.noConfusion hp.2
    unfold incident.Repo.Update sql.updateIncident
    rw [(DB.exec_quiet 0 db hq).1]
    simp only [hfree]
    rw [IncidentRow.find_of_nodup db.incidents huniq.1 r hr]
    rfl

/-! ## `transactor.Manager` -/

/-- A context carries a transaction exactly when its value under `txKey` is a `pgx.Tx`. -/
theorem transactor.extractTx_eq_none (ctx : context.Context)
    (h : transactor.extractTx ctx = none) (tx : pgx.Tx) :
    ctx.Value context.Key.txKey ≠ some (context.Val.tx tx) := by
  intro hv
  unfold transactor.extractTx at h
  rw [hv] at h
  exact Option.noConfusion h

/-- What `Run` does on a context that carries no transaction. -/
theorem transactor.Run_of_no_tx {σ : Type} (m : transactor.Manager σ) (ctx : context.Context)
    (fn : context.Context → transactor.World σ → Option Error × transactor.World σ)
    (w : transactor.World σ) (hctx : transactor.extractTx ctx = none) :
    transactor.Run m ctx fn w =
      (match w.invoke transactor.Call.Begin m.Begin with
        | ((_, some err), w) => (some (Error.Wrap "failed to begin transaction" err), w)
        | ((tx, none), w) =>
          match fn (transactor.injectTx ctx tx) w with
          | (some err, w) => (some err, transactor.deferredRollback m tx w)
          | (none, w) =>
            match w.invoke (transactor.Call.Commit tx) (m.Commit tx) with
            | (some err, w) =>
              (some (Error.Wrap "failed to commit transaction" err),
                transactor.deferredRollback m tx w)
            | (none, w) => (none, transactor.deferredRollback m tx w)) := by
  unfold transactor.Run
  have hv := transactor.extractTx_eq_none ctx hctx
  cases hval : ctx.Value context.Key.txKey with
  | none => rfl
  | some v =>
    cases v with
    | tx t => exact absurd hval (hv t)
    | other s => rfl

/-- What `Run` does on a context that carries a transaction. -/
theorem transactor.Run_of_tx {σ : Type} (m : transactor.Manager σ) (ctx : context.Context)
    (fn : context.Context → transactor.World σ → Option Error × transactor.World σ)
    (w : transactor.World σ) (tx : pgx.Tx) (hctx : transactor.extractTx ctx = some tx) :
    transactor.Run m ctx fn w = fn ctx w := by
  unfold transactor.Run
  unfold transactor.extractTx at hctx
  cases hval : ctx.Value context.Key.txKey with
  | none =>
    rw [hval] at hctx
    exact Option.noConfusion hctx
  | some v =>
    cases v with
    | tx t => rfl
    | other s =>
      rw [hval] at hctx
      exact Option.noConfusion hctx

/-- The function `extractTx` undoes `injectTx`. -/
theorem transactor.extractTx_injectTx (ctx : context.Context) (tx : pgx.Tx) :
    transactor.extractTx (transactor.injectTx ctx tx) = some tx := by
  simp [transactor.extractTx, transactor.injectTx, context.WithValue, context.Context.Value]

/-- A value added under another key does not change the transaction a context carries. -/
theorem transactor.extractTx_WithValue_other (ctx : context.Context) (name : String)
    (val : context.Val) :
    transactor.extractTx (context.WithValue ctx (context.Key.other name) val)
      = transactor.extractTx ctx := by
  simp [transactor.extractTx, context.WithValue, context.Context.Value]

/-- C17: on a context that carries no transaction, `Run` first calls `Begin`. If `Begin`
fails, `Run` returns the wrapped error and the unit of work is not run. If `Begin` succeeds
with `tx`, the unit of work is run on `injectTx(ctx, tx)`; when it returns an error `e`, `Run`
returns `e` itself and calls `Rollback` without calling `Commit`; when it returns nil, `Run`
calls `Commit` and returns nil if the commit succeeds and the wrapped error if it fails (the
deferred `Rollback` follows in both cases). -/
theorem transactor.Run_without_transaction {σ : Type} (m : transactor.Manager σ)
    (ctx : context.Context)
    (fn : context.Context → transactor.World σ → Option Error × transactor.World σ)
    (w : transactor.World σ) (hctx : transactor.extractTx ctx = none) :
    (∀ tx err b, m.Begin w.backend = ((tx, some err), b) →
      transactor.Run m ctx fn w =
        (some (Error.Wrap "failed to begin transaction" err),
          { backend := b, calls := w.calls ++ [transactor.Call.Begin] })) ∧
    (∀ tx b, m.Begin w.backend = ((tx, none), b) →
      (∀ e w2,
        fn (transactor.injectTx ctx tx)
            { backend := b, calls := w.calls ++ [transactor.Call.Begin] } = (some e, w2) →
        transactor.Run m ctx fn w =
          (some e,
            { backend := (m.Rollback tx w2.backend).2
              calls := w2.calls ++ [transactor.Call.Rollback tx] })) ∧
      (∀ w2,
        fn (transactor.injectTx ctx tx)
            { backend := b, calls := w.calls ++ [transactor.Call.Begin] } = (none, w2) →
        (transactor.Run m ctx fn w).1 =
          (m.Commit tx w2.backend).1.map (Error.Wrap "failed to commit transaction") ∧
        (transactor.Run m ctx fn w).2 =
          { backend := (m.Rollback tx (m.Commit tx w2.backend).2).2
            calls := w2.calls ++ [transactor.Call.Commit tx, transactor.Call.Rollback tx] })) := by
  rw [transactor.Run_of_no_tx m ctx fn w hctx]
  refine ⟨?_, ?_⟩
  · intro tx err b hb
    simp only [transactor.World.invoke, hb]
  · intro tx b hb
    refine ⟨?_, ?_⟩
    · intro e w2 hfn
      simp only [transactor.World.invoke, hb, hfn, transactor.deferredRollback]
    · intro w2 hfn
      simp only [transactor.World.invoke, hb, hfn, transactor.deferredRollback]
      cases hc : (m.Commit tx w2.backend).1 <;> simp

/-- C18: on a context that carries a transaction, `Run` is the unit of work run on that same
context: no `Begin`, `Commit` or `Rollback` is added and the result is returned as it is.
Hence a `Run` nested in the unit of work of a `Run` is that unit of work alone, and when the
unit of work calls neither pool nor transaction the calls of the two nested `Run`s are one
`Begin`, at most one `Commit` and the deferred `Rollback`. -/
theorem transactor.Run_with_transaction {σ : Type} (m : transactor.Manager σ)
    (ctx : context.Context)
    (fn : context.Context → transactor.World σ → Option Error × transactor.World σ)
    (w : transactor.World σ) (tx : pgx.Tx) (hctx : transactor.extractTx ctx = some tx) :
    transactor.Run m ctx fn w = fn ctx w ∧
    (∀ ctx0 : context.Context, transactor.extractTx ctx0 = none →
      transactor.Run m ctx0 (fun c => transactor.Run m c fn) w = transactor.Run m ctx0 fn w ∧
      ((∀ c w0, (fn c w0).2.calls = w0.calls) →
        (transactor.Run m ctx0 (fun c => transactor.Run m c fn) w).2.calls
            = w.calls ++ [transactor.Call.Begin] ∨
        (transactor.Run m ctx0 (fun c => transactor.Run m c fn) w).2.calls
            = w.calls ++ [transactor.Call.Begin,
                transactor.Call.Rollback (m.Begin w.backend).1.1] ∨
        (transactor.Run m ctx0 (fun c => transactor.Run m c fn) w).2.calls
            = w.calls ++ [transactor.Call.Begin,
                transactor.Call.Commit (m.Begin w.backend).1.1,
                transactor.Call.Rollback (m.Begin w.backend).1.1])) := by
  refine ⟨transactor.Run_of_tx m ctx fn w tx hctx, ?_⟩
  intro ctx0 h0
  have hnest : transactor.Run m ctx0 (fun c => transactor.Run m c fn) w
      = transactor.Run m ctx0 fn w := by
    rw [transactor.Run_of_no_tx m ctx0 _ w h0, transactor.Run_of_no_tx m ctx0 fn w h0]
    rcases hb : w.invoke transactor.Call.Begin m.Begin with ⟨⟨t, _ | e⟩, w1⟩
    · simp only
      rw [transactor.Run_of_tx m (transactor.injectTx ctx0 t) fn w1 t
        (transactor.extractTx_injectTx ctx0 t)]
    · rfl
  refine ⟨hnest, ?_⟩
  intro hfn
  rw [hnest, transactor.Run_of_no_tx m ctx0 fn w h0]
  simp only [transactor.World.invoke]
  rcases hb : m.Begin w.backend with ⟨⟨t, _ | e⟩, b⟩
  · simp only
    rcases hf : fn (transactor.injectTx ctx0 t)
        { backend := b, calls := w.calls ++ [transactor.Call.Begin] } with ⟨_ | e, w2⟩
    · have hcalls := hfn (transactor.injectTx ctx0 t)
        { backend := b, calls := w.calls ++ [transactor.Call.Begin] }
      rw [hf] at hcalls
      simp only at hcalls
      right; right
      simp only [transactor.deferredRollback, transactor.World.invoke]
      cases hc : (m.Commit t w2.backend).1 <;> simp [hcalls]
    · have hcalls := hfn (transactor.injectTx ctx0 t)
        { backend := b, calls := w.calls ++ [transactor.Call.Begin] }
      rw [hf] at hcalls
      simp only at hcalls
      right; left
      simp [transactor.deferredRollback, transactor.World.invoke, hcalls]
  · left
    rfl

/-- C19: `GetQueryEngine(ctx)` is the transaction `ctx` carries when it carries one and the
pool otherwise. On the context `injectTx(ctx, tx)` that `Run` hands to the unit of work it is
`tx`, since `extractTx` undoes `injectTx`, and it is still `tx` on every context derived from
that one by adding values under other keys. -/
theorem transactor.GetQueryEngine_carried (ctx : context.Context) :
    (∀ tx, transactor.extractTx ctx = some tx →
      transactor.GetQueryEngine ctx = transactor.Client.tx tx) ∧
    (transactor.extractTx ctx = none → transactor.GetQueryEngine ctx = transactor.Client.pool) ∧
    (∀ tx, transactor.extractTx (transactor.injectTx ctx tx) = some tx ∧
      transactor.GetQueryEngine (transactor.injectTx ctx tx) = transactor.Client.tx tx) ∧
    (∀ (tx : pgx.Tx) (extra : List (String × context.Val)),
      transactor.GetQueryEngine
          (extra.foldl (fun c kv => context.WithValue c (context.Key.other kv.1) kv.2)
            (transactor.injectTx ctx tx))
        = transactor.Client.tx tx) := by
  refine ⟨?_, ?_, ?_, ?_⟩
  · intro tx h
    unfold transactor.GetQueryEngine
    rw [h]
  · intro h
    unfold transactor.GetQueryEngine
    rw [h]
  · intro tx
    refine ⟨transactor.extractTx_injectTx ctx tx, ?_⟩
    unfold transactor.GetQueryEngine
    rw [transactor.extractTx_injectTx]
  · intro tx extra
    have hgen : ∀ (xs : List (String × context.Val)) (c : context.Context),
        transactor.extractTx c = some tx →
        transactor.extractTx
          (xs.foldl (fun c kv => context.WithValue c (context.Key.other kv.1) kv.2) c)
          = some tx := by
      intro xs
      induction xs with
      | nil => intro c hc; exact hc
      | cons x xs ih =>
        intro c hc
        rw [List.foldl_cons]
        apply ih
        rw [transactor.extractTx_WithValue_other]
        exact hc
    unfold transactor.GetQueryEngine
    rw [hgen extra _ (transactor.extractTx_injectTx ctx tx)]

/-! ## `webhook.TaskHandler` -/

/-- C20: for every task whose payload `json.Unmarshal` rejects, `ProcessTask` returns an
error that wraps `asynq.SkipRetry`, so that `errors.Is(err, asynq.SkipRetry)` holds, and sends
no HTTP request: the requests sent and the state of the network are as before. -/
theorem webhook.ProcessTask_unparsable {F B σ : Type} (h : webhook.TaskHandler F B σ)
    (t : asynq.Task B) (w : webhook.World B σ) (leftover : queue.WebhookPayload F)
    (err : Error) (hbad : h.json.Unmarshal t.payload = (leftover, some err)) :
    (webhook.ProcessTask h t w).1 =
      some (Error.Wrap ("json.Unmarshal failed: " ++ err.message) asynq.SkipRetry) ∧
    (∀ e, (webhook.ProcessTask h t w).1 = some e → Error.Is e asynq.SkipRetry = true) ∧
    (webhook.ProcessTask h t w).2.requests = w.requests ∧
    (webhook.ProcessTask h t w).2.backend = w.backend := by
  unfold webhook.ProcessTask
  rw [hbad]
  refine ⟨rfl, ?_, rfl, rfl⟩
  intro e he
  simp only [Option.some.injEq] at he
  subst he
  simp [Error.Is, asynq.SkipRetry]

/-! ## Lemmas on the cache repository -/

/-- A command starts without an error, or with a scheduled error of the client. -/
theorem redis.Client.command_cases {B : Type} (c : redis.Client B) :
    (c.exec = (none, { c with faults := c.faults.tail })) ∨
      ∃ text rest, c.faults = some text :: rest ∧
        c.exec = (some (Error.New text), { c with faults := rest }) := by
  obtain ⟨data, faults⟩ := c
  unfold redis.Client.exec
  cases faults with
  | nil => left; simp
  | cons f rest =>
    cases f with
    | none => left; simp
    | some text => right; exact ⟨text, rest, rfl, rfl⟩

/-- A command that is not scheduled to fail starts without an error. -/
theorem redis.Client.command_quiet {B : Type} (c : redis.Client B) (hq : c.quiet 1) :
    c.exec = (none, { c with faults := c.faults.tail }) := by
  rcases redis.Client.command_cases c with h | ⟨text, rest, hf, _⟩
  · exact h
  · have := hq (some text) (by rw [hf]; simp)
    exact Option.noConfusion this

/-- Reading the cache leaves its entries as they are; a list is returned only for an entry
that parses to it, and `ErrCacheMiss` only when there is no entry. -/
theorem cache.Repo.GetActiveIncidents_cases {F B : Type} (r : cache.Repo F B)
    (c : redis.Client B) :
    (cache.Repo.GetActiveIncidents r c).2.data = c.data ∧
    (∀ incidents, (cache.Repo.GetActiveIncidents r c).1 = (incidents, none) →
      ∃ val ttl, c.data cache.KeyActiveIncidents = some (val, ttl) ∧
        r.json.Unmarshal val = (incidents, none)) ∧
    (c.data cache.KeyActiveIncidents = none →
      (cache.Repo.GetActiveIncidents r c).1 = (Slice.nil, some errs.ErrCacheMiss) ∨
      ∃ text, (cache.Repo.GetActiveIncidents r c).1 = (Slice.nil, some (Error.New text))) := by
  unfold cache.Repo.GetActiveIncidents redis.Client.Get
  rcases redis.Client.command_cases c with h | ⟨text, rest, hf, h⟩
  · rw [h]
    simp only
    cases hd : c.data cache.KeyActiveIncidents with
    | none =>
      refine ⟨?_, ?_, ?_⟩
      · simp
      · intro incidents hL
        simp at hL
      · intro _
        left
        simp
    | some e =>
      obtain ⟨val, ttl⟩ := e
      simp only
      rcases hu : r.json.Unmarshal val with ⟨res, _ | err⟩
      · refine ⟨rfl, ?_, fun hn => by simp at hn⟩
        intro incidents hL
        simp only [Prod.mk.injEq, and_true] at hL
        exact ⟨val, ttl, rfl, by rw [hu, hL]⟩
      · exact ⟨rfl, fun _ hL => by simp at hL, fun hn => by simp at hn⟩
  · rw [h]
    simp only
    rw [if_neg (by simp [redis.Nil])]
    exact ⟨rfl, fun _ hL => by simp at hL, fun _ => Or.inr ⟨text, rfl⟩⟩

/-- Writing the cache leaves its entries as they are, or stores the marshalled list. -/
theorem cache.Repo.SetActiveIncidents_cases {F B : Type} (r : cache.Repo F B)
    (incidents : Slice (models.IncidentShort F)) (c : redis.Client B) :
    (cache.Repo.SetActiveIncidents r incidents c).2.data = c.data ∨
    ∃ val, r.json.Marshal incidents = (val, none) ∧
      (cache.Repo.SetActiveIncidents r incidents c).2.data =
        fun k => if k = cache.KeyActiveIncidents then some (val, r.IncidentsTTL) else c.data k := by
  unfold cache.Repo.SetActiveIncidents redis.Client.Set
  rcases hm : r.json.Marshal incidents with ⟨val, _ | err⟩
  · simp only
    rcases redis.Client.command_cases c with h | ⟨text, rest, hf, h⟩
    · right
      rw [h]
      exact ⟨val, rfl, rfl⟩
    · left
      rw [h]
  · left
    rfl

/-- Invalidating the cache leaves its entries as they are when the command fails and drops
the entry of the active incidents when it does not. -/
theorem cache.Repo.InvalidateActiveIncidents_cases {F B : Type} (r : cache.Repo F B)
    (c : redis.Client B) :
    ((∃ text, (cache.Repo.InvalidateActiveIncidents r c).1 = some (Error.New text)) ∧
      (cache.Repo.InvalidateActiveIncidents r c).2.data = c.data) ∨
    ((cache.Repo.InvalidateActiveIncidents r c).1 = none ∧
      (cache.Repo.InvalidateActiveIncidents r c).2.data =
        fun k => if k = cache.KeyActiveIncidents then none else c.data k) := by
  unfold cache.Repo.InvalidateActiveIncidents redis.Client.Del
  rcases redis.Client.command_cases c with h | ⟨text, rest, hf, h⟩
  · right
    rw [h]
    exact ⟨rfl, rfl⟩
  · left
    rw [h]
    exact ⟨⟨text, rfl⟩, rfl⟩

/-- An invalidation that is not scheduled to fail succeeds and drops the entry. -/
theorem cache.Repo.InvalidateActiveIncidents_quiet {F B : Type} (r : cache.Repo F B)
    (c : redis.Client B) (hq : c.quiet 1) :
    (cache.Repo.InvalidateActiveIncidents r c).1 = none ∧
      (cache.Repo.InvalidateActiveIncidents r c).2.data cache.KeyActiveIncidents = none := by
  unfold cache.Repo.InvalidateActiveIncidents redis.Client.Del
  rw [redis.Client.command_quiet c hq]
  simp

/-- An invalidation that is scheduled to fail leaves the entries as they are. -/
theorem cache.Repo.InvalidateActiveIncidents_fault {F B : Type} (r : cache.Repo F B)
    (c : redis.Client B) (text : String) (rest : List (Option String))
    (hf : c.faults = some text :: rest) :
    (cache.Repo.InvalidateActiveIncidents r c).1 = some (Error.New text) ∧
      (cache.Repo.InvalidateActiveIncidents r c).2.data = c.data := by
  obtain ⟨data, faults⟩ := c
  simp only at hf
  subst hf
  exact ⟨rfl, rfl⟩

/-! ## Lemmas on the services and their backend -/

/-- The error `Create` returns and the backend it leaves. -/
theorem incident.Create_backend {F σ : Type} (s : incident.Service F σ)
    (params : models.CreateIncidentParams F) (w : World F σ) :
    (incident.Create s params w).1.2 = (s.incRepo.Create params w.backend).1.2 ∧
    (incident.Create s params w).2.backend =
      (if (s.incRepo.Create params w.backend).1.2 = none then
        (s.cacheRepo.InvalidateActiveIncidents (s.incRepo.Create params w.backend).2).2
      else (s.incRepo.Create params w.backend).2) := by
  unfold incident.Create
  simp only [World.invoke]
  rcases s.incRepo.Create params w.backend with ⟨⟨c, _ | e⟩, b⟩
  · simp [(incident.invalidate_calls s _).2]
  · by_cases h : Error.Is e errs.ErrIncidentExists = true <;> simp [h, World.log]

/-- The error `Update` returns and the backend it leaves. -/
theorem incident.Update_backend {F σ : Type} (s : incident.Service F σ)
    (params : models.UpdateIncidentParams F) (w : World F σ) :
    (incident.Update s params w).1.2 = (s.incRepo.Update params w.backend).1.2 ∧
    (incident.Update s params w).2.backend =
      (if (s.incRepo.Update params w.backend).1.2 = none then
        (s.cacheRepo.InvalidateActiveIncidents (s.incRepo.Update params w.backend).2).2
      else (s.incRepo.Update params w.backend).2) := by
  unfold incident.Update
  simp only [World.invoke]
  rcases s.incRepo.Update params w.backend with ⟨⟨c, _ | e⟩, b⟩
  · simp [(incident.invalidate_calls s _).2]
  · by_cases h : Error.Is e errs.ErrIncidentNotFound = true <;>
      by_cases h2 : Error.Is e errs.ErrIncidentExists = true <;> simp [h, h2, World.log]

/-- The error `Deactivate` returns and the backend it leaves. -/
theorem incident.Deactivate_backend {F σ : Type} (s : incident.Service F σ) (id : Int)
    (w : World F σ) :
    (incident.Deactivate s id w).1 = (s.incRepo.Deactivate id w.backend).1 ∧
    (incident.Deactivate s id w).2.backend =
      (if (s.incRepo.Deactivate id w.backend).1 = none then
        (s.cacheRepo.InvalidateActiveIncidents (s.incRepo.Deactivate id w.backend).2).2
      else (s.incRepo.Deactivate id w.backend).2) := by
  unfold incident.Deactivate
  simp only [World.invoke]
  rcases s.incRepo.Deactivate id w.backend with ⟨_ | e, b⟩
  · simp [(incident.invalidate_calls s _).2]
  · by_cases h : Error.Is e errs.ErrIncidentNotFound = true <;> simp [h, World.log]

/-! ## The retirement of a deactivated incident -/

/-- The loop of `GetActive` collects the scanned rows in order. -/
theorem IncidentRow.scan_loop {F : Type} (rows : List (IncidentRow F))
    (acc : List (models.IncidentShort F)) :
    rows.foldl (fun shorts row => Slice.append shorts (incident.Repo.scanShort row))
      (Slice.mk acc) = Slice.mk (acc ++ rows.map incident.Repo.scanShort) := by
  induction rows generalizing acc with
  | nil => simp
  | cons r rs ih =>
    rw [List.foldl_cons]
    show List.foldl _ (Slice.mk (acc ++ [incident.Repo.scanShort r])) rs = _
    rw [ih]
    simp

/-- What `GetActive` returns and does: the table and the sequence are left as they are, and a
returned list holds the active rows, ordered by id. -/
theorem incident.Repo.GetActive_cases {F : Type} (db : DB F) :
    (incident.Repo.GetActive db).2.incidents = db.incidents ∧
    (incident.Repo.GetActive db).2.id_seq = db.id_seq ∧
    (∀ incidents, (incident.Repo.GetActive db).1 = (incidents, none) →
      incidents = Slice.mk
        ((List.insertionSort (fun a b => a.id ≤ b.id)
          (db.incidents.filter (fun r => r.is_active))).map incident.Repo.scanShort)) := by
  unfold incident.Repo.GetActive sql.selectActive
  rcases DB.exec_cases db with h | ⟨text, rest, hf, h⟩
  · rw [h]
    simp only
    rcases DB.exec_cases { db with faults := db.faults.tail } with h2 | ⟨text, rest, hf, h2⟩
    · rw [h2]
      refine ⟨rfl, rfl, ?_⟩
      intro incidents hL
      have h3 := (Prod.mk.inj hL).1
      rw [IncidentRow.scan_loop] at h3
      simpa using h3.symm
    · rw [h2]
      exact ⟨rfl, rfl, fun _ hL => by simp at hL⟩
  · rw [h]
    exact ⟨rfl, rfl, fun _ hL => by simp at hL⟩

/-- A list `GetActive` returns lists no retired incident. -/
theorem incident.Repo.GetActive_lacks {F : Type} (id : Int) (db : DB F) (h : db.retired id)
    (incidents : Slice (models.IncidentShort F))
    (hres : (incident.Repo.GetActive db).1 = (incidents, none)) : incidents.lacks id := by
  rw [(incident.Repo.GetActive_cases db).2.2 incidents hres]
  intro d hd hid
  simp only [Slice.toList, List.mem_map] at hd
  obtain ⟨row, hrow, rfl⟩ := hd
  rw [List.mem_insertionSort, List.mem_filter] at hrow
  have := h.2.2 row hrow.1 hid
  rw [this] at hrow
  exact Bool.noConfusion hrow.2

/-- Retirement in the database depends on the table and the sequence only. -/
theorem DB.retired_of_same {F : Type} (id : Int) (db db1 : DB F) (h : db.retired id)
    (hinc : db1.incidents = db.incidents) (hseq : db1.id_seq = db.id_seq) :
    db1.retired id := by
  unfold DB.retired at *
  rw [hinc, hseq]
  exact h

/-- Retirement survives `Create`: the new row has the next id of the sequence. -/
theorem DB.retired_Create {F : Type} [Float64Ops F] [PostGIS F] (id : Int) (db : DB F)
    (h : db.retired id) (params : models.CreateIncidentParams F) :
    (incident.Repo.Create params db).2.retired id := by
  rcases incident.Repo.Create_state_cases params db with ⟨hinc, hseq⟩ | ⟨_, hseq, hinc⟩
  · exact DB.retired_of_same id db _ h hinc hseq
  · unfold DB.retired at *
    rw [hinc, hseq]
    refine ⟨?_, by omega, ?_⟩
    · intro row hrow
      rw [List.mem_append, List.mem_singleton] at hrow
      rcases hrow with hrow | rfl
      · have := h.1 row hrow
        omega
      · show db.id_seq < db.id_seq + 1
        omega
    · intro row hrow hid
      rw [List.mem_append, List.mem_singleton] at hrow
      rcases hrow with hrow | rfl
      · exact h.2.2 row hrow hid
      · have h1 : db.id_seq = id := hid
        have := h.2.1
        omega

/-- Retirement survives `Update`, which changes neither an id nor `is_active`. -/
theorem DB.retired_Update {F : Type} [Float64Ops F] [PostGIS F] (id : Int) (db : DB F)
    (h : db.retired id) (params : models.UpdateIncidentParams F) :
    (incident.Repo.Update params db).2.retired id := by
  obtain ⟨hseq, hinc | ⟨_, hinc⟩⟩ := incident.Repo.Update_state_cases params db
  · exact DB.retired_of_same id db _ h hinc hseq
  · unfold DB.retired at *
    rw [hinc, hseq]
    refine ⟨?_, h.2.1, ?_⟩
    · intro row hrow
      rw [List.mem_map] at hrow
      obtain ⟨r0, hr0, rfl⟩ := hrow
      have := h.1 r0 hr0
      by_cases hc : r0.id = params.ID <;> simpa [hc] using this
    · intro row hrow hid
      rw [List.mem_map] at hrow
      obtain ⟨r0, hr0, rfl⟩ := hrow
      by_cases hc : r0.id = params.ID
      · rw [if_pos hc] at hid ⊢
        exact h.2.2 r0 hr0 hid
      · rw [if_neg hc] at hid ⊢
        exact h.2.2 r0 hr0 hid

/-- Retirement survives `Deactivate`, of whatever id. -/
theorem DB.retired_Deactivate {F : Type} (id : Int) (db : DB F) (h : db.retired id)
    (id2 : Int) : (incident.Repo.Deactivate id2 db).2.retired id := by
  obtain ⟨hseq, hinc | hinc⟩ := incident.Repo.Deactivate_state_cases id2 db
  · exact DB.retired_of_same id db _ h hinc hseq
  · unfold DB.retired at *
    rw [hinc, hseq]
    refine ⟨?_, h.2.1, ?_⟩
    · intro row hrow
      rw [List.mem_map] at hrow
      obtain ⟨r0, hr0, rfl⟩ := hrow
      have := h.1 r0 hr0
      by_cases hc : r0.id = id2 ∧ r0.is_active = true <;> simpa [hc] using this
    · intro row hrow hid
      rw [List.mem_map] at hrow
      obtain ⟨r0, hr0, rfl⟩ := hrow
      by_cases hc : r0.id = id2 ∧ r0.is_active = true
      · rw [if_pos hc]
      · rw [if_neg hc] at hid ⊢
        exact h.2.2 r0 hr0 hid

/-- A `Deactivate` that returns nil found a row of the id and left none of them active. -/
theorem incident.Repo.Deactivate_ok {F : Type} (id : Int) (db : DB F)
    (hok : (incident.Repo.Deactivate id db).1 = none) :
    (∃ row ∈ db.incidents, row.id = id) ∧
    (incident.Repo.Deactivate id db).2.id_seq = db.id_seq ∧
    (incident.Repo.Deactivate id db).2.incidents =
      db.incidents.map (fun r =>
        if r.id = id ∧ r.is_active = true then
          { r with is_active := false, updated_at := db.now }
        else r) := by
  have hmapany : (db.incidents.map (fun r =>
        if r.id = id ∧ r.is_active = true then
          { r with is_active := false, updated_at := db.now }
        else r)).any (fun r => decide (r.id = id))
      = db.incidents.any (fun r => decide (r.id = id)) := by
    rw [List.any_map]
    congr 1
    funext r
    by_cases h : r.id = id ∧ r.is_active = true <;> simp [h]
  rcases DB.exec_cases db with h | ⟨text, rest, hf, h⟩
  · have hstate : (incident.Repo.Deactivate id db).2.id_seq = db.id_seq ∧
        (incident.Repo.Deactivate id db).2.incidents =
          db.incidents.map (fun r =>
            if r.id = id ∧ r.is_active = true then
              { r with is_active := false, updated_at := db.now }
            else r) := by
      unfold incident.Repo.Deactivate sql.deactivateIncident
      rw [h]
      simp only
      split
      · rcases sql.existsIncident_cases id
            { db with
              incidents := db.incidents.map (fun r =>
                if r.id = id ∧ r.is_active = true then
                  { r with is_active := false, updated_at := db.now }
                else r)
              faults := db.faults.tail } with hp | ⟨t, r, _, hp⟩
        · rw [hp]
          simp only
          split <;> exact ⟨rfl, rfl⟩
        · rw [hp]
          exact ⟨rfl, rfl⟩
      · exact ⟨rfl, rfl⟩
    refine ⟨?_, hstate.1, hstate.2⟩
    rw [← IncidentRow.any_id_iff]
    cases hany : db.incidents.any (fun r => decide (r.id = id)) with
    | true => rfl
    | false =>
      exfalso
      unfold incident.Repo.Deactivate sql.deactivateIncident at hok
      rw [h] at hok
      simp only at hok
      have hc : db.incidents.countP (fun r => decide (r.id = id) && r.is_active) = 0 := by
        rw [List.countP_eq_zero]
        intro r hr hp
        simp only [Bool.and_eq_true, decide_eq_true_eq] at hp
        have : db.incidents.any (fun r => decide (r.id = id)) = true :=
          (IncidentRow.any_id_iff _ _).mpr ⟨r, hr, hp.1⟩
        rw [hany] at this
        exact Bool.noConfusion this
      rw [if_pos hc] at hok
      rcases sql.existsIncident_cases id
          { db with
            incidents := db.incidents.map (fun r =>
              if r.id = id ∧ r.is_active = true then
                { r with is_active := false, updated_at := db.now }
              else r)
            faults := db.faults.tail } with hp | ⟨t, r, _, hp⟩
      · rw [hp] at hok
        simp only at hok
        rw [hmapany, hany] at hok
        simp at hok
      · rw [hp] at hok
        simp at hok
  · exfalso
    unfold incident.Repo.Deactivate sql.deactivateIncident at hok
    rw [h] at hok
    simp at hok

/-- The cache keeps lacking a retired incident when its entries are kept. -/
theorem cache.Repo.lacks_of_data {F B : Type} (r : cache.Repo F B) (id : Int)
    (c c1 : redis.Client B) (h : r.lacks id c) (hd : c1.data = c.data) : r.lacks id c1 := by
  unfold cache.Repo.lacks at *
  rw [hd]
  exact h

/-- The cache lacks every incident when the entry of the active incidents is dropped. -/
theorem cache.Repo.lacks_of_dropped {F B : Type} (r : cache.Repo F B) (id : Int)
    (c1 : redis.Client B) (hd : c1.data cache.KeyActiveIncidents = none) : r.lacks id c1 := by
  intro val ttl hval
  rw [hd] at hval
  exact Option.noConfusion hval

/-- The cache keeps lacking a retired incident through an invalidation. -/
theorem cache.Repo.lacks_Invalidate {F B : Type} (r : cache.Repo F B) (id : Int)
    (c : redis.Client B) (h : r.lacks id c) :
    r.lacks id (cache.Repo.InvalidateActiveIncidents r c).2 := by
  rcases cache.Repo.InvalidateActiveIncidents_cases r c with ⟨_, hd⟩ | ⟨_, hd⟩
  · exact cache.Repo.lacks_of_data r id c _ h hd
  · apply cache.Repo.lacks_of_dropped
    rw [hd]
    simp

/-- The cache keeps lacking a retired incident when a list that lacks it is written, given
that a marshalled list, when it parses, parses to itself. -/
theorem cache.Repo.lacks_Set {F B : Type} (r : cache.Repo F B)
    (hjson : ∀ L val L2, r.json.Marshal L = (val, none) → r.json.Unmarshal val = (L2, none) →
      L2 = L)
    (id : Int) (c : redis.Client B) (h : r.lacks id c)
    (incidents : Slice (models.IncidentShort F)) (hL : incidents.lacks id) :
    r.lacks id (cache.Repo.SetActiveIncidents r incidents c).2 := by
  rcases cache.Repo.SetActiveIncidents_cases r incidents c with hd | ⟨val, hm, hd⟩
  · exact cache.Repo.lacks_of_data r id c _ h hd
  · intro val2 ttl hval L2 hu
    rw [hd] at hval
    simp only [if_true, Option.some.injEq, Prod.mk.injEq] at hval
    rw [← hval.1] at hu
    rw [hjson incidents val L2 hm hu]
    exact hL

/-- Resolving the active list keeps a retired incident retired, and a resolved list lacks
it. -/
theorem app.getActiveIncidents_retired {F B : Type} (cacheRepo : cache.Repo F B)
    (locationRepo : location.LocationRepo F (Backend F B))
    (queue : location.QueueProducer F (Backend F B)) (timeout : Duration)
    (hjson : ∀ L val L2, cacheRepo.json.Marshal L = (val, none) →
      cacheRepo.json.Unmarshal val = (L2, none) → L2 = L)
    (id : Int) (w : World F (Backend F B)) (h : app.Retired cacheRepo id w.backend) :
    app.Retired cacheRepo id
      (location.getActiveIncidents
        (app.locationService cacheRepo locationRepo queue timeout) w).2.backend ∧
    ∀ incidents,
      (location.getActiveIncidents
        (app.locationService cacheRepo locationRepo queue timeout) w).1 = (incidents, none) →
      incidents.lacks id := by
  obtain ⟨hdb, hcache⟩ := h
  obtain ⟨hdata, hparsed, -⟩ := cache.Repo.GetActiveIncidents_cases cacheRepo w.backend.cache
  rcases hget : cache.Repo.GetActiveIncidents cacheRepo w.backend.cache with ⟨⟨L0, e0⟩, c1⟩
  rw [hget] at hdata hparsed
  have hc1 : cacheRepo.lacks id c1 := cache.Repo.lacks_of_data cacheRepo id _ c1 hcache hdata
  have hread : (app.locationService cacheRepo locationRepo queue timeout).cacheRepo.GetActiveIncidents
      w.backend = ((L0, e0), { w.backend with cache := c1 }) := by
    show Backend.onCache _ _ = _
    unfold Backend.onCache
    rw [hget]
  cases e0 with
  | none =>
    rw [location.getActiveIncidents_hit _ w L0 _ hread]
    refine ⟨⟨hdb, hc1⟩, ?_⟩
    intro incidents hL
    have hL0 : L0 = incidents := (Prod.mk.inj hL).1
    subst hL0
    obtain ⟨val, ttl, hval, hu⟩ := hparsed L0 rfl
    exact hcache val ttl hval L0 hu
  | some e =>
    obtain ⟨hinc, hseq, hres⟩ := incident.Repo.GetActive_cases w.backend.db
    have hlacks := incident.Repo.GetActive_lacks id w.backend.db hdb
    rcases hga : incident.Repo.GetActive w.backend.db with ⟨⟨L1, e1⟩, db1⟩
    rw [hga] at hinc hseq hlacks
    have hdb1 : db1.retired id := DB.retired_of_same id _ db1 hdb hinc hseq
    have hstore : (app.locationService cacheRepo locationRepo queue timeout).incRepo.GetActive
        { w.backend with cache := c1 } = ((L1, e1), { db := db1, cache := c1 }) := by
      show Backend.onDB _ _ = _
      unfold Backend.onDB
      simp only [hga]
    cases e1 with
    | some e1 =>
      obtain ⟨w1, hw1, hb, -⟩ :=
        location.getActiveIncidents_store_error _ w L0 L1 e e1 _ _ hread hstore
      rw [hw1]
      refine ⟨?_, fun _ hL => by simp at hL⟩
      show app.Retired cacheRepo id w1.backend
      rw [hb]
      exact ⟨hdb1, hc1⟩
    | none =>
      obtain ⟨w1, hw1, hb, -⟩ :=
        location.getActiveIncidents_fallback _ w L0 L1 e _ _ hread hstore
      rw [hw1]
      have hL1 : L1.lacks id := hlacks L1 rfl
      refine ⟨?_, ?_⟩
      · show app.Retired cacheRepo id w1.backend
        rw [hb]
        exact ⟨hdb1, cache.Repo.lacks_Set cacheRepo hjson id c1 hc1 L1 hL1⟩
      · intro incidents hL
        have : L1 = incidents := (Prod.mk.inj hL).1
        rw [← this]
        exact hL1

/-- The backend `Check` leaves is the one the resolution of the active list leaves. -/
theorem location.Check_backend {F σ : Type} [Float64Ops F] (s : location.Service F σ)
    (params : models.CheckLocationParams F) (w : World F σ) :
    (location.Check s params w).2.backend = (location.getActiveIncidents s w).2.backend := by
  rcases hg : location.getActiveIncidents s w with ⟨⟨L, err⟩, w1⟩
  cases err with
  | some e => rw [location.Check_of_failed s params w w1 L e hg]; rfl
  | none => rw [location.Check_of_resolved s params w w1 L hg]

/-- Every event of an execution keeps a retired incident retired. -/
theorem app.Retired_step {F B : Type} [Float64Ops F] [PostGIS F] (cacheRepo : cache.Repo F B)
    (reads : incident.IncidentRepo F (Backend F B)) (window : Duration)
    (locationRepo : location.LocationRepo F (Backend F B))
    (queue : location.QueueProducer F (Backend F B)) (timeout : Duration)
    (hjson : ∀ L val L2, cacheRepo.json.Marshal L = (val, none) →
      cacheRepo.json.Unmarshal val = (L2, none) → L2 = L)
    (id : Int) (w : World F (Backend F B)) (h : app.Retired cacheRepo id w.backend)
    (event : app.Event F) :
    app.Retired cacheRepo id
      (app.step (app.incidentService cacheRepo reads window)
        (app.locationService cacheRepo locationRepo queue timeout) w event).backend := by
  cases event with
  | Check params =>
    show app.Retired cacheRepo id (location.Check _ params w).2.backend
    rw [location.Check_backend]
    exact (app.getActiveIncidents_retired cacheRepo locationRepo queue timeout hjson id w h).1
  | Create params =>
    show app.Retired cacheRepo id (incident.Create _ params w).2.backend
    rw [(incident.Create_backend _ params w).2]
    have hdb := DB.retired_Create id w.backend.db h.1 params
    split
    · exact ⟨hdb, cache.Repo.lacks_Invalidate cacheRepo id _ h.2⟩
    · exact ⟨hdb, h.2⟩
  | Update params =>
    show app.Retired cacheRepo id (incident.Update _ params w).2.backend
    rw [(incident.Update_backend _ params w).2]
    have hdb := DB.retired_Update id w.backend.db h.1 params
    split
    · exact ⟨hdb, cache.Repo.lacks_Invalidate cacheRepo id _ h.2⟩
    · exact ⟨hdb, h.2⟩
  | Deactivate id2 =>
    show app.Retired cacheRepo id (incident.Deactivate _ id2 w).2.backend
    rw [(incident.Deactivate_backend _ id2 w).2]
    have hdb := DB.retired_Deactivate id w.backend.db h.1 id2
    split
    · exact ⟨hdb, cache.Repo.lacks_Invalidate cacheRepo id _ h.2⟩
    · exact ⟨hdb, h.2⟩
  | CacheExpire =>
    refine ⟨h.1, ?_⟩
    apply cache.Repo.lacks_of_dropped
    simp [app.step, redis.Client.expire]
  | Tick now => exact ⟨h.1, h.2⟩

/-- A sequential execution keeps a retired incident retired. -/
theorem app.Retired_run {F B : Type} [Float64Ops F] [PostGIS F] (cacheRepo : cache.Repo F B)
    (reads : incident.IncidentRepo F (Backend F B)) (window : Duration)
    (locationRepo : location.LocationRepo F (Backend F B))
    (queue : location.QueueProducer F (Backend F B)) (timeout : Duration)
    (hjson : ∀ L val L2, cacheRepo.json.Marshal L = (val, none) →
      cacheRepo.json.Unmarshal val = (L2, none) → L2 = L)
    (id : Int) (events : List (app.Event F)) (w : World F (Backend F B))
    (h : app.Retired cacheRepo id w.backend) :
    app.Retired cacheRepo id
      (app.run (app.incidentService cacheRepo reads window)
        (app.locationService cacheRepo locationRepo queue timeout) w events).backend := by
  induction events generalizing w with
  | nil => exact h
  | cons e es ih =>
    show app.Retired cacheRepo id (app.run _ _ (app.step _ _ w e) es).backend
    exact ih _ (app.Retired_step cacheRepo reads window locationRepo queue timeout hjson id w h e)

/-! ## Cache coherence and deactivation finality -/

/-- The codec that keeps documents in parsed form parses a marshalled value to itself. -/
theorem json.parsed_roundtrip {α : Type} [Inhabited α] (v : α) (val : α ⊕ String) (v2 : α)
    (hm : (json.parsed α).Marshal v = (val, none))
    (hu : (json.parsed α).Unmarshal val = (v2, none)) : v2 = v := by
  have hval : val = Sum.inl v := ((Prod.mk.inj hm).1).symm
  subst hval
  exact ((Prod.mk.inj hu).1).symm

/-- C11, as the code has it: after a `Create`, `Update` or `Deactivate` of the incident service
that returns a nil error and whose cache invalidation is not scheduled to fail, the cache
entry of the active incidents is absent: the next `GetActiveIncidents` on the cache returns
`ErrCacheMiss`, or the error of the client when the read itself fails, and never a list. -/
theorem app.cache_misses_after_mutation {F B : Type} [Float64Ops F] [PostGIS F]
    (cacheRepo : cache.Repo F B) (reads : incident.IncidentRepo F (Backend F B))
    (window : Duration) (w : World F (Backend F B)) (hq : w.backend.cache.quiet 1) :
    (∀ params : models.CreateIncidentParams F,
      (incident.Create (app.incidentService cacheRepo reads window) params w).1.2 = none →
      cacheRepo.misses
        (incident.Create (app.incidentService cacheRepo reads window) params w).2.backend.cache) ∧
    (∀ params : models.UpdateIncidentParams F,
      (incident.Update (app.incidentService cacheRepo reads window) params w).1.2 = none →
      cacheRepo.misses
        (incident.Update (app.incidentService cacheRepo reads window) params w).2.backend.cache) ∧
    (∀ id : Int,
      (incident.Deactivate (app.incidentService cacheRepo reads window) id w).1 = none →
      cacheRepo.misses
        (incident.Deactivate (app.incidentService cacheRepo reads window) id w).2.backend.cache) := by
  have hdrop := (cache.Repo.InvalidateActiveIncidents_quiet cacheRepo w.backend.cache hq).2
  have hmiss : cacheRepo.misses (cache.Repo.InvalidateActiveIncidents cacheRepo w.backend.cache).2 :=
    ⟨hdrop, (cache.Repo.GetActiveIncidents_cases cacheRepo _).2.2 hdrop⟩
  refine ⟨?_, ?_, ?_⟩
  · intro params hok
    obtain ⟨herr, hb⟩ := incident.Create_backend (app.incidentService cacheRepo reads window)
      params w
    rw [herr] at hok
    rw [hb, if_pos hok]
    exact hmiss
  · intro params hok
    obtain ⟨herr, hb⟩ := incident.Update_backend (app.incidentService cacheRepo reads window)
      params w
    rw [herr] at hok
    rw [hb, if_pos hok]
    exact hmiss
  · intro id hok
    obtain ⟨herr, hb⟩ := incident.Deactivate_backend (app.incidentService cacheRepo reads window)
      id w
    rw [herr] at hok
    rw [hb, if_pos hok]
    exact hmiss

/-- The cache entry lists the active incident 1 and the invalidation is scheduled to fail with
"connection refused": `Deactivate(1)` returns nil, and the next `GetActiveIncidents` on the
cache returns neither `ErrCacheMiss` nor the active set of the store, which is empty, but the
list that still holds the incident. -/
theorem app.cache_stale_after_failed_invalidation :
    (incident.Deactivate (app.incidentService (app.testCache ℝ) app.idleReads 0) 1
      (World.init (app.testBackend ℝ [some "connection refused"]) 0)).1 = none ∧
    (cache.Repo.GetActiveIncidents (app.testCache ℝ)
        (incident.Deactivate (app.incidentService (app.testCache ℝ) app.idleReads 0) 1
          (World.init (app.testBackend ℝ [some "connection refused"]) 0)).2.backend.cache).1
      = (Slice.mk [location.testIncident ℝ], none) ∧
    (incident.Repo.GetActive
        (incident.Deactivate (app.incidentService (app.testCache ℝ) app.idleReads 0) 1
          (World.init (app.testBackend ℝ [some "connection refused"]) 0)).2.backend.db).1
      = (Slice.mk [], none) ∧
    ¬ ((cache.Repo.GetActiveIncidents (app.testCache ℝ)
          (incident.Deactivate (app.incidentService (app.testCache ℝ) app.idleReads 0) 1
            (World.init (app.testBackend ℝ [some "connection refused"]) 0)).2.backend.cache).1.2
        = some errs.ErrCacheMiss ∨
      (cache.Repo.GetActiveIncidents (app.testCache ℝ)
          (incident.Deactivate (app.incidentService (app.testCache ℝ) app.idleReads 0) 1
            (World.init (app.testBackend ℝ [some "connection refused"]) 0)).2.backend.cache).1
        = (incident.Repo.GetActive
          (incident.Deactivate (app.incidentService (app.testCache ℝ) app.idleReads 0) 1
            (World.init (app.testBackend ℝ [some "connection refused"]) 0)).2.backend.db).1) := by
  have hget : (cache.Repo.GetActiveIncidents (app.testCache ℝ)
        (incident.Deactivate (app.incidentService (app.testCache ℝ) app.idleReads 0) 1
          (World.init (app.testBackend ℝ [some "connection refused"]) 0)).2.backend.cache).1
      = (Slice.mk [location.testIncident ℝ], none) := rfl
  have hstore : (incident.Repo.GetActive
        (incident.Deactivate (app.incidentService (app.testCache ℝ) app.idleReads 0) 1
          (World.init (app.testBackend ℝ [some "connection refused"]) 0)).2.backend.db).1
      = (Slice.mk [], none) := rfl
  refine ⟨rfl, hget, hstore, ?_⟩
  rw [hget, hstore]
  simp

/-- The same backend with a cache server that does not fail: after `Deactivate(1)` the cache
misses. -/
theorem app.cache_misses_after_mutation_witness :
    (app.testBackend ℝ []).cache.quiet 1 ∧
    (incident.Deactivate (app.incidentService (app.testCache ℝ) app.idleReads 0) 1
      (World.init (app.testBackend ℝ []) 0)).1 = none ∧
    (app.testCache ℝ).misses
      (incident.Deactivate (app.incidentService (app.testCache ℝ) app.idleReads 0) 1
        (World.init (app.testBackend ℝ []) 0)).2.backend.cache := by
  have hq : (app.testBackend ℝ []).cache.quiet 1 := by
    intro f hf
    simp [app.testBackend] at hf
  exact ⟨hq, rfl,
    (app.cache_misses_after_mutation (app.testCache ℝ) app.idleReads 0
      (World.init (app.testBackend ℝ []) 0) hq).2.2 1 rfl⟩

/-- C12, as the code has it: in every sequential execution from a database whose ids are
below the sequence, once `Deactivate(id)` of the incident service has returned nil with a
cache invalidation that was not scheduled to fail, no later `Check`, for any point and
whatever fails later, returns a `Dangers` list with an incident of that id. The codec is
taken to parse a marshalled list, when it parses, to the list itself. -/
theorem app.retired_incident_not_reported {F B : Type} [Float64Ops F] [PostGIS F]
    (cacheRepo : cache.Repo F B) (reads : incident.IncidentRepo F (Backend F B))
    (window : Duration) (locationRepo : location.LocationRepo F (Backend F B))
    (queue : location.QueueProducer F (Backend F B)) (timeout : Duration)
    (hjson : ∀ L val L2, cacheRepo.json.Marshal L = (val, none) →
      cacheRepo.json.Unmarshal val = (L2, none) → L2 = L)
    (w : World F (Backend F B)) (id : Int)
    (hids : ∀ row ∈ w.backend.db.incidents, row.id < w.backend.db.id_seq)
    (hok : (incident.Deactivate (app.incidentService cacheRepo reads window) id w).1 = none)
    (hinv : w.backend.cache.quiet 1)
    (events : List (app.Event F)) (params : models.CheckLocationParams F) :
    ∀ r,
      (location.Check (app.locationService cacheRepo locationRepo queue timeout) params
        (app.run (app.incidentService cacheRepo reads window)
          (app.locationService cacheRepo locationRepo queue timeout)
          (incident.Deactivate (app.incidentService cacheRepo reads window) id w).2
          events)).1.1 = some r →
      ∀ d ∈ r.Dangers.toList, d.ID ≠ id := by
  obtain ⟨herr, hb⟩ := incident.Deactivate_backend (app.incidentService cacheRepo reads window)
    id w
  rw [herr] at hok
  have hok2 : (incident.Repo.Deactivate id w.backend.db).1 = none := hok
  obtain ⟨⟨row, hrow, hrid⟩, hseq, hinc⟩ := incident.Repo.Deactivate_ok id w.backend.db hok2
  have hstart : app.Retired cacheRepo id
      (incident.Deactivate (app.incidentService cacheRepo reads window) id w).2.backend := by
    rw [hb, if_pos hok]
    constructor
    · show DB.retired id (incident.Repo.Deactivate id w.backend.db).2
      unfold DB.retired
      rw [hseq, hinc]
      refine ⟨?_, ?_, IncidentRow.deactivate_map_inactive id _ _⟩
      · intro r0 hr0
        rw [List.mem_map] at hr0
        obtain ⟨r1, hr1, rfl⟩ := hr0
        have := hids r1 hr1
        by_cases hc : r1.id = id ∧ r1.is_active = true <;> simpa [hc] using this
      · rw [← hrid]
        exact hids row hrow
    · apply cache.Repo.lacks_of_dropped
      exact (cache.Repo.InvalidateActiveIncidents_quiet cacheRepo w.backend.cache hinv).2
  have hend := app.Retired_run cacheRepo reads window locationRepo queue timeout hjson id events
    _ hstart
  intro r hr d hd
  obtain ⟨-, hlacks⟩ := app.getActiveIncidents_retired cacheRepo locationRepo queue timeout hjson
    id _ hend
  rcases hg : location.getActiveIncidents
      (app.locationService cacheRepo locationRepo queue timeout)
      (app.run (app.incidentService cacheRepo reads window)
        (app.locationService cacheRepo locationRepo queue timeout)
        (incident.Deactivate (app.incidentService cacheRepo reads window) id w).2 events)
    with ⟨⟨L, err⟩, w1⟩
  rw [hg] at hlacks
  cases err with
  | some e =>
    rw [location.Check_of_failed _ params _ w1 L e hg] at hr
    exact Option.noConfusion hr
  | none =>
    rw [location.Check_of_resolved _ params _ w1 L hg] at hr
    have hr2 := Option.some.inj hr
    rw [← hr2] at hd
    simp only [Slice.toList] at hd
    exact hlacks L rfl d (List.mem_of_mem_filter hd)

/-- Over the reals the local variable `a` of `Distance` is symmetric in the two points. -/
theorem geo.haversine_real_symm (lat1 lon1 lat2 lon2 : ℝ) :
    geo.haversine lat1 lon1 lat2 lon2 = geo.haversine lat2 lon2 lat1 lon1 := by
  rw [geo.haversine_real, geo.haversine_real]
  have h1 : (lat2 - lat1) * (Real.pi / 180) / 2 = -((lat1 - lat2) * (Real.pi / 180) / 2) := by
    ring
  have h2 : (lon2 - lon1) * (Real.pi / 180) / 2 = -((lon1 - lon2) * (Real.pi / 180) / 2) := by
    ring
  rw [h1, h2, Real.sin_neg, Real.sin_neg]
  ring

/-- Over the reals `Distance` is symmetric in the two points. -/
theorem geo.Distance_real_symm (lat1 lon1 lat2 lon2 : ℝ) :
    geo.Distance lat1 lon1 lat2 lon2 = geo.Distance lat2 lon2 lat1 lon1 := by
  rw [geo.Distance_eq_haversine, geo.Distance_eq_haversine, geo.haversine_real_symm]

/-- Over the reals the predicate on the sphere is symmetric in the two points. -/
theorem postgis.sphere_real_symm (a b : postgis.Point ℝ) (d : ℝ) :
    PostGIS.ST_DWithin a b d = PostGIS.ST_DWithin b a d := by
  show Float64Ops.le (geo.Distance a.y a.x b.y b.x) d
    = Float64Ops.le (geo.Distance b.y b.x a.y a.x) d
  rw [geo.Distance_real_symm]

/-- Over the reals a point is within one meter of itself on the sphere. -/
theorem postgis.sphere_real_self (p : postgis.Point ℝ) :
    PostGIS.ST_DWithin p p (Float64Ops.ofInt 1) = true :=
  realLaws.zero_le_ofInt _ 1 (geo.Distance_self_isZero realLaws p.y p.x trivial trivial)
    (by decide)

/-- After `Deactivate(1)` with the failed invalidation of the counterexample above, the next
`Check`, at the centre of the incident, reads the stale cache entry and returns a `Dangers`
list holding the incident of id 1. -/
theorem app.deactivated_reported_after_failed_invalidation :
    (incident.Deactivate (app.incidentService (app.testCache ℝ) app.idleReads 0) 1
      (World.init (app.testBackend ℝ [some "connection refused"]) 0)).1 = none ∧
    ∃ r w2,
      location.Check
          (app.locationService (app.testCache ℝ) app.idleLocationRepo app.idleQueue 0)
          { UserID := "u1", Latitude := Float64Ops.ofInt 10, Longitude := Float64Ops.ofInt 10 }
          (incident.Deactivate (app.incidentService (app.testCache ℝ) app.idleReads 0) 1
            (World.init (app.testBackend ℝ [some "connection refused"]) 0)).2
        = ((some r, none), w2) ∧
      r.Dangers = Slice.mk [location.testIncident ℝ] ∧
      ∃ d ∈ r.Dangers.toList, d.ID = 1 := by
  have hin : location.inDanger
      { UserID := "u1", Latitude := (Float64Ops.ofInt 10 : ℝ), Longitude := Float64Ops.ofInt 10 }
      (location.testIncident ℝ) = true :=
    location.inDanger_own_centre realLaws "u1" (location.testIncident ℝ) trivial trivial
      (by decide)
  have hfilter : [location.testIncident ℝ].filter (location.inDanger
      { UserID := "u1", Latitude := (Float64Ops.ofInt 10 : ℝ), Longitude := Float64Ops.ofInt 10 })
      = [location.testIncident ℝ] := by
    simp [List.filter, hin]
  refine ⟨rfl, _, _, location.Check_of_resolved _ _ _ _ (Slice.mk [location.testIncident ℝ]) rfl,
    ?_, ?_⟩
  · show Slice.mk ([location.testIncident ℝ].filter _) = _
    rw [hfilter]
  · refine ⟨location.testIncident ℝ, ?_, rfl⟩
    show location.testIncident ℝ ∈ [location.testIncident ℝ].filter _
    rw [hfilter]
    simp

/-- The same backend with a cache server that does not fail: after `Deactivate(1)`, a check
at the centre, the expiry of the cache entry and a creation elsewhere, a check at the centre
reports no incident of id 1. -/
theorem app.retired_incident_not_reported_witness :
    (∀ row ∈ (app.testBackend ℝ []).db.incidents, row.id < (app.testBackend ℝ []).db.id_seq) ∧
    (incident.Deactivate (app.incidentService (app.testCache ℝ) app.idleReads 0) 1
      (World.init (app.testBackend ℝ []) 0)).1 = none ∧
    (app.testBackend ℝ []).cache.quiet 1 ∧
    ∀ r,
      (location.Check
        (app.locationService (app.testCache ℝ) app.idleLocationRepo app.idleQueue 0)
        { UserID := "u1", Latitude := Float64Ops.ofInt 10, Longitude := Float64Ops.ofInt 10 }
        (app.run (app.incidentService (app.testCache ℝ) app.idleReads 0)
          (app.locationService (app.testCache ℝ) app.idleLocationRepo app.idleQueue 0)
          (incident.Deactivate (app.incidentService (app.testCache ℝ) app.idleReads 0) 1
            (World.init (app.testBackend ℝ []) 0)).2
          [app.Event.Check
              { UserID := "u1", Latitude := Float64Ops.ofInt 10
                Longitude := Float64Ops.ofInt 10 },
            app.Event.CacheExpire,
            app.Event.Create
              { Latitude := Float64Ops.ofInt 20, Longitude := Float64Ops.ofInt 20
                Radius := 500 }])).1.1 = some r →
      ∀ d ∈ r.Dangers.toList, d.ID ≠ 1 := by
  have hids : ∀ row ∈ (app.testBackend ℝ []).db.incidents,
      row.id < (app.testBackend ℝ []).db.id_seq := by
    intro row hrow
    simp only [app.testBackend, List.mem_singleton] at hrow
    subst hrow
    decide
  have hq : (app.testBackend ℝ []).cache.quiet 1 := by
    intro f hf
    simp [app.testBackend] at hf
  exact ⟨hids, rfl, hq,
    app.retired_incident_not_reported (app.testCache ℝ) app.idleReads 0 app.idleLocationRepo
      app.idleQueue 0 (fun L val L2 hm hu => json.parsed_roundtrip L val L2 hm hu)
      (World.init (app.testBackend ℝ []) 0) 1 hids rfl hq _ _⟩

/-- Over the reals the two rows of `twoRows` are farther than one meter from each other. -/
theorem app.twoRows_far :
    geo.Distance (0 : ℝ) 0 10 10 > 1 := by
  have h := geo.Distance_from_origin_lower 10 10 (by norm_num) (by norm_num)
  have : (1 : ℝ) < 6371000 * (2 * (10 / 180)) := by norm_num
  linarith

/-- The table `twoRows` has unique ids. -/
theorem app.twoRows_unique : (app.twoRows ℝ).UniqueIDs := by
  refine ⟨by simp [app.twoRows, app.testRow], ?_⟩
  intro r hr
  simp only [app.twoRows, List.mem_cons, List.mem_singleton, List.not_mem_nil, or_false] at hr
  rcases hr with rfl | rfl <;> decide

/-- The table `twoRows` is separated. -/
theorem app.twoRows_separated : (app.twoRows ℝ).Separated := by
  have hfar : PostGIS.ST_DWithin
      (postgis.ST_MakePoint (Float64Ops.ofInt 0 : ℝ) (Float64Ops.ofInt 0))
      (postgis.ST_MakePoint (Float64Ops.ofInt 10 : ℝ) (Float64Ops.ofInt 10))
      (Float64Ops.ofInt 1) = false := by
    show decide (geo.Distance (((0 : Int) : ℝ)) ((0 : Int) : ℝ) ((10 : Int) : ℝ) ((10 : Int) : ℝ)
      ≤ ((1 : Int) : ℝ)) = false
    have h := app.twoRows_far
    push_cast
    rw [decide_eq_false_iff_not]
    linarith
  intro a ha b hb hab
  simp only [app.twoRows, List.mem_cons, List.mem_singleton, List.not_mem_nil, or_false] at ha hb
  rcases ha with rfl | rfl <;> rcases hb with rfl | rfl
  · exact absurd rfl hab
  · rw [postgis.sphere_real_symm]
    exact hfar
  · exact hfar
  · exact absurd rfl hab

/-- The table `twoRows` has no scheduled fault. -/
theorem app.twoRows_quiet (n : Nat) : (app.twoRows ℝ).quiet n := by
  intro f hf
  simp [app.twoRows] at hf

/-- On `twoRows` the statement of `Update` with the centre (10, 10) is blocked for every id
other than 1. -/
theorem app.twoRows_update_blocked (radius id : Int) (hid : id ≠ 1) :
    sql.updateIncident (Float64Ops.ofInt 10 : ℝ) (Float64Ops.ofInt 10) radius id
        (app.twoRows ℝ)
      = (Except.error pgx.ErrNoRows, app.twoRows ℝ) := by
  have hself := postgis.sphere_real_self
    (postgis.ST_MakePoint (Float64Ops.ofInt 10 : ℝ) (Float64Ops.ofInt 10))
  have hne : (app.testRow ℝ).id ≠ id := fun h => hid h.symm
  have hany : (app.twoRows ℝ).incidents.any (fun r =>
      decide (r.id ≠ id) &&
        PostGIS.ST_DWithin r.location
          (postgis.ST_MakePoint (Float64Ops.ofInt 10 : ℝ) (Float64Ops.ofInt 10))
          (Float64Ops.ofInt 1)) = true := by
    rw [List.any_eq_true]
    refine ⟨app.testRow ℝ, by simp [app.twoRows], ?_⟩
    rw [Bool.and_eq_true]
    exact ⟨decide_eq_true hne, hself⟩
  show (if (app.twoRows ℝ).incidents.any _ = true then _ else _) = _
  rw [if_pos hany]

/-- On the table of two rows, `Deactivate(1)` returns nil, also a second time, leaving no
active row of id 1, and `Deactivate(3)` returns `ErrIncidentNotFound`. -/
theorem incident.Repo.Deactivate_not_found_iff_witness :
    (app.twoRows ℝ).quiet 4 ∧
    (incident.Repo.Deactivate 1 (app.twoRows ℝ)).1 = none ∧
    (incident.Repo.Deactivate 1 (incident.Repo.Deactivate 1 (app.twoRows ℝ)).2).1 = none ∧
    (incident.Repo.Deactivate 3 (app.twoRows ℝ)).1 = some errs.ErrIncidentNotFound := by
  have h1 := (incident.Repo.Deactivate_not_found_iff 1 (app.twoRows ℝ)
    (app.twoRows_quiet 4)).2.1 ⟨app.testRow ℝ, by simp [app.twoRows], rfl⟩
  have h3 := (incident.Repo.Deactivate_not_found_iff 3 (app.twoRows ℝ)
    (app.twoRows_quiet 4)).1.mpr (by
      intro r hr
      simp only [app.twoRows, List.mem_cons, List.mem_singleton, List.not_mem_nil,
        or_false] at hr
      rcases hr with rfl | rfl <;> decide)
  exact ⟨app.twoRows_quiet 4, h1.1, h1.2.2, h3⟩

/-- On the table of two rows, moving the incident 2 onto the centre of the incident 1 matches
no row and returns `ErrIncidentExists`; the same update for the id 9, which the table does not
hold, returns `ErrIncidentNotFound`. -/
theorem incident.Repo.Update_no_row_outcomes_witness :
    incident.Repo.Update
        { ID := 2, Latitude := Float64Ops.ofInt 10, Longitude := Float64Ops.ofInt 10
          Radius := 500 } (app.twoRows ℝ)
      = ((none, some errs.ErrIncidentExists), app.twoRows ℝ) ∧
    incident.Repo.Update
        { ID := 9, Latitude := Float64Ops.ofInt 10, Longitude := Float64Ops.ofInt 10
          Radius := 500 } (app.twoRows ℝ)
      = ((none, some errs.ErrIncidentNotFound), app.twoRows ℝ) :=
  ⟨(incident.Repo.Update_no_row_outcomes
      { ID := 2, Latitude := Float64Ops.ofInt 10, Longitude := Float64Ops.ofInt 10
        Radius := 500 } (app.twoRows ℝ) (app.twoRows ℝ)
      (app.twoRows_update_blocked 500 2 (by decide))).2.1 _ rfl,
    (incident.Repo.Update_no_row_outcomes
      { ID := 9, Latitude := Float64Ops.ofInt 10, Longitude := Float64Ops.ofInt 10
        Radius := 500 } (app.twoRows ℝ) (app.twoRows ℝ)
      (app.twoRows_update_blocked 500 9 (by decide))).1 _ rfl⟩

/-- On the table of two rows, creating an incident at the centre of the incident 1 returns
`ErrIncidentExists` and inserts nothing. -/
theorem incident.Repo.Create_exists_iff_witness :
    (app.twoRows ℝ).quiet 1 ∧
    (incident.Repo.Create
        { Latitude := Float64Ops.ofInt 10, Longitude := Float64Ops.ofInt 10, Radius := 500 }
        (app.twoRows ℝ)).1 = (none, some errs.ErrIncidentExists) ∧
    (incident.Repo.Create
        { Latitude := Float64Ops.ofInt 10, Longitude := Float64Ops.ofInt 10, Radius := 500 }
        (app.twoRows ℝ)).2.incidents = (app.twoRows ℝ).incidents :=
  ⟨app.twoRows_quiet 1,
    ((incident.Repo.Create_exists_iff
      { Latitude := Float64Ops.ofInt 10, Longitude := Float64Ops.ofInt 10, Radius := 500 }
      (app.twoRows ℝ)).2.1 (app.twoRows_quiet 1)).1
      ⟨app.testRow ℝ, by simp [app.twoRows],
        postgis.sphere_real_self
          (postgis.ST_MakePoint (Float64Ops.ofInt 10 : ℝ) (Float64Ops.ofInt 10))⟩⟩

/-- The table of two rows, at (10, 10) and at (0, 0), is separated with unique ids, and stays
so after a creation, an update and a deactivation; resizing the incident 1 in place returns
it with the new radius. -/
theorem incident.Repo.separation_preserved_witness :
    (app.twoRows ℝ).UniqueIDs ∧ (app.twoRows ℝ).Separated ∧
    (incident.Repo.Create
        { Latitude := Float64Ops.ofInt 10, Longitude := Float64Ops.ofInt 10, Radius := 500 }
        (app.twoRows ℝ)).2.Separated ∧
    (incident.Repo.Update
        { ID := 2, Latitude := Float64Ops.ofInt 10, Longitude := Float64Ops.ofInt 10
          Radius := 500 } (app.twoRows ℝ)).2.Separated ∧
    (incident.Repo.Deactivate 1 (app.twoRows ℝ)).2.Separated ∧
    (incident.Repo.Update
        { ID := 1, Latitude := Float64Ops.ofInt 10, Longitude := Float64Ops.ofInt 10
          Radius := 2000 } (app.twoRows ℝ)).1 =
      (some
        { ID := 1
          Latitude := Float64Ops.ofInt 10
          Longitude := Float64Ops.ofInt 10
          Radius := 2000
          IsActive := true
          CreatedAt := 0
          UpdatedAt := 0 }, none) := by
  have h := incident.Repo.separation_preserved postgis.sphere_real_symm (app.twoRows ℝ)
    app.twoRows_unique app.twoRows_separated
  exact ⟨app.twoRows_unique, app.twoRows_separated, (h.1 _).1, (h.2.1 _).1, (h.2.2.1 _).1,
    h.2.2.2 (app.testRow ℝ) (by simp [app.twoRows]) 2000 (app.twoRows_quiet 1)⟩

/-- With a pool that begins and commits without error and a unit of work that returns nil,
`Run` on the empty context returns nil after `Begin`, `Commit` and the deferred
`Rollback`. -/
theorem transactor.Run_without_transaction_witness :
    transactor.extractTx [] = none ∧
    (transactor.Run (transactor.mockManager ⟨7⟩ none none none) [] (fun _ w => (none, w))
      { backend := (), calls := [] }).1 = none ∧
    (transactor.Run (transactor.mockManager ⟨7⟩ none none none) [] (fun _ w => (none, w))
      { backend := (), calls := [] }).2.calls
      = [transactor.Call.Begin, transactor.Call.Commit ⟨7⟩, transactor.Call.Rollback ⟨7⟩] := by
  have h := ((transactor.Run_without_transaction (transactor.mockManager ⟨7⟩ none none none) []
    (fun _ w => (none, w)) { backend := (), calls := [] } rfl).2 ⟨7⟩ () rfl).2 _ rfl
  exact ⟨rfl, h.1, by rw [h.2]; rfl⟩

/-- On a context that carries the transaction 7, `Run` is the unit of work alone: no call
reaches the pool. -/
theorem transactor.Run_with_transaction_witness :
    transactor.extractTx (transactor.injectTx [] ⟨7⟩) = some ⟨7⟩ ∧
    transactor.Run (transactor.mockManager ⟨8⟩ none none none) (transactor.injectTx [] ⟨7⟩)
        (fun _ w => (some (Error.New "boom"), w)) { backend := (), calls := [] }
      = (some (Error.New "boom"), { backend := (), calls := [] }) :=
  ⟨rfl, (transactor.Run_with_transaction (transactor.mockManager ⟨8⟩ none none none)
    (transactor.injectTx [] ⟨7⟩) (fun _ w => (some (Error.New "boom"), w))
    { backend := (), calls := [] } ⟨7⟩ rfl).1⟩

/-- A task whose payload is the text "not json": `ProcessTask` returns an error that is
`asynq.SkipRetry` for `errors.Is` and sends no request. -/
theorem webhook.ProcessTask_unparsable_witness :
    Error.Is
      (Error.Wrap ("json.Unmarshal failed: " ++ "invalid character in not json")
        asynq.SkipRetry) asynq.SkipRetry = true ∧
    (webhook.ProcessTask (webhook.testHandler ℝ 200)
      { typename := "webhook:danger", payload := Sum.inr "not json" }
      { backend := (), requests := [], logs := [] }).1 =
      some (Error.Wrap ("json.Unmarshal failed: " ++ "invalid character in not json")
        asynq.SkipRetry) ∧
    (webhook.ProcessTask (webhook.testHandler ℝ 200)
      { typename := "webhook:danger", payload := Sum.inr "not json" }
      { backend := (), requests := [], logs := [] }).2.requests = [] := by
  have h := webhook.ProcessTask_unparsable (webhook.testHandler ℝ 200)
    { typename := "webhook:danger", payload := Sum.inr "not json" }
    { backend := (), requests := [], logs := [] } default
    (Error.New ("invalid character in " ++ "not json")) rfl
  exact ⟨h.2.1 _ h.1, h.1, h.2.2.1⟩

/-! ## `geo.Distance` over the reals: formula, range, symmetry -/

/-- For latitudes in `[-90, 90]` the local variable `a` of `Distance` lies in `[0, 1]`. -/
theorem geo.haversine_unit (lat1 lon1 lat2 lon2 : ℝ)
    (h1l : -90 ≤ lat1) (h1u : lat1 ≤ 90) (h2l : -90 ≤ lat2) (h2u : lat2 ≤ 90) :
    0 ≤ geo.haversine lat1 lon1 lat2 lon2 ∧ geo.haversine lat1 lon1 lat2 lon2 ≤ 1 := by
  have hpi : 0 < Real.pi := Real.pi_pos
  have hc1 : 0 ≤ Real.cos (lat1 * (Real.pi / 180)) :=
    Real.cos_nonneg_of_neg_pi_div_two_le_of_le (by nlinarith) (by nlinarith)
  have hc2 : 0 ≤ Real.cos (lat2 * (Real.pi / 180)) :=
    Real.cos_nonneg_of_neg_pi_div_two_le_of_le (by nlinarith) (by nlinarith)
  have hS0 : 0 ≤ Real.sin ((lon2 - lon1) * (Real.pi / 180) / 2) ^ 2 := sq_nonneg _
  have hS1 : Real.sin ((lon2 - lon1) * (Real.pi / 180) / 2) ^ 2 ≤ 1 := Real.sin_sq_le_one _
  have hsq : Real.sin ((lat2 - lat1) * (Real.pi / 180) / 2) ^ 2
      = 1 / 2 - (Real.cos (lat2 * (Real.pi / 180)) * Real.cos (lat1 * (Real.pi / 180))
          + Real.sin (lat2 * (Real.pi / 180)) * Real.sin (lat1 * (Real.pi / 180))) / 2 := by
    rw [Real.sin_sq_eq_half_sub, ← Real.cos_sub]
    congr 3
    ring
  have hadd : Real.cos (lat2 * (Real.pi / 180) + lat1 * (Real.pi / 180)) ≤ 1 := Real.cos_le_one _
  rw [Real.cos_add] at hadd
  have hcc : 0 ≤ Real.cos (lat1 * (Real.pi / 180)) * Real.cos (lat2 * (Real.pi / 180)) :=
    mul_nonneg hc1 hc2
  rw [geo.haversine_real]
  constructor
  · have := mul_nonneg (mul_nonneg hS0 hc1) hc2
    have := sq_nonneg (Real.sin ((lat2 - lat1) * (Real.pi / 180) / 2))
    linarith
  · rw [hsq]
    have hprod : Real.sin ((lon2 - lon1) * (Real.pi / 180) / 2) ^ 2 *
        Real.cos (lat1 * (Real.pi / 180)) * Real.cos (lat2 * (Real.pi / 180))
        ≤ Real.cos (lat1 * (Real.pi / 180)) * Real.cos (lat2 * (Real.pi / 180)) := by
      rw [mul_assoc]
      exact mul_le_of_le_one_left hcc hS1
    nlinarith

/-- C25: over the reals and for latitudes in `[-90, 90]`, `Distance` is the haversine
great-circle distance on a sphere of radius 6371000: `2 * 6371000 * arcsin (sqrt a)` with
`a = sin^2 (dLat / 2) + cos lat1 * cos lat2 * sin^2 (dLon / 2)`, the angles in radians; the
`atan2 (sqrt a, sqrt (1 - a))` of the code is `arcsin (sqrt a)`. -/
theorem geo.Distance_is_haversine (lat1 lon1 lat2 lon2 : ℝ)
    (h1l : -90 ≤ lat1) (h1u : lat1 ≤ 90) (h2l : -90 ≤ lat2) (h2u : lat2 ≤ 90) :
    geo.haversine lat1 lon1 lat2 lon2 =
      Real.sin ((lat2 * (Real.pi / 180) - lat1 * (Real.pi / 180)) / 2) ^ 2 +
        Real.cos (lat1 * (Real.pi / 180)) * Real.cos (lat2 * (Real.pi / 180)) *
          Real.sin ((lon2 * (Real.pi / 180) - lon1 * (Real.pi / 180)) / 2) ^ 2 ∧
    Float64Ops.atan2 (Float64Ops.sqrt (geo.haversine lat1 lon1 lat2 lon2))
        (Float64Ops.sqrt (Float64Ops.sub (Float64Ops.ofInt 1) (geo.haversine lat1 lon1 lat2 lon2)))
      = Real.arcsin (Real.sqrt (geo.haversine lat1 lon1 lat2 lon2)) ∧
    geo.Distance lat1 lon1 lat2 lon2 =
      2 * 6371000 * Real.arcsin (Real.sqrt (geo.haversine lat1 lon1 lat2 lon2)) := by
  obtain ⟨h0, h1⟩ := geo.haversine_unit lat1 lon1 lat2 lon2 h1l h1u h2l h2u
  refine ⟨?_, ?_, ?_⟩
  · rw [geo.haversine_real]
    have e1 : (lat2 * (Real.pi / 180) - lat1 * (Real.pi / 180)) / 2
        = (lat2 - lat1) * (Real.pi / 180) / 2 := by ring
    have e2 : (lon2 * (Real.pi / 180) - lon1 * (Real.pi / 180)) / 2
        = (lon2 - lon1) * (Real.pi / 180) / 2 := by ring
    rw [e1, e2]
    ring
  · rw [← geo.arg_sqrt_eq_arcsin _ h0 h1]
    show Complex.arg ⟨Real.sqrt (((1 : Int) : ℝ) - _), Real.sqrt _⟩ = _
    simp
  · rw [geo.Distance_real _ _ _ _ h0 h1]
    ring

/-- C26: the distance from a finite point to itself is a zero, for every carrier that obeys
the laws of `Float64Laws`; over the reals it is the number 0. -/
theorem geo.Distance_same_point {F : Type} [Float64Ops F] (laws : Float64Laws F) (lat lon : F)
    (hlat : laws.finite lat) (hlon : laws.finite lon) :
    laws.isZero (geo.Distance lat lon lat lon) :=
  geo.Distance_self_isZero laws lat lon hlat hlon

/-- The case "Same point" of `TestDistance`, over the reals:
`Distance(55.7558, 37.6173, 55.7558, 37.6173) = 0`. -/
theorem geo.Distance_same_point_witness :
    geo.Distance (557558 / 10000 : ℝ) (376173 / 10000) (557558 / 10000) (376173 / 10000) = 0 :=
  geo.Distance_same_point realLaws (557558 / 10000 : ℝ) (376173 / 10000) trivial trivial

/-- Over the reals, where no operation rounds, the test of `Check`,
`Distance(point, incident) <= radius`, gives the same answer with the incident passed first.
In `float64` the product of the three factors of `a` is rounded in the order of the arguments,
which this lemma does not cover. -/
theorem location.inDanger_real_symm (params : models.CheckLocationParams ℝ)
    (incident : models.IncidentShort ℝ) :
    location.inDanger params incident =
      Float64Ops.le
        (geo.Distance incident.Latitude incident.Longitude params.Latitude params.Longitude)
        (Float64Ops.ofInt incident.Radius) := by
  rw [geo.Distance_real_symm]
  rfl

/-- Over the reals, where no operation rounds, for latitudes in `[-90, 90]` and all longitudes
the haversine term `a` lies in `[0, 1]` and `0 <= Distance <= pi * 6371000`. In `float64` the
rounded `a` can exceed 1, which this lemma does not cover. -/
theorem geo.Distance_real_bounded (lat1 lon1 lat2 lon2 : ℝ)
    (h1l : -90 ≤ lat1) (h1u : lat1 ≤ 90) (h2l : -90 ≤ lat2) (h2u : lat2 ≤ 90) :
    0 ≤ geo.haversine lat1 lon1 lat2 lon2 ∧
    geo.haversine lat1 lon1 lat2 lon2 ≤ 1 ∧
    0 ≤ Float64Ops.sub (Float64Ops.ofInt 1) (geo.haversine lat1 lon1 lat2 lon2) ∧
    0 ≤ geo.Distance lat1 lon1 lat2 lon2 ∧
    geo.Distance lat1 lon1 lat2 lon2 ≤ Real.pi * 6371000 := by
  obtain ⟨h0, h1⟩ := geo.haversine_unit lat1 lon1 lat2 lon2 h1l h1u h2l h2u
  have hlo : 0 ≤ Real.arcsin (Real.sqrt (geo.haversine lat1 lon1 lat2 lon2)) :=
    Real.arcsin_nonneg.mpr (Real.sqrt_nonneg _)
  have hhi := Real.arcsin_le_pi_div_two (Real.sqrt (geo.haversine lat1 lon1 lat2 lon2))
  refine ⟨h0, h1, ?_, ?_, ?_⟩
  · show 0 ≤ ((1 : Int) : ℝ) - geo.haversine lat1 lon1 lat2 lon2
    push_cast
    linarith
  · rw [geo.Distance_real _ _ _ _ h0 h1]
    positivity
  · rw [geo.Distance_real _ _ _ _ h0 h1]
    linarith

/-- Bounds on `cos (4 * u)` from bounds on `cos u`, by the double-angle formula twice. -/
theorem geo.cos_four_mul_bounds (u lo hi : ℝ) (h0 : 0 ≤ lo) (hlo : lo ≤ Real.cos u)
    (hhi : Real.cos u ≤ hi) (h2 : 0 ≤ 2 * lo ^ 2 - 1) :
    2 * (2 * lo ^ 2 - 1) ^ 2 - 1 ≤ Real.cos (4 * u) ∧
    Real.cos (4 * u) ≤ 2 * (2 * hi ^ 2 - 1) ^ 2 - 1 := by
  have e4 : Real.cos (4 * u) = 2 * Real.cos (2 * u) ^ 2 - 1 := by
    rw [← Real.cos_two_mul]
    congr 1
    ring
  have e2 : Real.cos (2 * u) = 2 * Real.cos u ^ 2 - 1 := Real.cos_two_mul u
  have s1 : lo ^ 2 ≤ Real.cos u ^ 2 := pow_le_pow_left₀ h0 hlo 2
  have s2 : Real.cos u ^ 2 ≤ hi ^ 2 := pow_le_pow_left₀ (le_trans h0 hlo) hhi 2
  have d1 : 2 * lo ^ 2 - 1 ≤ Real.cos (2 * u) := by rw [e2]; linarith
  have d2 : Real.cos (2 * u) ≤ 2 * hi ^ 2 - 1 := by rw [e2]; linarith
  have q1 : (2 * lo ^ 2 - 1) ^ 2 ≤ Real.cos (2 * u) ^ 2 := pow_le_pow_left₀ h2 d1 2
  have q2 : Real.cos (2 * u) ^ 2 ≤ (2 * hi ^ 2 - 1) ^ 2 :=
    pow_le_pow_left₀ (le_trans h2 d1) d2 2
  rw [e4]
  constructor <;> linarith

/-- Bounds on `cos u` for `u` in `[lo, hi]` within `[0, 1]`, by the Taylor polynomial of
degree two. -/
theorem geo.cos_taylor_bounds (u lo hi : ℝ) (h0 : 0 ≤ lo) (hlo : lo ≤ u) (hhi : u ≤ hi)
    (h1 : hi ≤ 1) :
    1 - hi ^ 2 / 2 ≤ Real.cos u ∧ Real.cos u ≤ 1 - lo ^ 2 / 2 + hi ^ 4 * (5 / 96) := by
  have hu0 : 0 ≤ u := le_trans h0 hlo
  have habs : |u| ≤ 1 := by rw [abs_of_nonneg hu0]; linarith
  have hb := Real.cos_bound habs
  rw [abs_of_nonneg hu0, abs_le] at hb
  have s1 : lo ^ 2 ≤ u ^ 2 := pow_le_pow_left₀ h0 hlo 2
  have s2 : u ^ 2 ≤ hi ^ 2 := pow_le_pow_left₀ hu0 hhi 2
  have s4 : u ^ 4 ≤ hi ^ 4 := pow_le_pow_left₀ hu0 hhi 4
  constructor
  · have := Real.one_sub_sq_div_two_le_cos (x := u)
    linarith
  · linarith [hb.2]

/-- Bounds on `sin u ^ 2` for `u` in `[lo, hi]` within `(0, 1]`. -/
theorem geo.sin_sq_bounds (u lo hi : ℝ) (h0 : 0 < lo) (hlo : lo ≤ u) (hhi : u ≤ hi)
    (h1 : hi ≤ 1) (hpos : 0 ≤ lo - hi ^ 3 / 4) :
    (lo - hi ^ 3 / 4) ^ 2 ≤ Real.sin u ^ 2 ∧ Real.sin u ^ 2 ≤ hi ^ 2 := by
  have hu0 : 0 < u := lt_of_lt_of_le h0 hlo
  have hlt := Real.sin_lt hu0
  have hgt := Real.sin_gt_sub_cube hu0 (le_trans hhi h1)
  have s3 : u ^ 3 ≤ hi ^ 3 := pow_le_pow_left₀ hu0.le hhi 3
  have hl : lo - hi ^ 3 / 4 ≤ Real.sin u := by linarith
  exact ⟨pow_le_pow_left₀ hpos hl 2, pow_le_pow_left₀ (le_trans hpos hl) (by linarith) 2⟩

/-- The haversine term of the case "Moscow to St. Petersburg" of `TestDistance`. -/
theorem geo.haversine_moscow_petersburg :
    0.0024678 ≤ geo.haversine (5575 / 100 : ℝ) (3762 / 100) (599386 / 10000) (303141 / 10000) ∧
    geo.haversine (5575 / 100 : ℝ) (3762 / 100) (599386 / 10000) (303141 / 10000)
      ≤ 0.0024852 := by
  have hpl := Real.pi_gt_d6
  have hpu := Real.pi_lt_d6
  have hk_l : (0.0174532 : ℝ) ≤ Real.pi / 180 := by linarith
  have hk_u : Real.pi / 180 ≤ (0.0174533 : ℝ) := by linarith
  rw [geo.haversine_real]
  -- the half difference of the latitudes
  have eX : ((599386 / 10000 : ℝ) - 5575 / 100) * (Real.pi / 180) / 2
      = 20943 / 10000 * (Real.pi / 180) := by ring
  -- the half difference of the longitudes, negative
  have eY : ((303141 / 10000 : ℝ) - 3762 / 100) * (Real.pi / 180) / 2
      = -(365295 / 100000 * (Real.pi / 180)) := by ring
  have eP : (5575 / 100 : ℝ) * (Real.pi / 180) = 4 * (139375 / 10000 * (Real.pi / 180)) := by
    ring
  have eQ : (599386 / 10000 : ℝ) * (Real.pi / 180)
      = 4 * (1498465 / 100000 * (Real.pi / 180)) := by ring
  rw [eX, eY, Real.sin_neg, neg_sq, eP, eQ]
  have hX := geo.sin_sq_bounds (20943 / 10000 * (Real.pi / 180)) 0.036552 0.036553
    (by norm_num) (by linarith) (by linarith) (by norm_num) (by norm_num)
  have hY := geo.sin_sq_bounds (365295 / 100000 * (Real.pi / 180)) 0.063755 0.063757
    (by norm_num) (by linarith) (by linarith) (by norm_num) (by norm_num)
  have hP4 := geo.cos_taylor_bounds (139375 / 10000 * (Real.pi / 180)) 0.243254 0.243256
    (by norm_num) (by linarith) (by linarith) (by norm_num)
  have hQ4 := geo.cos_taylor_bounds (1498465 / 100000 * (Real.pi / 180)) 0.261530 0.261532
    (by norm_num) (by linarith) (by linarith) (by norm_num)
  have hP := geo.cos_four_mul_bounds (139375 / 10000 * (Real.pi / 180)) 0.97041 0.9706
    (by norm_num) (le_trans (by norm_num) hP4.1) (le_trans hP4.2 (by norm_num)) (by norm_num)
  have hQ := geo.cos_four_mul_bounds (1498465 / 100000 * (Real.pi / 180)) 0.9658 0.96605
    (by norm_num) (le_trans (by norm_num) hQ4.1) (le_trans hQ4.2 (by norm_num)) (by norm_num)
  have hPl : (0.56075 : ℝ) ≤ Real.cos (4 * (139375 / 10000 * (Real.pi / 180))) :=
    le_trans (by norm_num) hP.1
  have hPu : Real.cos (4 * (139375 / 10000 * (Real.pi / 180))) ≤ (0.56338 : ℝ) :=
    le_trans hP.2 (by norm_num)
  have hQl : (0.49828 : ℝ) ≤ Real.cos (4 * (1498465 / 100000 * (Real.pi / 180))) :=
    le_trans (by norm_num) hQ.1
  have hQu : Real.cos (4 * (1498465 / 100000 * (Real.pi / 180))) ≤ (0.50168 : ℝ) :=
    le_trans hQ.2 (by norm_num)
  have hXl : (0.0013344 : ℝ) ≤ Real.sin (20943 / 10000 * (Real.pi / 180)) ^ 2 :=
    le_trans (by norm_num) hX.1
  have hXu : Real.sin (20943 / 10000 * (Real.pi / 180)) ^ 2 ≤ (0.0013362 : ℝ) :=
    le_trans hX.2 (by norm_num)
  have hYl : (0.0040564 : ℝ) ≤ Real.sin (365295 / 100000 * (Real.pi / 180)) ^ 2 :=
    le_trans (by norm_num) hY.1
  have hYu : Real.sin (365295 / 100000 * (Real.pi / 180)) ^ 2 ≤ (0.0040650 : ℝ) :=
    le_trans hY.2 (by norm_num)
  -- the product of the three factors of the second term
  have m1l : (0.0040564 : ℝ) * 0.56075 ≤
      Real.sin (365295 / 100000 * (Real.pi / 180)) ^ 2 *
        Real.cos (4 * (139375 / 10000 * (Real.pi / 180))) :=
    mul_le_mul hYl hPl (by norm_num) (le_trans (by norm_num) hYl)
  have m1u : Real.sin (365295 / 100000 * (Real.pi / 180)) ^ 2 *
        Real.cos (4 * (139375 / 10000 * (Real.pi / 180))) ≤ (0.0040650 : ℝ) * 0.56338 :=
    mul_le_mul hYu hPu (le_trans (by norm_num) hPl) (by norm_num)
  have m2l : (0.0040564 : ℝ) * 0.56075 * 0.49828 ≤
      Real.sin (365295 / 100000 * (Real.pi / 180)) ^ 2 *
        Real.cos (4 * (139375 / 10000 * (Real.pi / 180))) *
        Real.cos (4 * (1498465 / 100000 * (Real.pi / 180))) :=
    mul_le_mul m1l hQl (by norm_num) (le_trans (by norm_num) m1l)
  have m2u : Real.sin (365295 / 100000 * (Real.pi / 180)) ^ 2 *
        Real.cos (4 * (139375 / 10000 * (Real.pi / 180))) *
        Real.cos (4 * (1498465 / 100000 * (Real.pi / 180)))
      ≤ (0.0040650 : ℝ) * 0.56338 * 0.50168 :=
    mul_le_mul m1u hQu (le_trans (by norm_num) hQl) (by norm_num)
  constructor
  · have : (0.0024678 : ℝ) ≤ 0.0013344 + 0.0040564 * 0.56075 * 0.49828 := by norm_num
    linarith
  · have : (0.0013362 : ℝ) + 0.0040650 * 0.56338 * 0.50168 ≤ 0.0024852 := by norm_num
    linarith

/-- The case "Moscow to St. Petersburg" of `TestDistance`, over the reals:
`Distance(55.75, 37.62, 59.9386, 30.3141)` is within 5000 of 634000. -/
theorem geo.Distance_is_haversine_witness :
    |geo.Distance (5575 / 100 : ℝ) (3762 / 100) (599386 / 10000) (303141 / 10000) - 634000|
      ≤ 5000 := by
  obtain ⟨-, -, hD⟩ := geo.Distance_is_haversine (5575 / 100) (3762 / 100) (599386 / 10000)
    (303141 / 10000) (by norm_num) (by norm_num) (by norm_num) (by norm_num)
  obtain ⟨hal, hau⟩ := geo.haversine_moscow_petersburg
  have hpl := Real.pi_gt_d6
  rw [hD]
  generalize geo.haversine (5575 / 100 : ℝ) (3762 / 100) (599386 / 10000) (303141 / 10000)
    = a at hal hau
  have ha0 : 0 ≤ a := le_trans (by norm_num) hal
  have hs0 : 0 ≤ Real.sqrt a := Real.sqrt_nonneg a
  have hs1 : Real.sqrt a ≤ 1 := Real.sqrt_le_iff.mpr ⟨by norm_num, by linarith⟩
  have hlo : (0.04937 : ℝ) ≤ Real.arcsin (Real.sqrt a) := by
    rw [Real.le_arcsin_iff_sin_le ⟨by linarith, by linarith⟩ ⟨by linarith, hs1⟩]
    have h1 : Real.sin (0.04937 : ℝ) ≤ 0.04937 := (Real.sin_lt (by norm_num)).le
    have h2 : (0.04937 : ℝ) ≤ Real.sqrt a :=
      (Real.le_sqrt (by norm_num) ha0).mpr (le_trans (by norm_num) hal)
    exact le_trans h1 h2
  have hhi : Real.arcsin (Real.sqrt a) ≤ (0.05014 : ℝ) := by
    rw [Real.arcsin_le_iff_le_sin ⟨by linarith, hs1⟩ ⟨by linarith, by linarith⟩]
    have h1 : (0.05014 : ℝ) - 0.05014 ^ 3 / 4 < Real.sin (0.05014 : ℝ) :=
      Real.sin_gt_sub_cube (by norm_num) (by norm_num)
    have h2 : Real.sqrt a ≤ (0.0501 : ℝ) :=
      Real.sqrt_le_iff.mpr ⟨by norm_num, le_trans hau (by norm_num)⟩
    have h3 : (0.0501 : ℝ) ≤ 0.05014 - 0.05014 ^ 3 / 4 := by norm_num
    linarith
  rw [abs_le]
  constructor <;> linarith

/-! ## `webhook.TaskHandler`: delivery -/

/-- What `ProcessTask` returns once the payload is parsed, marshalled again and the request
is built: the outcome of `Do` and the status code decide. -/
theorem webhook.ProcessTask_of_request {F B σ : Type} (h : webhook.TaskHandler F B σ)
    (t : asynq.Task B) (w : webhook.World B σ) (payload : queue.WebhookPayload F) (body : B)
    (req : http.Request B)
    (hparse : h.json.Unmarshal t.payload = (payload, none))
    (hbody : h.json.Marshal payload = (body, none))
    (hreq : h.NewRequest "POST" h.webhookURL body = (req, none)) :
    (webhook.ProcessTask h t w).1 =
      match h.Do { req with header := req.header ++ [("Content-Type", "application/json")] }
          w.backend with
      | ((_, some err), _) => some (Error.Wrap "webhook request failed" err)
      | ((resp, none), _) =>
        if resp.StatusCode < 200 || resp.StatusCode >= 300 then
          some (Error.New ("webhook request failed with status: " ++ toString resp.StatusCode))
        else none := by
  unfold webhook.ProcessTask
  rw [hparse]
  simp only [hbody, hreq, webhook.World.log]
  rcases h.Do { req with header := req.header ++ [("Content-Type", "application/json")] }
    w.backend with ⟨⟨resp, _ | err⟩, b⟩
  · simp only
    split <;> rfl
  · rfl

/-- C21: for a task whose payload parses, `ProcessTask` returns nil if and only if the
payload was marshalled, the POST request was built and sent, `Do` returned a response without
error, and its status code `s` has `200 <= s <= 299`. For a network error `ProcessTask` returns
the error wrapped, and for a status outside that range an error naming the status; neither
is `asynq.SkipRetry` for `errors.Is`, the errors of the HTTP client not being that variable. -/
theorem webhook.ProcessTask_success_iff {F B σ : Type} (h : webhook.TaskHandler F B σ)
    (t : asynq.Task B) (w : webhook.World B σ) (payload : queue.WebhookPayload F)
    (hparse : h.json.Unmarshal t.payload = (payload, none))
    (hnet : ∀ req b resp err b2, h.Do req b = ((resp, some err), b2) →
      Error.Is err asynq.SkipRetry = false) :
    ((webhook.ProcessTask h t w).1 = none ↔
      ∃ body req resp b,
        h.json.Marshal payload = (body, none) ∧
        h.NewRequest "POST" h.webhookURL body = (req, none) ∧
        h.Do { req with header := req.header ++ [("Content-Type", "application/json")] }
          w.backend = ((resp, none), b) ∧
        200 ≤ resp.StatusCode ∧ resp.StatusCode ≤ 299) ∧
    (∀ body req, h.json.Marshal payload = (body, none) →
      h.NewRequest "POST" h.webhookURL body = (req, none) →
      (∀ resp err b,
        h.Do { req with header := req.header ++ [("Content-Type", "application/json")] }
          w.backend = ((resp, some err), b) →
        (webhook.ProcessTask h t w).1 = some (Error.Wrap "webhook request failed" err) ∧
        Error.Is (Error.Wrap "webhook request failed" err) asynq.SkipRetry = false) ∧
      (∀ resp b,
        h.Do { req with header := req.header ++ [("Content-Type", "application/json")] }
          w.backend = ((resp, none), b) →
        resp.StatusCode < 200 ∨ 299 < resp.StatusCode →
        (webhook.ProcessTask h t w).1 =
          some (Error.New
            ("webhook request failed with status: " ++ toString resp.StatusCode)) ∧
        Error.Is
          (Error.New ("webhook request failed with status: " ++ toString resp.StatusCode))
          asynq.SkipRetry = false)) := by
  constructor
  · constructor
    · intro hnil
      rcases hm : h.json.Marshal payload with ⟨body, _ | merr⟩
      · rcases hr : h.NewRequest "POST" h.webhookURL body with ⟨req, _ | rerr⟩
        · rw [webhook.ProcessTask_of_request h t w payload body req hparse hm hr] at hnil
          rcases hd : h.Do
            { req with header := req.header ++ [("Content-Type", "application/json")] }
            w.backend with ⟨⟨resp, _ | err⟩, b⟩
          · rw [hd] at hnil
            simp only at hnil
            by_cases hs : (resp.StatusCode < 200 || resp.StatusCode >= 300) = true
            · rw [if_pos hs] at hnil
              exact absurd hnil (by simp)
            · refine ⟨body, req, resp, b, rfl, hr, hd, ?_⟩
              simp only [Bool.or_eq_true, decide_eq_true_eq, not_or, not_lt, ge_iff_le,
                not_le] at hs
              omega
          · rw [hd] at hnil
            exact absurd hnil (by simp)
        · unfold webhook.ProcessTask at hnil
          rw [hparse] at hnil
          simp only [hm, hr] at hnil
          exact absurd hnil (by simp)
      · unfold webhook.ProcessTask at hnil
        rw [hparse] at hnil
        simp only [hm] at hnil
        exact absurd hnil (by simp)
    · rintro ⟨body, req, resp, b, hm, hr, hd, hlo, hhi⟩
      rw [webhook.ProcessTask_of_request h t w payload body req hparse hm hr, hd]
      simp only
      rw [if_neg]
      simp only [Bool.or_eq_true, decide_eq_true_eq, not_or, not_lt, ge_iff_le, not_le]
      omega
  · intro body req hm hr
    refine ⟨?_, ?_⟩
    · intro resp err b hd
      rw [webhook.ProcessTask_of_request h t w payload body req hparse hm hr, hd]
      refine ⟨rfl, ?_⟩
      have := hnet _ _ _ _ _ hd
      simp [Error.Is, asynq.SkipRetry] at this ⊢
      exact this
    · intro resp b hd hs
      rw [webhook.ProcessTask_of_request h t w payload body req hparse hm hr, hd]
      simp only
      rw [if_pos]
      · exact ⟨rfl, by simp [Error.Is, asynq.SkipRetry]⟩
      · simp only [Bool.or_eq_true, decide_eq_true_eq, ge_iff_le]
        omega

/-- A parseable task against a webhook that answers 204 is delivered; against one that
answers 199, 300, 404 or 500 `ProcessTask` returns an error. -/
theorem webhook.ProcessTask_success_iff_witness :
    (webhook.ProcessTask (webhook.testHandler ℝ 204)
      { typename := "webhook:danger", payload := Sum.inl default }
      { backend := (), requests := [], logs := [] }).1 = none ∧
    (∀ s ∈ [(199 : Int), 300, 404, 500],
      (webhook.ProcessTask (webhook.testHandler ℝ s)
        { typename := "webhook:danger", payload := Sum.inl default }
        { backend := (), requests := [], logs := [] }).1 =
        some (Error.New ("webhook request failed with status: " ++ toString s))) := by
  have hnet : ∀ (s : Int) (req : http.Request (queue.WebhookPayload ℝ ⊕ String)) (b : Unit)
      (resp : http.Response) (err : Error) (b2 : Unit),
      (webhook.testHandler ℝ s).Do req b = ((resp, some err), b2) →
      Error.Is err asynq.SkipRetry = false := by
    intro s req b resp err b2 hd
    simp [webhook.testHandler] at hd
  constructor
  · exact (webhook.ProcessTask_success_iff (webhook.testHandler ℝ 204)
      { typename := "webhook:danger", payload := Sum.inl default }
      { backend := (), requests := [], logs := [] } default rfl (hnet 204)).1.mpr
      ⟨_, _, _, _, rfl, rfl, rfl, by decide, by decide⟩
  · intro s hs
    refine ((webhook.ProcessTask_success_iff (webhook.testHandler ℝ s)
      { typename := "webhook:danger", payload := Sum.inl default }
      { backend := (), requests := [], logs := [] } default rfl (hnet s)).2 _ _ rfl rfl).2
      _ _ rfl ?_ |>.1
    simp only [List.mem_cons, List.mem_singleton, List.not_mem_nil, or_false] at hs
    show s < 200 ∨ 299 < s
    rcases hs with rfl | rfl | rfl | rfl <;> decide

/-! ## The cache repository on a key-value server -/

/-- What `GetActiveIncidents` returns: the fault of the server when there is one, and
otherwise what the entry decides. -/
theorem cache.Repo.GetActiveIncidents_result {F B : Type} (r : cache.Repo F B)
    (c : redis.Client B) :
    (∀ text rest, c.faults = some text :: rest →
      (cache.Repo.GetActiveIncidents r c).1 = (Slice.nil, some (Error.New text))) ∧
    (c.quiet 1 →
      (cache.Repo.GetActiveIncidents r c).1 =
        match c.data cache.KeyActiveIncidents with
        | none => (Slice.nil, some errs.ErrCacheMiss)
        | some (val, _) =>
          match r.json.Unmarshal val with
          | (_, some err) => (Slice.nil, some (Error.Wrap "failed to unmarshal cache" err))
          | (res, none) => (res, none)) := by
  constructor
  · intro text rest hf
    obtain ⟨data, faults⟩ := c
    simp only at hf
    subst hf
    simp [cache.Repo.GetActiveIncidents, redis.Client.Get, redis.Client.exec, redis.Nil]
  · intro hq
    unfold cache.Repo.GetActiveIncidents redis.Client.Get
    rw [redis.Client.command_quiet c hq]
    simp only
    rcases hd : c.data cache.KeyActiveIncidents with _ | ⟨val, ttl⟩
    · simp
    · simp only
      rcases r.json.Unmarshal val with ⟨res, _ | err⟩ <;> rfl

/-- `GetActiveIncidents` returns `ErrCacheMiss` only when there is no entry. -/
theorem cache.Repo.GetActiveIncidents_miss {F B : Type} (r : cache.Repo F B)
    (c : redis.Client B)
    (h : (cache.Repo.GetActiveIncidents r c).1.2 = some errs.ErrCacheMiss) :
    c.data cache.KeyActiveIncidents = none := by
  obtain ⟨hfault, hquiet⟩ := cache.Repo.GetActiveIncidents_result r c
  rcases redis.Client.command_cases c with hx | ⟨text, rest, hf, _⟩
  · have hq : c.quiet 1 := by
      intro f hf
      obtain ⟨data, faults⟩ := c
      cases faults with
      | nil => simp at hf
      | cons g rest =>
        simp only [List.take_succ_cons, List.take_zero, List.mem_singleton] at hf
        subst hf
        cases f with
        | none => rfl
        | some text => simp [redis.Client.exec] at hx
    rw [hquiet hq] at h
    rcases hd : c.data cache.KeyActiveIncidents with _ | ⟨val, ttl⟩
    · rfl
    · rw [hd] at h
      simp only at h
      rcases hu : r.json.Unmarshal val with ⟨res, _ | err⟩
      · rw [hu] at h
        simp at h
      · rw [hu] at h
        simp [errs.ErrCacheMiss] at h
  · rw [hfault text rest hf] at h
    simp [errs.ErrCacheMiss] at h

/-- `SetActiveIncidents` returns nil exactly when it has replaced the entry by the marshalled
list with the configured TTL; when it returns an error the entries are as before. -/
theorem cache.Repo.SetActiveIncidents_result {F B : Type} (r : cache.Repo F B)
    (incidents : Slice (models.IncidentShort F)) (c : redis.Client B) :
    ((cache.Repo.SetActiveIncidents r incidents c).1 = none →
      ∃ val, r.json.Marshal incidents = (val, none) ∧
        (cache.Repo.SetActiveIncidents r incidents c).2.data =
          fun k => if k = cache.KeyActiveIncidents then some (val, r.IncidentsTTL)
            else c.data k) ∧
    ((cache.Repo.SetActiveIncidents r incidents c).1 ≠ none →
      (cache.Repo.SetActiveIncidents r incidents c).2.data = c.data) := by
  unfold cache.Repo.SetActiveIncidents redis.Client.Set
  rcases hm : r.json.Marshal incidents with ⟨val, _ | err⟩
  · simp only
    rcases redis.Client.command_cases c with h | ⟨text, rest, hf, h⟩
    · rw [h]
      exact ⟨fun _ => ⟨val, rfl, rfl⟩, fun hne => absurd rfl hne⟩
    · rw [h]
      exact ⟨fun hnone => by simp at hnone, fun _ => rfl⟩
  · exact ⟨fun hnone => by simp at hnone, fun _ => rfl⟩

/-- While no `SetActiveIncidents` succeeds, an absent entry stays absent. -/
theorem cache.Repo.run_absent {F B : Type} (r : cache.Repo F B) (ops : List (cache.Op F)) :
    ∀ c : redis.Client B, c.data cache.KeyActiveIncidents = none →
      r.allFail cache.Op.isSet c ops →
      (r.run c ops).data cache.KeyActiveIncidents = none := by
  induction ops with
  | nil => intro c hc _; exact hc
  | cons op ops ih =>
    intro c hc hall
    obtain ⟨hop, hrest⟩ := hall
    show (r.run (r.step c op).2 ops).data cache.KeyActiveIncidents = none
    apply ih _ _ hrest
    cases op with
    | Get =>
      show (cache.Repo.GetActiveIncidents r c).2.data cache.KeyActiveIncidents = none
      rw [(cache.Repo.GetActiveIncidents_cases r c).1]
      exact hc
    | Set incidents =>
      have hne := hop rfl
      show (cache.Repo.SetActiveIncidents r incidents c).2.data cache.KeyActiveIncidents = none
      rw [(cache.Repo.SetActiveIncidents_result r incidents c).2 hne]
      exact hc
    | Invalidate =>
      show (cache.Repo.InvalidateActiveIncidents r c).2.data cache.KeyActiveIncidents = none
      rcases cache.Repo.InvalidateActiveIncidents_cases r c with ⟨_, hd⟩ | ⟨_, hd⟩
      · rw [hd]; exact hc
      · rw [hd]; simp
    | Expire => simp [cache.Repo.step, redis.Client.expire]

/-- While every operation apart from reads fails, the entry stays as it is. -/
theorem cache.Repo.run_kept {F B : Type} (r : cache.Repo F B) (ops : List (cache.Op F)) :
    ∀ c : redis.Client B, r.allFail cache.Op.isWrite c ops →
      (r.run c ops).data = c.data := by
  induction ops with
  | nil => intro c _; rfl
  | cons op ops ih =>
    intro c hall
    obtain ⟨hop, hrest⟩ := hall
    show (r.run (r.step c op).2 ops).data = c.data
    rw [ih _ hrest]
    cases op with
    | Get => exact (cache.Repo.GetActiveIncidents_cases r c).1
    | Set incidents => exact (cache.Repo.SetActiveIncidents_result r incidents c).2 (hop rfl)
    | Invalidate =>
      have hne := hop rfl
      rcases cache.Repo.InvalidateActiveIncidents_cases r c with ⟨_, hd⟩ | ⟨hnone, _⟩
      · exact hd
      · exact absurd hnone hne
    | Expire => exact absurd rfl (hop rfl)

/-- C23: over a key-value server, `GetActiveIncidents` returns `ErrCacheMiss` only when the key
"incidents:active" is absent, and, when the command itself does not fail, whenever it is
absent; a failure of the server and a failure to decode the entry are returned as errors
other than `ErrCacheMiss`. After an `InvalidateActiveIncidents` that returned nil, whatever
the server held, and through every sequence of operations in which no `SetActiveIncidents`
succeeds, the key is absent: `GetActiveIncidents` never returns a list, and returns
`ErrCacheMiss` when the command does not fail. -/
theorem cache.Repo.miss_iff_absent {F B : Type} (r : cache.Repo F B) (c : redis.Client B) :
    ((cache.Repo.GetActiveIncidents r c).1.2 = some errs.ErrCacheMiss →
      c.data cache.KeyActiveIncidents = none) ∧
    (c.quiet 1 → c.data cache.KeyActiveIncidents = none →
      (cache.Repo.GetActiveIncidents r c).1 = (Slice.nil, some errs.ErrCacheMiss)) ∧
    (∀ text rest, c.faults = some text :: rest →
      (cache.Repo.GetActiveIncidents r c).1 = (Slice.nil, some (Error.New text)) ∧
      Error.Is (Error.New text) errs.ErrCacheMiss = false) ∧
    (∀ val ttl leftover err, c.quiet 1 →
      c.data cache.KeyActiveIncidents = some (val, ttl) →
      r.json.Unmarshal val = (leftover, some err) →
      (cache.Repo.GetActiveIncidents r c).1 =
        (Slice.nil, some (Error.Wrap "failed to unmarshal cache" err)) ∧
      Error.Wrap "failed to unmarshal cache" err ≠ errs.ErrCacheMiss) ∧
    ((cache.Repo.InvalidateActiveIncidents r c).1 = none →
      ∀ ops, r.allFail cache.Op.isSet (cache.Repo.InvalidateActiveIncidents r c).2 ops →
        (r.run (cache.Repo.InvalidateActiveIncidents r c).2 ops).data cache.KeyActiveIncidents
          = none ∧
        (∀ incidents,
          (cache.Repo.GetActiveIncidents r
            (r.run (cache.Repo.InvalidateActiveIncidents r c).2 ops)).1 ≠ (incidents, none)) ∧
        ((r.run (cache.Repo.InvalidateActiveIncidents r c).2 ops).quiet 1 →
          (cache.Repo.GetActiveIncidents r
            (r.run (cache.Repo.InvalidateActiveIncidents r c).2 ops)).1
            = (Slice.nil, some errs.ErrCacheMiss))) := by
  obtain ⟨hfault, hquiet⟩ := cache.Repo.GetActiveIncidents_result r c
  refine ⟨cache.Repo.GetActiveIncidents_miss r c, ?_, ?_, ?_, ?_⟩
  · intro hq hd
    rw [hquiet hq, hd]
  · intro text rest hf
    exact ⟨hfault text rest hf, by simp [Error.Is, errs.ErrCacheMiss]⟩
  · intro val ttl leftover err hq hd hu
    rw [hquiet hq, hd]
    refine ⟨?_, by simp [errs.ErrCacheMiss]⟩
    simp only [hu]
  · intro hinv ops hall
    have hdrop : (cache.Repo.InvalidateActiveIncidents r c).2.data cache.KeyActiveIncidents
        = none := by
      rcases cache.Repo.InvalidateActiveIncidents_cases r c with ⟨⟨text, he⟩, _⟩ | ⟨_, hd⟩
      · rw [hinv] at he
        exact Option.noConfusion he
      · rw [hd]; simp
    have habs := cache.Repo.run_absent r ops _ hdrop hall
    refine ⟨habs, ?_, ?_⟩
    · intro incidents hget
      obtain ⟨val, ttl, hval, _⟩ :=
        (cache.Repo.GetActiveIncidents_cases r _).2.1 incidents hget
      rw [habs] at hval
      exact Option.noConfusion hval
    · intro hq
      rw [(cache.Repo.GetActiveIncidents_result r _).2 hq, habs]

/-- The cache of the test backend, whose entry lists the incident 1: the read returns the
list; after an invalidation, a read, an expiry, a further invalidation and a read, the read
returns `ErrCacheMiss`. -/
theorem cache.Repo.miss_iff_absent_witness :
    (cache.Repo.GetActiveIncidents (app.testCache ℝ) (app.testBackend ℝ []).cache).1
      = (Slice.mk [location.testIncident ℝ], none) ∧
    (cache.Repo.GetActiveIncidents (app.testCache ℝ)
      ((app.testCache ℝ).run
        (cache.Repo.InvalidateActiveIncidents (app.testCache ℝ) (app.testBackend ℝ []).cache).2
        [cache.Op.Get, cache.Op.Expire, cache.Op.Invalidate, cache.Op.Get])).1
      = (Slice.nil, some errs.ErrCacheMiss) :=
  ⟨rfl,
    ((cache.Repo.miss_iff_absent (app.testCache ℝ) (app.testBackend ℝ []).cache).2.2.2.2 rfl
      [cache.Op.Get, cache.Op.Expire, cache.Op.Invalidate, cache.Op.Get]
      ⟨fun h => by simp [cache.Op.isSet] at h, fun h => by simp [cache.Op.isSet] at h,
        fun h => by simp [cache.Op.isSet] at h, fun h => by simp [cache.Op.isSet] at h,
        trivial⟩).2.2
      (by intro f hf; simp [cache.Repo.run, cache.Repo.step, cache.Repo.InvalidateActiveIncidents,
            cache.Repo.GetActiveIncidents, redis.Client.Del, redis.Client.Get,
            redis.Client.exec, redis.Client.expire, app.testBackend] at hf)⟩

/-- C24: given that `encoding/json` reads a list it has marshalled back as the same list,
after a `SetActiveIncidents(L)` that returned nil the entry of the key is the marshalled `L`
with the TTL `IncidentsTTL`, whatever was stored before, and the other keys are as before.
Through every sequence of operations in which every write fails and the entry does not
expire, `GetActiveIncidents` returns `L` itself when the command does not fail, and never
another list. -/
theorem cache.Repo.Set_then_Get {F B : Type} (r : cache.Repo F B)
    (hjson : ∀ L val, r.json.Marshal L = (val, none) → r.json.Unmarshal val = (L, none))
    (incidents : Slice (models.IncidentShort F)) (c : redis.Client B)
    (hset : (cache.Repo.SetActiveIncidents r incidents c).1 = none) :
    (∃ val, r.json.Marshal incidents = (val, none) ∧
      (cache.Repo.SetActiveIncidents r incidents c).2.data =
        fun k => if k = cache.KeyActiveIncidents then some (val, r.IncidentsTTL)
          else c.data k) ∧
    ∀ ops, r.allFail cache.Op.isWrite (cache.Repo.SetActiveIncidents r incidents c).2 ops →
      ((r.run (cache.Repo.SetActiveIncidents r incidents c).2 ops).quiet 1 →
        (cache.Repo.GetActiveIncidents r
          (r.run (cache.Repo.SetActiveIncidents r incidents c).2 ops)).1 = (incidents, none)) ∧
      (∀ other,
        (cache.Repo.GetActiveIncidents r
          (r.run (cache.Repo.SetActiveIncidents r incidents c).2 ops)).1 = (other, none) →
        other = incidents) := by
  obtain ⟨val, hm, hd⟩ := (cache.Repo.SetActiveIncidents_result r incidents c).1 hset
  refine ⟨⟨val, hm, hd⟩, ?_⟩
  intro ops hall
  have hkept := cache.Repo.run_kept r ops _ hall
  have hentry : (r.run (cache.Repo.SetActiveIncidents r incidents c).2 ops).data
      cache.KeyActiveIncidents = some (val, r.IncidentsTTL) := by
    rw [hkept, hd]
    simp
  constructor
  · intro hq
    rw [(cache.Repo.GetActiveIncidents_result r _).2 hq, hentry]
    simp only [hjson incidents val hm]
  · intro other hget
    obtain ⟨val2, ttl, hval, hu⟩ := (cache.Repo.GetActiveIncidents_cases r _).2.1 other hget
    rw [hentry] at hval
    simp only [Option.some.injEq, Prod.mk.injEq] at hval
    rw [← hval.1, hjson incidents val hm] at hu
    exact ((Prod.mk.inj hu).1).symm

/-- The cache of the test backend, whose entry lists the incident 1: after
`SetActiveIncidents` of the empty list and two reads, a read returns the empty list; after
`SetActiveIncidents` of two incidents, a read returns the two in their order. -/
theorem cache.Repo.Set_then_Get_witness :
    (cache.Repo.SetActiveIncidents (app.testCache ℝ) (Slice.mk [])
      (app.testBackend ℝ []).cache).1 = none ∧
    (cache.Repo.GetActiveIncidents (app.testCache ℝ)
      ((app.testCache ℝ).run
        (cache.Repo.SetActiveIncidents (app.testCache ℝ) (Slice.mk [])
          (app.testBackend ℝ []).cache).2
        [cache.Op.Get, cache.Op.Get])).1 = (Slice.mk [], none) ∧
    (cache.Repo.GetActiveIncidents (app.testCache ℝ)
      ((app.testCache ℝ).run
        (cache.Repo.SetActiveIncidents (app.testCache ℝ)
          (Slice.mk [location.fullFlowIncident ℝ, location.testIncident ℝ])
          (app.testBackend ℝ []).cache).2
        [])).1 = (Slice.mk [location.fullFlowIncident ℝ, location.testIncident ℝ], none) := by
  have hjson : ∀ (L : Slice (models.IncidentShort ℝ)) val,
      (app.testCache ℝ).json.Marshal L = (val, none) →
      (app.testCache ℝ).json.Unmarshal val = (L, none) := by
    intro L val hm
    have hval : val = Sum.inl L := ((Prod.mk.inj hm).1).symm
    subst hval
    rfl
  refine ⟨rfl, ?_, ?_⟩
  · exact ((cache.Repo.Set_then_Get (app.testCache ℝ) hjson (Slice.mk [])
      (app.testBackend ℝ []).cache rfl).2 [cache.Op.Get, cache.Op.Get]
      ⟨fun h => by simp [cache.Op.isWrite] at h, fun h => by simp [cache.Op.isWrite] at h,
        trivial⟩).1
      (by intro f hf; simp [cache.Repo.run, cache.Repo.step, cache.Repo.SetActiveIncidents,
            cache.Repo.GetActiveIncidents, redis.Client.Set, redis.Client.Get,
            redis.Client.exec, app.testBackend, app.testCache, json.parsed] at hf)
  · exact ((cache.Repo.Set_then_Get (app.testCache ℝ) hjson
      (Slice.mk [location.fullFlowIncident ℝ, location.testIncident ℝ])
      (app.testBackend ℝ []).cache rfl).2 [] trivial).1
      (by intro f hf; simp [cache.Repo.run, cache.Repo.SetActiveIncidents,
            redis.Client.Set, redis.Client.exec, app.testBackend, app.testCache,
            json.parsed] at hf)

/-! ## The queue message from producer to consumer -/

/-- The codec of `queue.WebhookPayload` reads what it wrote for finite coordinates: the
object with the members `user_id`, `latitude` and `longitude`. -/
theorem json.webhookCodec_roundtrip {F : Type} [Float64Ops F] (finite : F → Bool)
    (userID : String) (latitude longitude : F) (hlat : finite latitude = true)
    (hlon : finite longitude = true) :
    (json.webhookCodec finite).Marshal
        { UserID := userID, Latitude := latitude, Longitude := longitude }
      = (json.Document.object
          [("user_id", json.Value.str userID), ("latitude", json.Value.num latitude),
            ("longitude", json.Value.num longitude)], none) ∧
    (json.webhookCodec finite).Unmarshal
        (json.Document.object
          [("user_id", json.Value.str userID), ("latitude", json.Value.num latitude),
            ("longitude", json.Value.num longitude)])
      = ({ UserID := userID, Latitude := latitude, Longitude := longitude }, none) := by
  have h1 : json.nameMatches "user_id" "user_id" = true := by decide
  have h2 : json.nameMatches "latitude" "user_id" = false := by decide
  have h3 : json.nameMatches "latitude" "latitude" = true := by decide
  have h4 : json.nameMatches "longitude" "user_id" = false := by decide
  have h5 : json.nameMatches "longitude" "latitude" = false := by decide
  have h6 : json.nameMatches "longitude" "longitude" = true := by decide
  constructor
  · simp [json.webhookCodec, hlat, hlon]
  · simp [json.webhookCodec, queue.WebhookPayload.setMember, h1, h2, h3, h4, h5, h6]

/-- C22: with `encoding/json` on `queue.WebhookPayload` as its struct tags describe it, for
every user id and finite latitude and longitude: `EnqueueDangerAlert` enqueues one task of
type "webhook:danger" with the options `MaxRetry(maxRetries)` and `Timeout(timeout)`, whose
payload is the object with the members `user_id`, `latitude` and `longitude` holding the three
values; `ProcessTask` parses that payload back to the same three values, and the body of the
POST request it builds is the object with the same three members. -/
theorem queue.payload_roundtrip {F σ τ : Type} [Float64Ops F] (finite : F → Bool)
    (q : queue.Client F (json.Document F) σ) (h : webhook.TaskHandler F (json.Document F) τ)
    (hq : q.json = json.webhookCodec finite) (hh : h.json = json.webhookCodec finite)
    (userID : String) (latitude longitude : F) (hlat : finite latitude = true)
    (hlon : finite longitude = true) :
    (∀ b, q.EnqueueDangerAlert userID latitude longitude b =
      match q.EnqueueContext
          { typename := "webhook:danger"
            payload := json.Document.object
              [("user_id", json.Value.str userID), ("latitude", json.Value.num latitude),
                ("longitude", json.Value.num longitude)] }
          [asynq.Opt.MaxRetry q.maxRetries, asynq.Opt.Timeout q.timeout] b with
      | (some err, b) => (some (Error.Wrap "failed to enqueue task" err), b)
      | (none, b) => (none, b)) ∧
    h.json.Unmarshal
        (json.Document.object
          [("user_id", json.Value.str userID), ("latitude", json.Value.num latitude),
            ("longitude", json.Value.num longitude)])
      = ({ UserID := userID, Latitude := latitude, Longitude := longitude }, none) ∧
    (∀ (t : asynq.Task (json.Document F)) (w : webhook.World (json.Document F) τ)
      (req : http.Request (json.Document F)),
      t.payload = json.Document.object
        [("user_id", json.Value.str userID), ("latitude", json.Value.num latitude),
          ("longitude", json.Value.num longitude)] →
      h.NewRequest "POST" h.webhookURL
        (json.Document.object
          [("user_id", json.Value.str userID), ("latitude", json.Value.num latitude),
            ("longitude", json.Value.num longitude)]) = (req, none) →
      (webhook.ProcessTask h t w).2.requests =
        w.requests ++ [{ req with header := req.header ++ [("Content-Type", "application/json")] }])
    := by
  obtain ⟨hm, hu⟩ := json.webhookCodec_roundtrip finite userID latitude longitude hlat hlon
  refine ⟨?_, ?_, ?_⟩
  · intro b
    unfold queue.Client.EnqueueDangerAlert
    rw [hq, hm]
    rfl
  · rw [hh]
    exact hu
  · intro t w req ht hreq
    rw [← hh] at hm hu
    rw [← ht] at hu
    unfold webhook.ProcessTask
    rw [hu]
    simp only [hm, hreq, webhook.World.log]
    rcases h.Do { req with header := req.header ++ [("Content-Type", "application/json")] }
      w.backend with ⟨⟨resp, _ | err⟩, b⟩
    · simp only
      split <;> simp [webhook.closeBody, webhook.World.log] <;> split <;> rfl
    · rfl

/-- The run of a producer with `maxRetries = 3` and a timeout of 30 s, and of a consumer whose
webhook answers 200, for the user "u1" at (55.7558, 37.6173). -/
theorem queue.payload_roundtrip_witness :
    (queue.testClient ℝ (fun _ => true) 3 30000000000).EnqueueDangerAlert "u1"
        (557558 / 10000) (376173 / 10000) []
      = (none,
          [({ typename := "webhook:danger"
              payload := json.Document.object
                [("user_id", json.Value.str "u1"), ("latitude", json.Value.num (557558 / 10000)),
                  ("longitude", json.Value.num (376173 / 10000))] },
            [asynq.Opt.MaxRetry 3, asynq.Opt.Timeout 30000000000])]) ∧
    (webhook.ProcessTask (webhook.jsonHandler ℝ (fun _ => true) 200)
        { typename := "webhook:danger"
          payload := json.Document.object
            [("user_id", json.Value.str "u1"), ("latitude", json.Value.num (557558 / 10000)),
              ("longitude", json.Value.num (376173 / 10000))] }
        { backend := (), requests := [], logs := [] }).2.requests
      = [{ method := "POST"
           url := "http://localhost:9090"
           header := [("Content-Type", "application/json")]
           body := json.Document.object
             [("user_id", json.Value.str "u1"), ("latitude", json.Value.num (557558 / 10000)),
               ("longitude", json.Value.num (376173 / 10000))] }] := by
  have h := queue.payload_roundtrip (fun _ => true)
    (queue.testClient ℝ (fun _ => true) 3 30000000000)
    (webhook.jsonHandler ℝ (fun _ => true) 200) rfl rfl "u1" (557558 / 10000) (376173 / 10000)
    rfl rfl
  refine ⟨?_, ?_⟩
  · rw [h.1]
    rfl
  · rw [h.2.2 _ _ _ rfl rfl]
    rfl

/-! ## `Handler.list` without query parameters -/

/-- A query without the parameter binds the field to the value it had. -/
theorem gin.bindInt_absent (query : gin.Query) (name : String) (field : Int)
    (h : query.lookup name = none) : gin.bindInt query name field = Except.ok field := by
  unfold gin.bindInt
  rw [h]

/-- C27: for a request that omits `limit`, `Handler.list` calls `Service.List` with limit 0,
the zero value that `ShouldBindQuery` leaves in `ListReq.Limit`, and not with the limit 10 of
its documentation; for a request that omits `offset` it lists with offset 0. Without any
parameter the call is `List(0, 0)`, and on the store the listing is then empty whatever the
table holds. -/
theorem incident.Handler.list_without_parameters {F σ : Type} (service : incident.Service F σ)
    (w : World F σ) :
    (∀ (query : gin.Query) (req : incident.ListReq), query.lookup "limit" = none →
      gin.ShouldBindQuery query = (req, none) →
      req.Limit = 0 ∧
      (incident.Handler.list service query w).2.calls
        = w.calls ++ [Call.IncList 0 req.Offset]) ∧
    (∀ (query : gin.Query) (req : incident.ListReq), query.lookup "offset" = none →
      gin.ShouldBindQuery query = (req, none) → req.Offset = 0) ∧
    gin.ShouldBindQuery [] = ({ Limit := 0, Offset := 0 }, none) ∧
    (incident.Handler.list service [] w).2.calls = w.calls ++ [Call.IncList 0 0] ∧
    (Call.IncList 0 0 : Call F) ≠ Call.IncList 10 0 := by
  have hcalls : ∀ (query : gin.Query) (req : incident.ListReq),
      gin.ShouldBindQuery query = (req, none) →
      (incident.Handler.list service query w).2.calls
        = w.calls ++ [Call.IncList req.Limit req.Offset] := by
    intro query req hb
    unfold incident.Handler.list
    rw [hb]
    simp only [incident.List, World.invoke]
    rcases (service.incRepo.List req.Limit req.Offset w.backend).1 with ⟨list, _ | err⟩ <;> rfl
  have hlimit : ∀ (query : gin.Query) (req : incident.ListReq), query.lookup "limit" = none →
      gin.ShouldBindQuery query = (req, none) → req.Limit = 0 := by
    intro query req hl hb
    unfold gin.ShouldBindQuery at hb
    rw [gin.bindInt_absent query "limit" 0 hl] at hb
    simp only at hb
    cases hbi : gin.bindInt query "offset" 0 with
    | error err =>
      rw [hbi] at hb
      simp at hb
    | ok offset =>
      rw [hbi] at hb
      simp only at hb
      split at hb
      · rw [← (Prod.mk.inj hb).1]
      · simp at hb
  have hoffset : ∀ (query : gin.Query) (req : incident.ListReq),
      query.lookup "offset" = none → gin.ShouldBindQuery query = (req, none) →
      req.Offset = 0 := by
    intro query req hl hb
    unfold gin.ShouldBindQuery at hb
    rw [gin.bindInt_absent query "offset" 0 hl] at hb
    cases hbi : gin.bindInt query "limit" 0 with
    | error err =>
      rw [hbi] at hb
      simp at hb
    | ok limit =>
      rw [hbi] at hb
      simp only at hb
      split at hb
      · rw [← (Prod.mk.inj hb).1]
      · simp at hb
  refine ⟨?_, hoffset, by decide, ?_, by simp⟩
  · intro query req hl hb
    have h0 := hlimit query req hl hb
    refine ⟨h0, ?_⟩
    rw [hcalls query req hb, h0]
  · exact hcalls [] { Limit := 0, Offset := 0 } (by decide)

/-- The listing of the table of two rows for a request without parameters: the query runs
with `LIMIT 0`, and the response is the nil list. -/
theorem incident.Handler.list_empty_on_store :
    (incident.Handler.list (incident.storeService 0) [] (World.init (app.twoRows ℝ) 0)).1
      = response.Written.OK Slice.nil ∧
    (incident.Handler.list (incident.storeService 0) [("limit", "10")]
      (World.init (app.twoRows ℝ) 0)).1
      = response.Written.OK
          (Slice.mk [incident.Repo.scanIncident
              { id := 2
                location := postgis.ST_MakePoint (Float64Ops.ofInt 0) (Float64Ops.ofInt 0)
                radius_meters := 500
                is_active := true
                created_at := 0
                updated_at := 0 },
            incident.Repo.scanIncident (app.testRow ℝ)]) := by
  constructor
  · rfl
  · rfl

/-! ## Two updates one after the other -/

/-- An `Update` whose new centre is within the distance `1.0` of the centre of another stored
incident is refused with `ErrIncidentExists` when its id exists, and changes no row. -/
theorem incident.Repo.Update_refused_near {F : Type} [Float64Ops F] [PostGIS F]
    (params : models.UpdateIncidentParams F) (db : DB F) (hq : db.quiet 2)
    (other : IncidentRow F) (hmem : other ∈ db.incidents) (hid : other.id ≠ params.ID)
    (hnear : PostGIS.ST_DWithin other.location
      (postgis.ST_MakePoint params.Longitude params.Latitude) (Float64Ops.ofInt 1) = true)
    (hex : ∃ r ∈ db.incidents, r.id = params.ID) :
    (incident.Repo.Update params db).1 = (none, some errs.ErrIncidentExists) ∧
    (incident.Repo.Update params db).2.incidents = db.incidents := by
  have hany : db.incidents.any (fun r =>
      decide (r.id ≠ params.ID) && PostGIS.ST_DWithin r.location
        (postgis.ST_MakePoint params.Longitude params.Latitude) (Float64Ops.ofInt 1)) = true := by
    rw [List.any_eq_true]
    exact ⟨other, hmem, by rw [Bool.and_eq_true]; exact ⟨decide_eq_true hid, hnear⟩⟩
  have hexists : db.incidents.any (fun r => decide (r.id = params.ID)) = true :=
    (IncidentRow.any_id_iff params.ID db.incidents).mpr hex
  obtain ⟨hexec, hq1⟩ := DB.exec_quiet 1 db hq
  unfold incident.Repo.Update sql.updateIncident
  rw [hexec]
  simp only
  rw [if_pos hany]
  simp only
  rw [if_pos (by decide), sql.existsIncident_quiet 0 params.ID _ hq1]
  simp only [hexists]
  exact ⟨rfl, rfl⟩

/-- What a successful `Update` leaves: the row of the id stands at the new centre, and the
ids of the table are as before. -/
theorem incident.Repo.Update_ok {F : Type} [Float64Ops F] [PostGIS F]
    (params : models.UpdateIncidentParams F) (db : DB F)
    (hok : (incident.Repo.Update params db).1.2 = none) :
    (∃ r ∈ (incident.Repo.Update params db).2.incidents, r.id = params.ID ∧
      r.location = postgis.ST_MakePoint params.Longitude params.Latitude) ∧
    (incident.Repo.Update params db).2.incidents.map (fun r => r.id)
      = db.incidents.map (fun r => r.id) ∧
    (incident.Repo.Update params db).2.faults = db.faults.tail := by
  unfold incident.Repo.Update sql.updateIncident at hok ⊢
  rcases DB.exec_cases db with h | ⟨text, rest, hf, h⟩
  · rw [h] at hok ⊢
    simp only at hok ⊢
    by_cases hany : db.incidents.any (fun r =>
        decide (r.id ≠ params.ID) && PostGIS.ST_DWithin r.location
          (postgis.ST_MakePoint params.Longitude params.Latitude) (Float64Ops.ofInt 1)) = true
    · rw [if_pos hany] at hok
      simp only at hok
      rw [if_pos (by decide)] at hok
      rcases sql.existsIncident_cases params.ID { db with faults := db.faults.tail } with
        hc | ⟨t, r, _, hc⟩
      · rw [hc] at hok
        simp only at hok
        split at hok <;> simp at hok
      · rw [hc] at hok
        simp at hok
    · rw [if_neg hany] at hok ⊢
      cases hfind : db.incidents.find? (fun r => decide (r.id = params.ID)) with
      | none =>
        rw [hfind] at hok
        simp only at hok
        rw [if_pos (by decide)] at hok
        rcases sql.existsIncident_cases params.ID { db with faults := db.faults.tail } with
          hc | ⟨t, r, _, hc⟩
        · rw [hc] at hok
          simp only at hok
          split at hok <;> simp at hok
        · rw [hc] at hok
          simp at hok
      | some row =>
        simp only
        have hrow := List.find?_some hfind
        have hmem := List.mem_of_find?_eq_some hfind
        simp only [decide_eq_true_eq] at hrow
        refine ⟨⟨{ row with
            location := postgis.ST_MakePoint params.Longitude params.Latitude
            radius_meters := params.Radius
            updated_at := db.now }, ?_, hrow, rfl⟩, ?_,
          by first | rfl | trivial⟩
        · rw [List.mem_map]
          exact ⟨row, hmem, by rw [if_pos hrow]⟩
        · exact IncidentRow.map_update_ids params.ID _ params.Radius db.now db.incidents
  · rw [h] at hok
    simp only at hok
    rw [if_neg (by simp [Error.Is, pgx.ErrNoRows])] at hok
    simp at hok

/-- Two updates one after the other, of two incidents moved to within the distance `1.0` of
each other: once the first has succeeded, the second returns `ErrIncidentExists` and changes
no row. -/
theorem incident.Repo.Update_serial_pair {F : Type} [Float64Ops F] [PostGIS F]
    (first second : models.UpdateIncidentParams F) (db : DB F) (hq : db.quiet 3)
    (hids : first.ID ≠ second.ID)
    (hnear : PostGIS.ST_DWithin (postgis.ST_MakePoint first.Longitude first.Latitude)
      (postgis.ST_MakePoint second.Longitude second.Latitude) (Float64Ops.ofInt 1) = true)
    (hex : ∃ r ∈ db.incidents, r.id = second.ID)
    (hok : (incident.Repo.Update first db).1.2 = none) :
    (incident.Repo.Update second (incident.Repo.Update first db).2).1
      = (none, some errs.ErrIncidentExists) ∧
    (incident.Repo.Update second (incident.Repo.Update first db).2).2.incidents
      = (incident.Repo.Update first db).2.incidents := by
  obtain ⟨⟨row, hmem, hrid, hloc⟩, hmap, hfaults⟩ := incident.Repo.Update_ok first db hok
  have hq2 : (incident.Repo.Update first db).2.quiet 2 :=
    DB.quiet_tail 2 db _ hq hfaults
  have hex2 : ∃ r ∈ (incident.Repo.Update first db).2.incidents, r.id = second.ID := by
    obtain ⟨r, hr, hrid2⟩ := hex
    have : second.ID ∈ (incident.Repo.Update first db).2.incidents.map (fun r => r.id) := by
      rw [hmap, List.mem_map]
      exact ⟨r, hr, hrid2⟩
    rw [List.mem_map] at this
    exact this
  exact incident.Repo.Update_refused_near second _ hq2 row hmem (by rw [hrid]; exact hids)
    (by rw [hloc]; exact hnear) hex2

end GeoAlerts
